import Mathlib

/-!
# v2ray-core dispatch core

A shallow embedding of the in-memory pipe (`transport/pipe/impl.go`), of the cached
reader, the sniffer and the dispatcher (`app/dispatcher/default.go`), of the stat
writers (`app/dispatcher/stats.go`), of the context slots
(`common/session/context.go`), of the latency balancer
(`app/router/balancing_latency.go`), of the latency probe (`app/measure/measure.go`)
and of the UDP dispatcher (`transport/internet/udp/dispatcher.go`), followed by the
properties proved about them.

Conventions of the embedding.

* A Go `error` is `Option error`; `none` is Go's `nil`.
* A Go slice that may be `nil` is an `Option (List _)`; `none` is the nil slice.
* The mutex of the pipe makes `readMultiBufferInternal`, `writeMultiBufferInternal`,
  `Close` and `Interrupt` atomic; each is a function from the pipe to the new pipe.
* A call that blocks in a `select` is resumed by one of the cases of that `select`.
  The blocking methods take the list of the cases that fire, one per time the
  call parks, whatever made the case ready; the result `none` means the call is
  still parked when the list is used up.  With the empty list a call is a single
  pass through its loop; for the stream methods that pass is the unit at which
  the calls of the writing and of the reading goroutine interleave.
* A notifier is a flag that tells whether a signal is pending, and the done
  instance a flag that tells whether it is closed (package `signal` is not part
  of the sources at hand).
* A Go function that can panic gives an `Option`; `none` is the panic.
* What a function does to its collaborators (calls of the routing dispatcher, writes
  to a link, calls of a handler) is part of its result, as the list of those calls.
* A `time.Duration` is its count of nanoseconds; `int64` arithmetic on durations
  and on byte counts goes through `wrap64`.
* What the surroundings of a function decide is an input of the function: the clock,
  the random source, whether a context is done, what a concurrent writer did to a
  pipe, the answers of a classifier or of a wrapped writer.
* A loop without a bound of its own takes a bound on its iterations; the result
  `none` then also means that the bound was reached.
-/

namespace V2Ray

/-! ## Package `buf` (not part of the sources at hand) -/

/-- One byte. -/
abbrev Byte := Fin 256

/-- Modelled from the spec: `buf.Buffer`, a fixed-capacity byte buffer, seen as the
bytes it currently holds.  A nil buffer and a buffer of length zero are both `[]`. -/
abbrev Buffer := List Byte

/-- Modelled from the spec: `buf.MultiBuffer`, "an ordered sequence of fixed-capacity
byte buffers".  It is a Go slice; `none` is the nil slice. -/
abbrev MultiBuffer := Option (List Buffer)

namespace MultiBuffer

/-- The bytes carried by a MultiBuffer, in order. -/
def bytes : MultiBuffer → List Byte
  | none => []
  | some bs => bs.flatten

/-- Modelled from the spec: `MultiBuffer.Len`, "Length = sum of buffer lengths".  The
sum is taken in the integers: the buffered sizes are taken to stay within the range
of the `int32` the Go method returns. -/
def Len : MultiBuffer → Int
  | none => 0
  | some bs => ((bs.map List.length).sum : Nat)

/-- Modelled from the spec: `MultiBuffer.IsEmpty`, true when no buffer holds a byte. -/
def IsEmpty : MultiBuffer → Bool
  | none => true
  | some bs => bs.all (fun b => b.isEmpty)

/-- Modelled from the spec: `MultiBuffer.Copy`, "copy-out": fills a byte slice with
room for `room` bytes from the front of the MultiBuffer, which is left untouched;
the result is the bytes copied. -/
def Copy (mb : MultiBuffer) (room : Nat) : List Byte :=
  mb.bytes.take room

end MultiBuffer

/-- Modelled from the spec: `buf.MergeMulti`, "merge", which appends `src` to `dest`
(Go `append`, so that a nil `dest` stays nil when `src` has no buffer). -/
def MergeMulti : MultiBuffer → MultiBuffer → MultiBuffer
  | none, none => none
  | none, some [] => none
  | none, some (b :: bs) => some (b :: bs)
  | some d, none => some d
  | some d, some s => some (d ++ s)

/-- Modelled from the spec: `buf.ReleaseMulti`, "release (return buffers to
allocator)"; the result is the slice cut to length zero. -/
def ReleaseMulti : MultiBuffer → MultiBuffer
  | none => none
  | some _ => some []

/-! ## Package `pipe`: `transport/pipe/impl.go` -/

/-- The `state` of a pipe. -/
inductive state where
  | open_
  | closed
  | errord
  deriving DecidableEq

/-- The error values the pipe returns or uses internally. -/
inductive error where
  | ErrClosedPipe
  | EOF
  | ErrReadTimeout
  | errBufferFull
  | errBufferEmpty
  | errSlowDown
  deriving DecidableEq

/-- The options of a pipe. -/
structure pipeOption where
  limit : Int
  discardOverflow : Bool
  deriving DecidableEq

/-- Method `pipeOption.isFull`. -/
def pipeOption.isFull (o : pipeOption) (curSize : Int) : Bool :=
  decide (o.limit ≥ 0) && decide (curSize > o.limit)

/-- A UDP address, by its identity. -/
abbrev UDPAddr := Nat

/-- A queued datagram. -/
structure udpPacket where
  data : Buffer
  addr : UDPAddr
  deriving DecidableEq

/-- The shared state of a pipe.  `packets` is the content of the channel, oldest
first, and `packetsCap` its capacity; `readSignal` and `writeSignal` tell whether
the notifier holds a pending signal; `done` tells whether the done instance is
closed. -/
structure pipe where
  data : MultiBuffer
  packets : List udpPacket
  packetsCap : Nat
  readSignal : Bool
  writeSignal : Bool
  done : Bool
  option : pipeOption
  state : state
  deriving DecidableEq

/-- The case that resumes a call parked in
`select { case <-signal.Wait(): case <-p.done.Wait(): }`. -/
inductive Wake where
  | signal
  | done
  deriving DecidableEq

/-- The case that resumes a call parked in the `select` of `ReadMultiBufferTimeout`. -/
inductive TimedWake where
  | signal
  | done
  | timer
  deriving DecidableEq

namespace pipe

/-- Method `pipe.getState`. -/
def getState (p : pipe) (forRead : Bool) (forPacket : Bool) : Option error :=
  match p.state with
  | state.open_ =>
    if !forPacket && !forRead && p.option.isFull p.data.Len then
      some error.errBufferFull
    else
      none
  | state.closed =>
    if !forRead then
      some error.ErrClosedPipe
    else if !forPacket && !p.data.IsEmpty then
      none
    else if forPacket && p.packets.length == 0 then
      none
    else
      some error.EOF
  | state.errord => some error.ErrClosedPipe

/-- Method `pipe.readMultiBufferInternal`. -/
def readMultiBufferInternal (p : pipe) : pipe × MultiBuffer × Option error :=
  match p.getState true false with
  | some err => (p, none, some err)
  | none => ({ p with data := none }, p.data, none)

/-- Method `pipe.ReadMultiBuffer`. -/
def ReadMultiBuffer (p : pipe) (wakes : List Wake) :
    pipe × Option (MultiBuffer × Option error) :=
  let r := p.readMultiBufferInternal
  if r.2.1.isSome || r.2.2.isSome then
    ({ r.1 with writeSignal := true }, some (r.2.1, r.2.2))
  else
    match wakes with
    | [] => (r.1, none)
    | Wake.signal :: ws => ReadMultiBuffer { r.1 with readSignal := false } ws
    | Wake.done :: ws => ReadMultiBuffer r.1 ws

/-- Method `pipe.ReadPacket`.  The result is the triple (data, addr, err). -/
def ReadPacket (p : pipe) (wakes : List Wake) :
    pipe × Option (Option Buffer × Option UDPAddr × Option error) :=
  if (p.getState true true).isSome then
    (p, some (none, none, p.getState true true))
  else if !p.packets.isEmpty then
    ({ p with packets := p.packets.tail, writeSignal := true },
      some (p.packets.head?.map udpPacket.data, p.packets.head?.map udpPacket.addr, none))
  else
    match wakes with
    | [] => (p, none)
    | Wake.signal :: ws => ReadPacket { p with readSignal := false } ws
    | Wake.done :: _ => (p, some (none, none, some error.ErrClosedPipe))

/-- Method `pipe.ReadMultiBufferTimeout`.  The duration only decides when the `timer` case
of the `select` can fire. -/
def ReadMultiBufferTimeout (p : pipe) (wakes : List TimedWake) :
    pipe × Option (MultiBuffer × Option error) :=
  let r := p.readMultiBufferInternal
  if r.2.1.isSome || r.2.2.isSome then
    ({ r.1 with writeSignal := true }, some (r.2.1, r.2.2))
  else
    match wakes with
    | [] => (r.1, none)
    | TimedWake.signal :: ws => ReadMultiBufferTimeout { r.1 with readSignal := false } ws
    | TimedWake.done :: ws => ReadMultiBufferTimeout r.1 ws
    | TimedWake.timer :: _ => (r.1, some (none, some error.ErrReadTimeout))

/-- Method `pipe.writeMultiBufferInternal`. -/
def writeMultiBufferInternal (p : pipe) (mb : MultiBuffer) : pipe × Option error :=
  match p.getState false false with
  | some err => (p, some err)
  | none =>
    if p.data.isNone then
      ({ p with data := mb }, none)
    else
      ({ p with data := MergeMulti p.data mb }, some error.errSlowDown)

/-- The `for` loop of `pipe.WriteMultiBuffer`. -/
def writeLoop (mb : MultiBuffer) (p : pipe) (wakes : List Wake) : pipe × Option (Option error) :=
  let r := p.writeMultiBufferInternal mb
  if r.2 = none then
    ({ r.1 with readSignal := true }, some none)
  else if r.2 = some error.errSlowDown then
    ({ r.1 with readSignal := true }, some none)
  else if r.2 = some error.errBufferFull && p.option.discardOverflow then
    (r.1, some none)
  else if r.2 ≠ some error.errBufferFull then
    ({ r.1 with readSignal := true }, some r.2)
  else
    match wakes with
    | [] => (r.1, none)
    | Wake.signal :: ws => writeLoop mb { r.1 with writeSignal := false } ws
    | Wake.done :: _ => (r.1, some (some error.ErrClosedPipe))

/-- Method `pipe.WriteMultiBuffer`. -/
def WriteMultiBuffer (p : pipe) (mb : MultiBuffer) (wakes : List Wake) :
    pipe × Option (Option error) :=
  if mb.IsEmpty then (p, some none) else writeLoop mb p wakes

/-- The `for` loop of `pipe.WritePacket`. -/
def writePacketLoop (payload : Buffer) (dest : UDPAddr) (p : pipe) (wakes : List Wake) :
    pipe × Option (Option error) :=
  if (p.getState false true).isSome then
    (p, some (p.getState false true))
  else if p.packets.length < p.packetsCap then
    ({ p with packets := p.packets ++ [{ data := payload, addr := dest }], readSignal := true },
      some none)
  else if p.option.discardOverflow then
    (p, some none)
  else
    match wakes with
    | [] => (p, none)
    | Wake.signal :: ws => writePacketLoop payload dest { p with writeSignal := false } ws
    | Wake.done :: _ => (p, some (some error.ErrClosedPipe))

/-- Method `pipe.WritePacket`. -/
def WritePacket (p : pipe) (payload : Buffer) (dest : UDPAddr) (wakes : List Wake) :
    pipe × Option (Option error) :=
  if payload.isEmpty then (p, some none) else writePacketLoop payload dest p wakes

/-- Method `pipe.Close`. -/
def Close (p : pipe) : pipe × Option error :=
  if p.state = state.closed || p.state = state.errord then
    (p, none)
  else
    ({ p with state := state.closed, done := true }, none)

/-- Method `pipe.Interrupt`. -/
def Interrupt (p : pipe) : pipe :=
  let p1 := if !p.data.IsEmpty then { p with data := none } else p
  if p1.state = state.closed || p1.state = state.errord then
    { p1 with state := state.errord }
  else
    { p1 with state := state.errord, done := true }

/-- Modelled from the spec: `pipe.New` (pipe.go is not part of the sources at hand),
which creates the pipe empty and open with the given options; `packetsCap` is the
capacity it gives the packet channel. -/
def New (option : pipeOption) (packetsCap : Nat) : pipe :=
  { data := none, packets := [], packetsCap := packetsCap, readSignal := false,
    writeSignal := false, done := false, option := option, state := state.open_ }

end pipe

/-! ## The cached reader of `app/dispatcher/default.go` -/

/-- The `cachedReader`.  Its `reader` is a `pipe.Reader`, which forwards every call to
the pipe it wraps (reader.go is not part of the sources at hand), so the field holds
that pipe. -/
structure cachedReader where
  reader : pipe
  cache : MultiBuffer
  deriving DecidableEq

namespace cachedReader

/-- Method `cachedReader.Cache`.  `Size` is `buf.Size`, the capacity of a buffer.  The
result is the reader afterwards and the content left in the scratch buffer `b`,
or `none` while the read of the inner reader has not returned. -/
def Cache (r : cachedReader) (Size : Nat) (wakes : List TimedWake) :
    Option (cachedReader × Buffer) :=
  match r.reader.ReadMultiBufferTimeout wakes with
  | (_, none) => none
  | (p1, some (mb, _)) =>
    let cache := if !mb.IsEmpty then MergeMulti r.cache mb else r.cache
    some ({ reader := p1, cache := cache }, cache.Copy Size)

/-- Method `cachedReader.readInternal`. -/
def readInternal (r : cachedReader) : cachedReader × MultiBuffer :=
  if r.cache.isSome && !r.cache.IsEmpty then
    ({ r with cache := none }, r.cache)
  else
    (r, none)

/-- Method `cachedReader.ReadMultiBuffer`. -/
def ReadMultiBuffer (r : cachedReader) (wakes : List Wake) :
    cachedReader × Option (MultiBuffer × Option error) :=
  let q := r.readInternal
  if q.2.isSome then
    (q.1, some (q.2, none))
  else
    let res := q.1.reader.ReadMultiBuffer wakes
    ({ q.1 with reader := res.1 }, res.2)

/-- Method `cachedReader.ReadMultiBufferTimeout`. -/
def ReadMultiBufferTimeout (r : cachedReader) (wakes : List TimedWake) :
    cachedReader × Option (MultiBuffer × Option error) :=
  let q := r.readInternal
  if q.2.isSome then
    (q.1, some (q.2, none))
  else
    let res := q.1.reader.ReadMultiBufferTimeout wakes
    ({ q.1 with reader := res.1 }, res.2)

/-- Method `cachedReader.Interrupt`. -/
def Interrupt (r : cachedReader) : cachedReader :=
  { reader := r.reader.Interrupt,
    cache := if r.cache.isSome then ReleaseMulti r.cache else r.cache }

end cachedReader

/-! ## Runs of calls on one pipe -/

/-- A call of the stream interface, as one pass through its loop: a call that parks
and is resumed later appears as a further pass, so that a list of passes is an
interleaving of the calls of the writing and of the reading goroutine. -/
inductive StreamCall where
  | write (mb : MultiBuffer)
  | read
  deriving DecidableEq

/-- The bytes a pass of `WriteMultiBuffer mb` on `p` hands over to the pipe: those of
`mb` when `writeMultiBufferInternal` stores it (it returns nil or errSlowDown), none
when the write is dropped, rejected or parked. -/
def acceptedBytes (p : pipe) (mb : MultiBuffer) : List Byte :=
  if mb.IsEmpty then []
  else if (p.writeMultiBufferInternal mb).2 = none
      ∨ (p.writeMultiBufferInternal mb).2 = some error.errSlowDown then mb.bytes
  else []

/-- The bytes a read hands to its caller. -/
def readBytes : Option (MultiBuffer × Option error) → List Byte
  | none => []
  | some (mb, _) => mb.bytes

/-- What a run of stream calls leaves: the pipe, the bytes returned by the reads
and the bytes of the accepted writes, both in the order of the calls. -/
structure StreamRun where
  final : pipe
  read : List Byte
  accepted : List Byte
  deriving DecidableEq

/-- Runs the calls in order on the pipe. -/
def runStream : pipe → List StreamCall → StreamRun
  | p, [] => { final := p, read := [], accepted := [] }
  | p, StreamCall.write mb :: cs =>
    let t := runStream (p.WriteMultiBuffer mb []).1 cs
    { t with accepted := acceptedBytes p mb ++ t.accepted }
  | p, StreamCall.read :: cs =>
    let t := runStream (p.ReadMultiBuffer []).1 cs
    { t with read := readBytes (p.ReadMultiBuffer []).2 ++ t.read }

/-- A call of a method of the pipe, with the cases that resume it when it parks. -/
inductive Call where
  | WriteMultiBuffer (mb : MultiBuffer) (wakes : List Wake)
  | ReadMultiBuffer (wakes : List Wake)
  | ReadMultiBufferTimeout (wakes : List TimedWake)
  | ReadPacket (wakes : List Wake)
  | WritePacket (payload : Buffer) (dest : UDPAddr) (wakes : List Wake)
  | Close
  | Interrupt
  deriving DecidableEq

/-- The pipe after the call. -/
def exec (p : pipe) : Call → pipe
  | Call.WriteMultiBuffer mb wakes => (p.WriteMultiBuffer mb wakes).1
  | Call.ReadMultiBuffer wakes => (p.ReadMultiBuffer wakes).1
  | Call.ReadMultiBufferTimeout wakes => (p.ReadMultiBufferTimeout wakes).1
  | Call.ReadPacket wakes => (p.ReadPacket wakes).1
  | Call.WritePacket payload dest wakes => (p.WritePacket payload dest wakes).1
  | Call.Close => p.Close.1
  | Call.Interrupt => p.Interrupt

/-- The pipe after the calls, issued in order. -/
def run : pipe → List Call → pipe
  | p, [] => p
  | p, c :: cs => run (exec p c) cs

/-- The size of the MultiBuffer a call writes, 0 for the other calls. -/
def writeSize : Call → Int
  | Call.WriteMultiBuffer mb _ => mb.Len
  | _ => 0

/-- The size of the largest single write among the calls, 0 when there is none. -/
def maxWrite : List Call → Int
  | [] => 0
  | c :: cs => max (writeSize c) (maxWrite cs)

/-! ## Runs of calls on one cached reader -/

/-- A call on a cached reader: one of its own methods, or a call that the other
users of the inner pipe (the writing side) make on that pipe in between. -/
inductive ReaderCall where
  | Cache (wakes : List TimedWake)
  | ReadMultiBuffer (wakes : List Wake)
  | ReadMultiBufferTimeout (wakes : List TimedWake)
  | inner (c : Call)
  deriving DecidableEq

/-- Whether the call is a read through the cached reader. -/
def ReaderCall.isRead : ReaderCall → Bool
  | ReaderCall.ReadMultiBuffer _ => true
  | ReaderCall.ReadMultiBufferTimeout _ => true
  | _ => false

/-- Whether the call is a `Cache` call. -/
def ReaderCall.isCache : ReaderCall → Bool
  | ReaderCall.Cache _ => true
  | _ => false

/-- What a run of calls on a cached reader leaves: the reader, the bytes the inner
reader delivered to it, the bytes its reads returned, and the content each `Cache`
call that returned left in the scratch buffer, all in the order of the calls. -/
structure ReaderRun where
  final : cachedReader
  delivered : List Byte
  returned : List Byte
  exposed : List Buffer
  deriving DecidableEq

/-- Runs the calls in order on the cached reader; `Size` is `buf.Size`.  The inner
reader is called by `Cache`, and by a read when `readInternal` returns nil. -/
def runReader (Size : Nat) : cachedReader → List ReaderCall → ReaderRun
  | r, [] => { final := r, delivered := [], returned := [], exposed := [] }
  | r, ReaderCall.Cache wakes :: cs =>
    match r.Cache Size wakes with
    | some (r2, b) =>
      let t := runReader Size r2 cs
      { t with delivered := readBytes (r.reader.ReadMultiBufferTimeout wakes).2 ++ t.delivered,
               exposed := b :: t.exposed }
    | none => runReader Size { r with reader := (r.reader.ReadMultiBufferTimeout wakes).1 } cs
  | r, ReaderCall.ReadMultiBuffer wakes :: cs =>
    let t := runReader Size (r.ReadMultiBuffer wakes).1 cs
    { t with
      delivered := (if r.readInternal.2.isSome then []
        else readBytes (r.reader.ReadMultiBuffer wakes).2) ++ t.delivered,
      returned := readBytes (r.ReadMultiBuffer wakes).2 ++ t.returned }
  | r, ReaderCall.ReadMultiBufferTimeout wakes :: cs =>
    let t := runReader Size (r.ReadMultiBufferTimeout wakes).1 cs
    { t with
      delivered := (if r.readInternal.2.isSome then []
        else readBytes (r.reader.ReadMultiBufferTimeout wakes).2) ++ t.delivered,
      returned := readBytes (r.ReadMultiBufferTimeout wakes).2 ++ t.returned }
  | r, ReaderCall.inner c :: cs => runReader Size { r with reader := exec r.reader c } cs

/-! ## Packages `net`, `session` and `log`, as far as the dispatcher uses them -/

/-- The network of a destination. -/
inductive Network where
  | Unknown
  | TCP
  | UDP
  deriving DecidableEq

/-- An address, IP or domain, in its textual form. -/
abbrev Address := String

/-- A `net.Destination`. -/
structure Destination where
  Address : Address
  Port : Nat
  Network : Network
  deriving DecidableEq

/-- Modelled from the spec: `Destination.IsValid` (package net is not part of the
sources at hand): "valid (non-zero port, known network)". -/
def Destination.IsValid (d : Destination) : Bool :=
  decide (d.Network ≠ Network.Unknown) && decide (d.Port ≠ 0)

/-- The functions of package net the dispatcher calls, taken as given:
`net.ParseAddress`, `Destination.String` and `Destination.NetAddr`. -/
structure netFns where
  ParseAddress : String → Address
  DestinationString : Destination → String
  NetAddr : Destination → String

/-- The `session.SniffingRequest`. -/
structure SniffingRequest where
  OverrideDestinationForProtocol : List String
  Enabled : Bool
  deriving DecidableEq

/-- The `session.Content`, with the fields the dispatcher reads or writes. -/
structure Content where
  Protocol : String
  SniffingRequest : SniffingRequest
  RemoteAddr : String
  Extra : String
  deriving DecidableEq

/-- The `session.Outbound`, with the field the dispatcher writes. -/
structure Outbound where
  Target : Destination
  deriving DecidableEq

/-- The `session.Inbound`, with the fields the UDP dispatcher reads. -/
structure Inbound where
  Source : Destination
  NoSource : Bool
  deriving DecidableEq

/-- The `session.ProxyRecord`, with the fields the dispatcher writes. -/
structure ProxyRecord where
  Target : String
  Tag : String
  deriving DecidableEq

/-- The traffic session of the stat tracker, with the fields the dispatcher sets. -/
structure Session where
  UploadBytes : Int
  DownloadBytes : Int
  RemoteAddr : String
  Extra : String
  OutboundTag : String
  deriving DecidableEq

/-- The `log.AccessMessage`, with the field the dispatcher writes. -/
structure AccessMessage where
  OutboundTag : String
  deriving DecidableEq

/-- The objects a per-flow context gives access to: for each slot the object its
pointer leads to, `none` when the slot is absent or holds nil.  An assignment
through such a pointer is an update of the slot. -/
structure Ctx where
  inbound : Option Inbound
  outbound : Option Outbound
  content : Option Content
  proxyRecord : Option ProxyRecord
  proxySession : Option Session
  accessMessage : Option AccessMessage
  deriving DecidableEq

/-! ## The dispatcher of `app/dispatcher/default.go` -/

/-- What a sniffer reports: `SniffResult.Protocol()` and `SniffResult.Domain()`. -/
structure SniffResult where
  Protocol : String
  Domain : String
  deriving DecidableEq

/-- Modelled from the spec: `strings.HasPrefix` of the Go library, on the characters
of the strings. -/
def HasPrefix (s p : String) : Bool :=
  p.toList.isPrefixOf s.toList

/-- Function `shouldOverride`. -/
def shouldOverride (result : SniffResult) : List String → Bool
  | [] => false
  | p :: domainOverride =>
    if HasPrefix result.Protocol p then true else shouldOverride result domainOverride

/-- An outbound handler, by its identity and its `Tag()`. -/
structure Handler where
  id : Nat
  Tag : String
  deriving DecidableEq

/-- The `outbound.Manager` as the dispatcher uses it. -/
structure Manager where
  GetHandler : String → Option Handler
  GetDefaultHandler : Option Handler

/-- The `routing.Router` as the dispatcher uses it; `PickRoute` gives `none` when it
returns an error. -/
structure Router where
  PickRoute : Ctx → Option String

/-- The `DefaultDispatcher`; `router` is `none` when the field is nil. -/
structure DefaultDispatcher where
  ohm : Manager
  router : Option Router

/-- The pipes of one flow.  The inbound link reads from `downlink` and writes to
`uplink`; the outbound link reads from `uplink` and writes to `downlink`.  `cached`
is `some cache` once the reader of the outbound link is the `cachedReader`, with its
cache.  The stat writers that `getLink` may wrap around the writers forward every
call to the writer of the pipe and are not part of this state. -/
structure Flow where
  uplink : pipe
  downlink : pipe
  cached : Option MultiBuffer
  deriving DecidableEq

/-- The call `common.Close(link.Writer)` on the outbound link: the writer, through
the stat writers, closes the downlink pipe. -/
def Flow.CloseWriter (link : Flow) : Flow :=
  { link with downlink := link.downlink.Close.1 }

/-- The call `common.Interrupt(link.Reader)` on the outbound link: the reader is the
reader of the uplink pipe, or the `cachedReader` over it. -/
def Flow.InterruptReader (link : Flow) : Flow :=
  match link.cached with
  | none => { link with uplink := link.uplink.Interrupt }
  | some cache =>
    { link with
      uplink := (cachedReader.Interrupt { reader := link.uplink, cache := cache }).reader,
      cached := some (cachedReader.Interrupt { reader := link.uplink, cache := cache }).cache }

/-- The pipes `getLink` creates; `opt` holds the ambient options of
`pipe.OptionsFromContext`, `packetsCap` the capacity `pipe.New` gives the packet
channel. -/
def getLink (opt : pipeOption) (packetsCap : Nat) (destination : Destination) : Flow :=
  if destination.Network = Network.UDP then
    { uplink := pipe.New { opt with discardOverflow := true } packetsCap,
      downlink := pipe.New opt packetsCap, cached := none }
  else
    { uplink := pipe.New { opt with limit := 32 * 1024 } packetsCap,
      downlink := pipe.New opt packetsCap, cached := none }

/-- The traffic session `getLink` creates when the context has a content. -/
def getLinkSession (ctx : Ctx) : Option Session :=
  match ctx.content with
  | none => none
  | some content =>
    some { UploadBytes := 0, DownloadBytes := 0, RemoteAddr := content.RemoteAddr,
           Extra := content.Extra, OutboundTag := "" }

/-- How `routedDispatch` ends: it found no handler and tore the link down, or it
stamped the tag of the handler, recorded the access message if there is one, called
`handler.Dispatch(ctx, link)` and removed the session. -/
inductive Routed where
  | tornDown (link : Flow)
  | handed (handler : Handler) (ctx : Ctx) (link : Flow) (recorded : Option AccessMessage)
  deriving DecidableEq

/-- The handler `routedDispatch` selects. -/
def selectHandler (d : DefaultDispatcher) (ctx : Ctx) : Option Handler :=
  let handler : Option Handler :=
    match d.router with
    | none => none
    | some router =>
      match router.PickRoute ctx with
      | some tag => d.ohm.GetHandler tag
      | none => none
  match handler with
  | some h => some h
  | none => d.ohm.GetDefaultHandler

/-- Method `DefaultDispatcher.routedDispatch`. -/
def DefaultDispatcher.routedDispatch (d : DefaultDispatcher) (ctx : Ctx) (link : Flow)
    (_destination : Destination) : Routed :=
  match selectHandler d ctx with
  | none => Routed.tornDown link.CloseWriter.InterruptReader
  | some handler =>
    let ctx1 := { ctx with
      proxyRecord := ctx.proxyRecord.map (fun record => { record with Tag := handler.Tag }),
      proxySession := ctx.proxySession.map (fun sess => { sess with OutboundTag := handler.Tag }),
      accessMessage := ctx.accessMessage.map (fun m => { m with OutboundTag := handler.Tag }) }
    Routed.handed handler ctx1 link ctx1.accessMessage

/-- A call `d.routedDispatch(ctx, link, destination)` made by `Dispatch`. -/
structure RoutedCall where
  ctx : Ctx
  link : Flow
  destination : Destination
  deriving DecidableEq

/-- What `Dispatch` does: the inbound link it returns is that of `link`, the pipes as
`getLink` created them; `snifferRuns` counts the calls of `sniffer`; `routedCalls`
lists the calls of `routedDispatch` made by the goroutine it starts. -/
structure Dispatched where
  link : Flow
  snifferRuns : Nat
  routedCalls : List RoutedCall
  deriving DecidableEq

/-- Method `DefaultDispatcher.Dispatch`, with the goroutine it starts.  `sniffer` is
the function `sniffer(ctx, cReader)`: it gives the cached reader afterwards and the
result, `Except.ok result` when the error is nil.  The result is `none` when
`Dispatch` panics on an invalid destination. -/
def DefaultDispatcher.Dispatch {ε : Type} (_d : DefaultDispatcher) (net : netFns)
    (opt : pipeOption) (packetsCap : Nat)
    (sniffer : Ctx → cachedReader → cachedReader × Except ε SniffResult)
    (ctx : Ctx) (destination : Destination) : Option Dispatched :=
  if !destination.IsValid then none
  else
    let ob : Outbound := { (ctx.outbound.getD { Target := destination }) with Target := destination }
    let ctx := { ctx with outbound := some ob }
    let outbound := getLink opt packetsCap destination
    let sess := getLinkSession ctx
    let ctx := { ctx with proxySession := sess }
    let content : Content := ctx.content.getD
      { Protocol := "", SniffingRequest := { OverrideDestinationForProtocol := [], Enabled := false },
        RemoteAddr := "", Extra := "" }
    let ctx := { ctx with content := some content }
    let sniffingRequest := content.SniffingRequest
    if destination.Network ≠ Network.TCP || !sniffingRequest.Enabled then
      some { link := outbound, snifferRuns := 0,
             routedCalls := [{ ctx := ctx, link := outbound, destination := destination }] }
    else
      let sniffed := sniffer ctx { reader := outbound.uplink, cache := none }
      let outbound1 : Flow :=
        { outbound with uplink := sniffed.1.reader, cached := some sniffed.1.cache }
      match sniffed.2 with
      | Except.error _ =>
        some { link := outbound, snifferRuns := 1,
               routedCalls := [{ ctx := ctx, link := outbound1, destination := destination }] }
      | Except.ok result =>
        let ctx := { ctx with content := some { content with Protocol := result.Protocol } }
        if shouldOverride result sniffingRequest.OverrideDestinationForProtocol then
          let destination1 := { destination with Address := net.ParseAddress result.Domain }
          let ctx := { ctx with
            outbound := some { ob with Target := destination1 },
            proxyRecord := ctx.proxyRecord.map
              (fun record => { record with Target := net.DestinationString destination1 }),
            proxySession := ctx.proxySession.map
              (fun sess => { sess with RemoteAddr := net.NetAddr destination1 }) }
          some { link := outbound, snifferRuns := 1,
                 routedCalls := [{ ctx := ctx, link := outbound1, destination := destination1 }] }
        else
          some { link := outbound, snifferRuns := 1,
                 routedCalls := [{ ctx := ctx, link := outbound1, destination := destination }] }

/-! ## The latency balancer of `app/router/balancing_latency.go` -/

/-- The value of an `int64` computation whose exact result is `x`. -/
def wrap64 (x : Int) : Int :=
  (x + 9223372036854775808) % 18446744073709551616 - 9223372036854775808

/-- A `Server`: the latency, a `time.Duration`, is a count of nanoseconds. -/
structure Server where
  latency : Int
  tag : String
  deriving DecidableEq

/-- The `LatencyStrategy`, with the fields `PickOutbound`, `selectServer` and the
end of `measureOnce` use; the durations are counts of nanoseconds, `lastMeasure` a
point in time. -/
structure LatencyStrategy where
  interval : Int
  tolerance : Int
  lastMeasure : Int
  servers : List Server
  selectedServer : Option Server
  deriving DecidableEq

namespace LatencyStrategy

/-- The `for` loop of `selectServer`, for a selected server that is not nil. -/
def selectServerLoop (tolerance : Int) (selected newBest : Server) : List Server → Option Server
  | [] => none
  | m :: newMeasures =>
    if m.tag = selected.tag then
      if newBest.latency < wrap64 (m.latency - tolerance) then some newBest else some m
    else selectServerLoop tolerance selected newBest newMeasures

/-- Method `LatencyStrategy.selectServer`.  The result is `none` when the method
panics on the nil `s.selectedServer`, and `some r` when it returns `r`, with `r = none`
for the nil pointer. -/
def selectServer (s : LatencyStrategy) (oldMeasures newMeasures : List Server) :
    Option (Option Server) :=
  if oldMeasures.length = 0 then
    if newMeasures.length > 0 then some newMeasures.head? else some none
  else if newMeasures.length = 0 then some s.selectedServer
  else
    match newMeasures.head?, s.selectedServer with
    | some newBest, some selected =>
      some (selectServerLoop s.tolerance selected newBest newMeasures)
    | _, _ => none

/-- The end of `measureOnce`, from `s.Lock()` to `s.Unlock()`, for the sorted list
`servers` of the new measures.  The result is `none` when it panics: in
`selectServer`, or on `s.selectedServer.tag` in the log line when the selection is
nil. -/
def publish (s : LatencyStrategy) (servers : List Server) : Option LatencyStrategy :=
  match s.selectServer s.servers servers with
  | none => none
  | some selected =>
    match selected with
    | none => none
    | some _ => some { s with selectedServer := selected, servers := servers }

end LatencyStrategy

/-! ## The probe of `app/measure/measure.go` -/

/-- The case of the `select` at the end of `MeasureLatency` that fires. -/
inductive ProbeEnd where
  | done
  | errCh
  | deadline
  deriving DecidableEq

/-- Function `MeasureLatency`.  `tgtParts` is `strings.Split(target, ":")`,
`destinationOk` tells whether `net.ParseDestination` returns no error, `probeEnd` is
the case of the `select` that fires and `elapsed` the value of `time.Since(start)`
read after it; the pipes, the handler and the two goroutines decide nothing else of
the result.  The result is `none` when the function panics. -/
def MeasureLatency (tgtParts : List String) (destinationOk : Bool) (timeout : Int)
    (probeEnd : ProbeEnd) (elapsed : Int) : Option Int :=
  if tgtParts.length ≠ 3 then none
  else if !destinationOk then none
  else
    match probeEnd with
    | ProbeEnd.done => some elapsed
    | ProbeEnd.errCh => some timeout
    | ProbeEnd.deadline => some timeout

/-! ## The UDP dispatcher of `transport/internet/udp/dispatcher.go` -/

namespace udp

/-- A `connEntry`.  Its link is known by the number of the call of the routing
dispatcher that returned it; its timer and its cancel function act on the dispatcher
only by calling `RemoveRay` with the source the entry was created for. -/
structure connEntry where
  link : Nat
  deriving DecidableEq

/-- The Go map `conns`, as the list of its entries in the order of their insertion. -/
abbrev connMap := List (Destination × connEntry)

/-- The lookup `v.conns[src]`. -/
def connMap.get : connMap → Destination → Option connEntry
  | [], _ => none
  | (k, e) :: rest, src => if k = src then some e else connMap.get rest src

/-- The assignment `v.conns[src] = entry`. -/
def connMap.set : connMap → Destination → connEntry → connMap
  | [], src, entry => [(src, entry)]
  | (k, e) :: rest, src, entry =>
    if k = src then (k, entry) :: rest else (k, e) :: connMap.set rest src entry

/-- The call `delete(v.conns, src)`. -/
def connMap.delete : connMap → Destination → connMap
  | [], _ => []
  | (k, e) :: rest, src => if k = src then rest else (k, e) :: connMap.delete rest src

/-- The UDP `Dispatcher`: its map `conns`, and the record of what it did to its
collaborators: `calls` lists the destinations of the calls `v.dispatcher.Dispatch(ctx,
dest)` in order, the call number n returning the link n; `writes` lists the calls
`WritePacket(payload, destination.UDPAddr())` with the link written to; `closed`
lists the links whose reader and writer `RemoveRay` closed. -/
structure Dispatcher where
  conns : connMap
  calls : List Destination
  writes : List (Nat × Buffer × Destination)
  closed : List Nat
  deriving DecidableEq

/-- Function `NewDispatcher`. -/
def NewDispatcher : Dispatcher :=
  { conns := [], calls := [], writes := [], closed := [] }

namespace Dispatcher

/-- Method `Dispatcher.RemoveRay`. -/
def RemoveRay (v : Dispatcher) (src : Destination) : Dispatcher :=
  match v.conns.get src with
  | some conn => { v with closed := v.closed ++ [conn.link], conns := v.conns.delete src }
  | none => v

/-- Method `Dispatcher.getInboundRay`: the dispatcher afterwards and the entry
returned. -/
def getInboundRay (v : Dispatcher) (nosrc : Bool) (src dest : Destination) :
    Dispatcher × connEntry :=
  match (if !nosrc then v.conns.get src else none) with
  | some entry => (v, entry)
  | none =>
    let entry : connEntry := { link := v.calls.length }
    ({ v with calls := v.calls ++ [dest], conns := v.conns.set src entry }, entry)

/-- Method `Dispatcher.Dispatch`.  `inbound` is `session.InboundFromContext(ctx)` and
`writeErr` the error `WritePacket` returns for this packet; the link has a writer.
The update of `content.RemoteAddr` in the context is not part of the dispatcher. -/
def Dispatch (v : Dispatcher) (inbound : Option Inbound) (destination : Destination)
    (payload : Buffer) (writeErr : Option error) : Dispatcher :=
  match inbound with
  | none => v
  | some inbound =>
    let r := v.getInboundRay inbound.NoSource inbound.Source destination
    let v1 := { r.1 with writes := r.1.writes ++ [(r.2.link, payload, destination)] }
    match writeErr with
    | some _ => v1.RemoveRay inbound.Source
    | none => v1

end Dispatcher

/-- A datagram handed to `Dispatch`, with the inbound of its context and the error
its `WritePacket` returns. -/
structure Packet where
  inbound : Option Inbound
  destination : Destination
  payload : Buffer
  writeErr : Option error
  deriving DecidableEq

/-- The datagram with the given payload for 8.8.8.8:53 that comes from port 5000 of the
host `host`, with the given `NoSource`, and whose write succeeds. -/
def Packet.fromHost (host : String) (nosrc : Bool) (payload : Buffer) : Packet :=
  { inbound := some { Source := { Address := host, Port := 5000, Network := Network.UDP },
                      NoSource := nosrc },
    destination := { Address := "8.8.8.8", Port := 53, Network := Network.UDP },
    payload := payload, writeErr := none }

/-- The dispatcher after the packets, dispatched in order. -/
def runDispatch : Dispatcher → List Packet → Dispatcher
  | v, [] => v
  | v, p :: ps => runDispatch (v.Dispatch p.inbound p.destination p.payload p.writeErr) ps

/-- The packet comes with the source `src` and without `NoSource`, and its write
succeeds, so that its `Dispatch` removes no entry. -/
def Packet.fromSource (p : Packet) (src : Destination) : Prop :=
  p.inbound = some { Source := src, NoSource := false } ∧ p.writeErr = none

/-- The source of the packet, for a packet that has an inbound. -/
def Packet.source (p : Packet) : Destination :=
  match p.inbound with
  | some inbound => inbound.Source
  | none => { Address := "", Port := 0, Network := Network.Unknown }

/-- The packets that are the first of their source, given the sources seen before:
those on which an entry is to be created. -/
def firstPackets : List Destination → List Packet → List Packet
  | _, [] => []
  | seen, p :: ps =>
    if p.source ∈ seen then firstPackets seen ps
    else p :: firstPackets (seen ++ [p.source]) ps

/-- One entry per packet, under the source of the packet, with the links n, n + 1,
and so on. -/
def entriesFrom : Nat → List Packet → connMap
  | _, [] => []
  | n, p :: ps => (p.source, { link := n }) :: entriesFrom (n + 1) ps

/-- One write per packet, to the links n, n + 1, and so on. -/
def writesFrom : Nat → List Packet → List (Nat × Buffer × Destination)
  | _, [] => []
  | n, p :: ps => (n, p.payload, p.destination) :: writesFrom (n + 1) ps

/-- The write of the packet to the link of the entry the map holds for its source. -/
def writeTo (conns : connMap) (p : Packet) : Nat × Buffer × Destination :=
  (((conns.get p.source).map connEntry.link).getD 0, p.payload, p.destination)

end udp

/-! ## Method `PickOutbound` of the latency balancer -/

/-- Modelled from the spec: `time.Time.Sub` of the Go library, the difference of two
points in time as a `time.Duration`, which stops at the largest and at the smallest
`int64`. -/
def Time.Sub (t u : Int) : Int :=
  max (-9223372036854775808) (min 9223372036854775807 (t - u))

/-- Modelled from the spec: `dice.Roll(n)`, a random index below `n`; `roll` is the
number the random source gives. -/
def dice.Roll (roll n : Nat) : Nat :=
  roll % n

/-- What a call of `PickOutbound` leaves: the strategy afterwards, the tag returned,
and whether `go s.measureOnce()` was started. -/
structure Picked where
  strategy : LatencyStrategy
  tag : String
  measureStarted : Bool
  deriving DecidableEq

/-- Method `LatencyStrategy.PickOutbound`, with the number `roll` of the random source
and the time `now` of `time.Now()`.  The result is `none` when the method panics. -/
def LatencyStrategy.PickOutbound (s : LatencyStrategy) (tags : List String) (roll : Nat)
    (now : Int) : Option Picked :=
  let n := tags.length
  if n = 0 then none
  else
    match s.selectedServer with
    | none =>
      match tags.get? (dice.Roll roll n) with
      | some tag => some { strategy := s, tag := tag, measureStarted := false }
      | none => none
    | some selectedServer =>
      if Time.Sub now s.lastMeasure > s.interval then
        some { strategy := { s with lastMeasure := now }, tag := selectedServer.tag,
               measureStarted := true }
      else
        some { strategy := s, tag := selectedServer.tag, measureStarted := false }

/-! ## The context slots of `common/session/context.go` -/

namespace session

/-- The six constants of type `sessionKey`. -/
inductive sessionKey where
  | idSessionKey
  | inboundSessionKey
  | outboundSessionKey
  | proxyRecordSessionKey
  | proxySessionSessionKey
  | contentSessionKey
  deriving DecidableEq

/-- A key of a `context.Context`: a `sessionKey`, or a key of a type of another
package, which is equal to no `sessionKey`. -/
inductive Key where
  | session (k : sessionKey)
  | foreign (n : Nat)
  deriving DecidableEq

/-- A value held by a context, with its dynamic type: an `ID`, or a pointer of one of
the five pointer types, given by the object it leads to and `none` for the nil pointer,
or a value of another type. -/
inductive Value where
  | id (id : Nat)
  | inbound (p : Option Inbound)
  | outbound (p : Option Outbound)
  | proxyRecord (p : Option ProxyRecord)
  | proxySession (p : Option Session)
  | content (p : Option Content)
  | foreign (n : Nat)
  deriving DecidableEq

/-- A `context.Context`, as far as its method `Value` goes: the pairs that the calls of
`context.WithValue` added, the latest first. -/
abbrev Context := List (Key × Value)

/-- Modelled from the spec: `context.Background()` of the Go library, which holds no
value. -/
def Background : Context := []

/-- Modelled from the spec: `context.WithValue` of the Go library, the context that
holds `val` for `key` and is `parent` for every other key. -/
def WithValue (parent : Context) (key : Key) (val : Value) : Context :=
  (key, val) :: parent

/-- Modelled from the spec: the method `Value` of a context, the value of the latest
`WithValue` for `key`, and `none`, the nil interface, when there is none. -/
def Context.Value : Context → Key → Option Value
  | [], _ => none
  | (k, v) :: parent, key => if k = key then some v else Context.Value parent key

/-- Function `ContextWithID`. -/
def ContextWithID (ctx : Context) (id : Nat) : Context :=
  WithValue ctx (Key.session sessionKey.idSessionKey) (Value.id id)

/-- Function `IDFromContext`. -/
def IDFromContext (ctx : Context) : Nat :=
  match ctx.Value (Key.session sessionKey.idSessionKey) with
  | some (Value.id id) => id
  | _ => 0

/-- Function `ContextWithInbound`. -/
def ContextWithInbound (ctx : Context) (inbound : Option Inbound) : Context :=
  WithValue ctx (Key.session sessionKey.inboundSessionKey) (Value.inbound inbound)

/-- Function `InboundFromContext`. -/
def InboundFromContext (ctx : Context) : Option Inbound :=
  match ctx.Value (Key.session sessionKey.inboundSessionKey) with
  | some (Value.inbound inbound) => inbound
  | _ => none

/-- Function `ContextWithOutbound`. -/
def ContextWithOutbound (ctx : Context) (outbound : Option Outbound) : Context :=
  WithValue ctx (Key.session sessionKey.outboundSessionKey) (Value.outbound outbound)

/-- Function `OutboundFromContext`. -/
def OutboundFromContext (ctx : Context) : Option Outbound :=
  match ctx.Value (Key.session sessionKey.outboundSessionKey) with
  | some (Value.outbound outbound) => outbound
  | _ => none

/-- Function `ContextWithProxyRecord`. -/
def ContextWithProxyRecord (ctx : Context) (record : Option ProxyRecord) : Context :=
  WithValue ctx (Key.session sessionKey.proxyRecordSessionKey) (Value.proxyRecord record)

/-- Function `ProxyRecordFromContext`. -/
def ProxyRecordFromContext (ctx : Context) : Option ProxyRecord :=
  match ctx.Value (Key.session sessionKey.proxyRecordSessionKey) with
  | some (Value.proxyRecord record) => record
  | _ => none

/-- Function `ContextWithContent`. -/
def ContextWithContent (ctx : Context) (content : Option Content) : Context :=
  WithValue ctx (Key.session sessionKey.contentSessionKey) (Value.content content)

/-- Function `ContentFromContext`. -/
def ContentFromContext (ctx : Context) : Option Content :=
  match ctx.Value (Key.session sessionKey.contentSessionKey) with
  | some (Value.content content) => content
  | _ => none

/-- Function `ContextWithProxySession`. -/
def ContextWithProxySession (ctx : Context) (sess : Option Session) : Context :=
  WithValue ctx (Key.session sessionKey.proxySessionSessionKey) (Value.proxySession sess)

/-- Function `ProxySessionFromContext`. -/
def ProxySessionFromContext (ctx : Context) : Option Session :=
  match ctx.Value (Key.session sessionKey.proxySessionSessionKey) with
  | some (Value.proxySession sess) => sess
  | _ => none

/-- What the six getters return on a context. -/
structure Slots where
  id : Nat
  inbound : Option Inbound
  outbound : Option Outbound
  proxyRecord : Option ProxyRecord
  proxySession : Option Session
  content : Option Content
  deriving DecidableEq

/-- The six getters on one context. -/
def slots (ctx : Context) : Slots :=
  { id := IDFromContext ctx, inbound := InboundFromContext ctx,
    outbound := OutboundFromContext ctx, proxyRecord := ProxyRecordFromContext ctx,
    proxySession := ProxySessionFromContext ctx, content := ContentFromContext ctx }

end session

/-! ## The stat writers of `app/dispatcher/stats.go` -/

/-- A `net.UDPAddr` that the argument `addr` of `WritePacket` points to: the address by
its identity, and its field `Port`. -/
structure PacketAddr where
  addr : UDPAddr
  Port : Int
  deriving DecidableEq

/-- A call that a `buf.LinkWriter` receives, with its arguments; `addr` is `none` for
the nil pointer. -/
inductive WriterCall where
  | WriteMultiBuffer (mb : MultiBuffer)
  | WritePacket (b : Buffer) (addr : Option PacketAddr)
  | Close
  | Interrupt
  deriving DecidableEq

/-- The `buf.LinkWriter` a stat writer wraps, which is any writer: `received` lists the
calls it has received, in order, and `answer` gives the error it returns to a call that
comes after the calls of a list, `none` for the nil error. -/
structure LinkWriter (ε : Type) where
  received : List WriterCall
  answer : List WriterCall → WriterCall → Option ε

namespace LinkWriter

/-- One call of a method of the writer: the writer afterwards, and the error. -/
def call {ε : Type} (w : LinkWriter ε) (c : WriterCall) : LinkWriter ε × Option ε :=
  ({ w with received := w.received ++ [c] }, w.answer w.received c)

/-- Method `WriteMultiBuffer` of the wrapped writer. -/
def WriteMultiBuffer {ε : Type} (w : LinkWriter ε) (mb : MultiBuffer) :
    LinkWriter ε × Option ε :=
  w.call (WriterCall.WriteMultiBuffer mb)

/-- Method `WritePacket` of the wrapped writer. -/
def WritePacket {ε : Type} (w : LinkWriter ε) (b : Buffer) (addr : Option PacketAddr) :
    LinkWriter ε × Option ε :=
  w.call (WriterCall.WritePacket b addr)

end LinkWriter

/-- Modelled from the spec: `common.Close`, which calls `Close` of an object that has
the method, as the writer of a link has, and returns its error. -/
def common.Close {ε : Type} (w : LinkWriter ε) : LinkWriter ε × Option ε :=
  w.call WriterCall.Close

/-- Modelled from the spec: `common.Interrupt`, which calls `Interrupt` of an object
that has the method, as the writer of a link has. -/
def common.Interrupt {ε : Type} (w : LinkWriter ε) : LinkWriter ε :=
  (w.call WriterCall.Interrupt).1

/-- Modelled from the spec: `Session.AddUploadBytes` of the stat tracker, which adds
`n` to the `int64` count `UploadBytes`. -/
def Session.AddUploadBytes (s : Session) (n : Int) : Session :=
  { s with UploadBytes := wrap64 (s.UploadBytes + n) }

/-- Modelled from the spec: `Session.AddDownloadBytes` of the stat tracker, which adds
`n` to the `int64` count `DownloadBytes`. -/
def Session.AddDownloadBytes (s : Session) (n : Int) : Session :=
  { s with DownloadBytes := wrap64 (s.DownloadBytes + n) }

/-- Modelled from the spec: a `stats.Counter`, by its `int64` value: "counter supports
`Add(int64)`". -/
structure Counter where
  value : Int
  deriving DecidableEq

/-- Modelled from the spec: `Counter.Add`. -/
def Counter.Add (c : Counter) (n : Int) : Counter :=
  { value := wrap64 (c.value + n) }

/-- The `InboundSizeWriter`: the session its pointer leads to, and the writer. -/
structure InboundSizeWriter (ε : Type) where
  Session : Session
  Writer : LinkWriter ε

namespace InboundSizeWriter

/-- Method `InboundSizeWriter.WriteMultiBuffer`: the stat writer afterwards, and the
error returned. -/
def WriteMultiBuffer {ε : Type} (w : InboundSizeWriter ε) (mb : MultiBuffer) :
    InboundSizeWriter ε × Option ε :=
  let session := w.Session.AddUploadBytes mb.Len
  let r := w.Writer.WriteMultiBuffer mb
  ({ Session := session, Writer := r.1 }, r.2)

/-- Method `InboundSizeWriter.WritePacket`.  `ParseDNSQuery` is the function of the
package `tdns`, which gives the type and the domain of a query, and `none` when it
returns an error.  The result is `none` when the method panics, on `addr.Port` for the
nil `addr`. -/
def WritePacket {ε : Type} (ParseDNSQuery : List Byte → Option (String × String))
    (w : InboundSizeWriter ε) (b : Buffer) (addr : Option PacketAddr) :
    Option (InboundSizeWriter ε × Option ε) :=
  let session := w.Session.AddUploadBytes b.length
  match addr with
  | none => none
  | some a =>
    let session :=
      if a.Port = 53 then
        match ParseDNSQuery b with
        | some (qtype, domain) => { session with Extra := qtype ++ ":" ++ domain }
        | none => session
      else session
    let r := w.Writer.WritePacket b addr
    some ({ Session := session, Writer := r.1 }, r.2)

/-- Method `InboundSizeWriter.Close`. -/
def Close {ε : Type} (w : InboundSizeWriter ε) : InboundSizeWriter ε × Option ε :=
  let r := common.Close w.Writer
  ({ w with Writer := r.1 }, r.2)

/-- Method `InboundSizeWriter.Interrupt`. -/
def Interrupt {ε : Type} (w : InboundSizeWriter ε) : InboundSizeWriter ε :=
  { w with Writer := common.Interrupt w.Writer }

end InboundSizeWriter

/-- The `OutboundSizeWriter`: the session its pointer leads to, and the writer. -/
structure OutboundSizeWriter (ε : Type) where
  Session : Session
  Writer : LinkWriter ε

namespace OutboundSizeWriter

/-- Method `OutboundSizeWriter.WriteMultiBuffer`. -/
def WriteMultiBuffer {ε : Type} (w : OutboundSizeWriter ε) (mb : MultiBuffer) :
    OutboundSizeWriter ε × Option ε :=
  let session := w.Session.AddDownloadBytes mb.Len
  let r := w.Writer.WriteMultiBuffer mb
  ({ Session := session, Writer := r.1 }, r.2)

/-- Method `OutboundSizeWriter.WritePacket`. -/
def WritePacket {ε : Type} (w : OutboundSizeWriter ε) (b : Buffer) (addr : Option PacketAddr) :
    OutboundSizeWriter ε × Option ε :=
  let session := w.Session.AddDownloadBytes b.length
  let r := w.Writer.WritePacket b addr
  ({ Session := session, Writer := r.1 }, r.2)

/-- Method `OutboundSizeWriter.Close`. -/
def Close {ε : Type} (w : OutboundSizeWriter ε) : OutboundSizeWriter ε × Option ε :=
  let r := common.Close w.Writer
  ({ w with Writer := r.1 }, r.2)

/-- Method `OutboundSizeWriter.Interrupt`. -/
def Interrupt {ε : Type} (w : OutboundSizeWriter ε) : OutboundSizeWriter ε :=
  { w with Writer := common.Interrupt w.Writer }

end OutboundSizeWriter

/-- The `SizeStatWriter`: its counter, and the writer. -/
structure SizeStatWriter (ε : Type) where
  Counter : Counter
  Writer : LinkWriter ε

namespace SizeStatWriter

/-- Method `SizeStatWriter.WriteMultiBuffer`. -/
def WriteMultiBuffer {ε : Type} (w : SizeStatWriter ε) (mb : MultiBuffer) :
    SizeStatWriter ε × Option ε :=
  let counter := w.Counter.Add mb.Len
  let r := w.Writer.WriteMultiBuffer mb
  ({ Counter := counter, Writer := r.1 }, r.2)

/-- Method `SizeStatWriter.WritePacket`. -/
def WritePacket {ε : Type} (w : SizeStatWriter ε) (b : Buffer) (addr : Option PacketAddr) :
    SizeStatWriter ε × Option ε :=
  let counter := w.Counter.Add b.length
  let r := w.Writer.WritePacket b addr
  ({ Counter := counter, Writer := r.1 }, r.2)

/-- Method `SizeStatWriter.Close`. -/
def Close {ε : Type} (w : SizeStatWriter ε) : SizeStatWriter ε × Option ε :=
  let r := common.Close w.Writer
  ({ w with Writer := r.1 }, r.2)

/-- Method `SizeStatWriter.Interrupt`. -/
def Interrupt {ε : Type} (w : SizeStatWriter ε) : SizeStatWriter ε :=
  { w with Writer := common.Interrupt w.Writer }

end SizeStatWriter

/-- The wrapped writer `after` is the writer `before` after it received the one call
`c` and nothing else, and `err` is the error it returned to this call. -/
def forwardedOnce {ε : Type} (before after : LinkWriter ε) (c : WriterCall)
    (err : Option ε) : Prop :=
  after.received = before.received ++ [c] ∧ after.answer = before.answer
    ∧ err = before.answer before.received c

/-! ## Function `sniffer` of `app/dispatcher/default.go` -/

/-- An error that `sniffer` or the classifier returns: `ctx.Err()` of a context that
is done, the two errors of the dispatcher, `common.ErrNoClue`, or any other error, by
its identity. -/
inductive sniffError where
  | ctxErr
  | errSniffingTimeout
  | errUnknownContent
  | ErrNoClue
  | other (code : Nat)
  deriving DecidableEq

/-- The constant `time.Millisecond`, a `time.Duration`, in nanoseconds. -/
def Millisecond : Int := 1000000

/-- What surrounds one run of `sniffer`.  `Size` is `buf.Size`.  `ctxDone n` tells
whether `ctx.Done()` is ready at the `select` of the iteration entered with
`totalAttempt = n`.  `arrive n` is what the writers of the inner pipe did to it since
the attempt before the attempt `n`, and `wakes n` how the read of the inner reader is
resumed in the attempt `n`.  `Sniff n` is the answer `(result, err)` of `sniffer.Sniff`
in the attempt `n`, the classifier keeping state from one call to the next. -/
structure SniffEnv where
  Size : Nat
  ctxDone : Nat → Bool
  arrive : Nat → pipe → pipe
  wakes : Nat → List TimedWake
  Sniff : Nat → List Byte → Option SniffResult × Option sniffError

/-- What a run of `sniffer` leaves: the cached reader afterwards, the timeouts of the
calls of `Cache` it made, in order, and the pair `(result, err)` it returns. -/
structure Sniffed where
  cReader : cachedReader
  attempts : List Int
  result : Option SniffResult
  err : Option sniffError
  deriving DecidableEq

/-- The call `cReader.Cache(payload, timeout)` of the attempt `n`: the cached reader
afterwards and the content of `payload`, or `none` while the call has not returned. -/
def SniffEnv.Cache (env : SniffEnv) (n : Nat) (cReader : cachedReader) :
    Option (cachedReader × Buffer) :=
  cachedReader.Cache { cReader with reader := env.arrive n cReader.reader } env.Size
    (env.wakes n)

/-- The `for` loop of `sniffer`, from the iteration entered with `totalAttempt`.  The
first argument bounds the number of iterations; the result is `none` when the bound is
reached, or while a call of `Cache` has not returned. -/
def snifferLoop (env : SniffEnv) : Nat → Nat → cachedReader → List Int → Option Sniffed
  | 0, _, _, _ => none
  | fuel + 1, totalAttempt, cReader, attempts =>
    if env.ctxDone totalAttempt then
      some { cReader := cReader, attempts := attempts, result := none,
             err := some sniffError.ctxErr }
    else
      let totalAttempt := totalAttempt + 1
      if totalAttempt > 2 then
        some { cReader := cReader, attempts := attempts, result := none,
               err := some sniffError.errSniffingTimeout }
      else
        let timeout := if totalAttempt > 1 then Millisecond * 5 else Millisecond * 300
        match env.Cache totalAttempt cReader with
        | none => none
        | some (cReader, payload) =>
          let attempts := attempts ++ [timeout]
          let rest :=
            if payload.length = env.Size then
              some { cReader := cReader, attempts := attempts, result := none,
                     err := some sniffError.errUnknownContent }
            else snifferLoop env fuel totalAttempt cReader attempts
          if !payload.isEmpty then
            let answer := env.Sniff totalAttempt payload
            if answer.2 ≠ some sniffError.ErrNoClue then
              some { cReader := cReader, attempts := attempts, result := answer.1,
                     err := answer.2 }
            else rest
          else rest

/-- Function `sniffer`, with a bound on the number of iterations of its loop. -/
def sniffer (env : SniffEnv) (fuel : Nat) (cReader : cachedReader) : Option Sniffed :=
  snifferLoop env fuel 0 cReader []

/-- The attempt `n`, which left `payload` in the scratch buffer, gave no verdict: the
classifier was not called, the buffer being empty, or it answered `common.ErrNoClue`. -/
def SniffEnv.noVerdict (env : SniffEnv) (n : Nat) (payload : Buffer) : Prop :=
  payload = [] ∨ (env.Sniff n payload).2 = some sniffError.ErrNoClue

/-- The environment of the examples, with buffers of `Size` bytes: the context is done
at the iterations that `done` holds for, the writer of the inner pipe writes `arrive n`
before the attempt `n`, a read that parks is ended by its timer, and the classifier
answers `Sniff`. -/
def SniffEnv.sample (Size : Nat) (done : Nat → Bool) (arrive : Nat → MultiBuffer)
    (Sniff : Nat → List Byte → Option SniffResult × Option sniffError) : SniffEnv :=
  { Size := Size, ctxDone := done,
    arrive := fun n p => (p.WriteMultiBuffer (arrive n) []).1,
    wakes := fun _ => [TimedWake.timer], Sniff := Sniff }

/-- The cached reader of the examples: nothing cached, over a new pipe without limit. -/
def sampleReader : cachedReader :=
  { reader := pipe.New { limit := -1, discardOverflow := false } 16, cache := none }

/-! # Properties -/

/-! ## Lemmas on MultiBuffers -/

theorem bytes_MergeMulti (a b : MultiBuffer) :
    (MergeMulti a b).bytes = a.bytes ++ b.bytes := by
  cases a with
  | none =>
    cases b with
    | none => rfl
    | some s => cases s <;> rfl
  | some d =>
    cases b with
    | none => simp [MergeMulti, MultiBuffer.bytes]
    | some s => simp [MergeMulti, MultiBuffer.bytes]

theorem bytes_of_IsEmpty (mb : MultiBuffer) (h : mb.IsEmpty = true) : mb.bytes = [] := by
  cases mb with
  | none => rfl
  | some bs =>
    simp only [MultiBuffer.IsEmpty, List.all_eq_true] at h
    simp only [MultiBuffer.bytes, List.flatten_eq_nil_iff]
    intro l hl
    simpa using h l hl

theorem IsEmpty_of_bytes (mb : MultiBuffer) (h : mb.bytes = []) : mb.IsEmpty = true := by
  cases mb with
  | none => rfl
  | some bs =>
    simp only [MultiBuffer.bytes, List.flatten_eq_nil_iff] at h
    simp only [MultiBuffer.IsEmpty, List.all_eq_true]
    intro l hl
    simp [h l hl]

theorem Len_eq_length_bytes (mb : MultiBuffer) : mb.Len = (mb.bytes.length : Int) := by
  cases mb with
  | none => rfl
  | some bs => simp [MultiBuffer.Len, MultiBuffer.bytes, List.length_flatten]

/-! ## One pass of a stream call -/

theorem write_pass_bytes (p : pipe) (mb : MultiBuffer) :
    (p.WriteMultiBuffer mb []).1.data.bytes = p.data.bytes ++ acceptedBytes p mb := by
  unfold pipe.WriteMultiBuffer acceptedBytes
  by_cases he : mb.IsEmpty = true
  · simp [he]
  · simp only [he, Bool.false_eq_true, if_false]
    unfold pipe.writeLoop pipe.writeMultiBufferInternal
    cases hg : p.getState false false with
    | some e =>
      simp only
      by_cases h1 : e = error.errSlowDown
      · subst h1
        simp [pipe.getState] at hg
        split at hg <;> simp at hg
      · by_cases h2 : e = error.errBufferFull
        · subst h2
          by_cases hd : p.option.discardOverflow = true <;> simp [hd]
        · simp [h1, h2]
    | none =>
      simp only
      cases hd : p.data with
      | none => simp [MultiBuffer.bytes]
      | some d => simp [bytes_MergeMulti]

theorem read_pass_bytes (p : pipe) :
    readBytes (p.ReadMultiBuffer []).2 ++ (p.ReadMultiBuffer []).1.data.bytes = p.data.bytes := by
  unfold pipe.ReadMultiBuffer pipe.readMultiBufferInternal
  cases hg : p.getState true false with
  | some e => simp [readBytes, MultiBuffer.bytes]
  | none =>
    cases hd : p.data with
    | none => simp [readBytes, MultiBuffer.bytes]
    | some d => simp [readBytes, MultiBuffer.bytes]

theorem runStream_bytes (cs : List StreamCall) :
    ∀ p : pipe, (runStream p cs).read ++ (runStream p cs).final.data.bytes
      = p.data.bytes ++ (runStream p cs).accepted := by
  induction cs with
  | nil => intro p; simp [runStream]
  | cons c cs ih =>
    intro p
    cases c with
    | write mb =>
      simp only [runStream]
      rw [ih, write_pass_bytes, List.append_assoc]
    | read =>
      simp only [runStream]
      rw [List.append_assoc, ih, ← List.append_assoc, read_pass_bytes]

/-! ## C1: FIFO order of the stream -/

/-- C1. Pipe FIFO order: on a pipe that starts without buffered bytes, after every
interleaving of WriteMultiBuffer and ReadMultiBuffer passes, the bytes returned by
the reads followed by the bytes still buffered are exactly the bytes of the accepted
writes in write order; so the bytes read are a prefix of the bytes accepted, and the
two are equal whenever the pipe is left empty, as it is after a read that took the
data. -/
theorem C1_pipe_fifo_order (p : pipe) (cs : List StreamCall) (h : p.data.bytes = []) :
    (runStream p cs).read ++ (runStream p cs).final.data.bytes = (runStream p cs).accepted
    ∧ (runStream p cs).read <+: (runStream p cs).accepted
    ∧ ((runStream p cs).final.data.bytes = [] →
        (runStream p cs).read = (runStream p cs).accepted) := by
  have key := runStream_bytes cs p
  rw [h, List.nil_append] at key
  refine ⟨key, ⟨_, key⟩, ?_⟩
  intro hempty
  rw [hempty, List.append_nil] at key
  exact key

/-- C1 on a pipe of limit 2: three writes, the third parked, then a read, the parked
write again, and a read. -/
theorem C1_pipe_fifo_order_witness :
    (pipe.New { limit := 2, discardOverflow := false } 16).data.bytes = []
    ∧ (runStream (pipe.New { limit := 2, discardOverflow := false } 16)
        [StreamCall.write (some [[1, 2]]), StreamCall.write (some [[3], [4]]),
         StreamCall.write (some [[5]]), StreamCall.read,
         StreamCall.write (some [[5]]), StreamCall.read]).read = [1, 2, 3, 4, 5]
    ∧ (runStream (pipe.New { limit := 2, discardOverflow := false } 16)
        [StreamCall.write (some [[1, 2]]), StreamCall.write (some [[3], [4]]),
         StreamCall.write (some [[5]]), StreamCall.read,
         StreamCall.write (some [[5]]), StreamCall.read]).read
      <+: (runStream (pipe.New { limit := 2, discardOverflow := false } 16)
        [StreamCall.write (some [[1, 2]]), StreamCall.write (some [[3], [4]]),
         StreamCall.write (some [[5]]), StreamCall.read,
         StreamCall.write (some [[5]]), StreamCall.read]).accepted :=
  ⟨rfl, by decide,
    (C1_pipe_fifo_order (pipe.New { limit := 2, discardOverflow := false } 16)
      [StreamCall.write (some [[1, 2]]), StreamCall.write (some [[3], [4]]),
       StreamCall.write (some [[5]]), StreamCall.read,
       StreamCall.write (some [[5]]), StreamCall.read] rfl).2.1⟩

/-! ## C2: the bound on the buffered bytes -/

theorem Len_nonneg (mb : MultiBuffer) : 0 ≤ mb.Len := by
  rw [Len_eq_length_bytes]; exact Int.natCast_nonneg _

theorem Len_MergeMulti (a b : MultiBuffer) : (MergeMulti a b).Len = a.Len + b.Len := by
  simp [Len_eq_length_bytes, bytes_MergeMulti]

theorem getState_write_none (p : pipe) (h : p.getState false false = none) :
    p.state = state.open_ ∧ p.option.isFull p.data.Len = false := by
  unfold pipe.getState at h
  cases hs : p.state <;> simp [hs] at h
  exact ⟨rfl, h⟩

theorem wmi_option (p : pipe) (mb : MultiBuffer) :
    (p.writeMultiBufferInternal mb).1.option = p.option := by
  unfold pipe.writeMultiBufferInternal
  cases p.getState false false with
  | some e => rfl
  | none => by_cases hd : p.data.isNone = true <;> simp [hd]

theorem wmi_rejected (p : pipe) (mb : MultiBuffer)
    (h1 : (p.writeMultiBufferInternal mb).2 ≠ none)
    (h2 : (p.writeMultiBufferInternal mb).2 ≠ some error.errSlowDown) :
    (p.writeMultiBufferInternal mb).1 = p := by
  unfold pipe.writeMultiBufferInternal at h1 h2 ⊢
  cases hg : p.getState false false with
  | some e => rfl
  | none =>
    rw [hg] at h1 h2
    by_cases hd : p.data.isNone = true <;> simp [hd] at h1 h2

theorem wmi_len (p : pipe) (mb : MultiBuffer) (hl : 0 ≤ p.option.limit) :
    (p.writeMultiBufferInternal mb).1.data.Len ≤ max p.data.Len (p.option.limit + mb.Len) := by
  unfold pipe.writeMultiBufferInternal
  cases hg : p.getState false false with
  | some e => exact le_max_left _ _
  | none =>
    have hf := (getState_write_none p hg).2
    simp only [pipeOption.isFull, Bool.and_eq_false_iff, decide_eq_false_iff_not] at hf
    have hle : p.data.Len ≤ p.option.limit := by
      rcases hf with hf | hf
      · exact absurd hl hf
      · exact not_lt.mp hf
    by_cases hd : p.data.isNone = true
    · simp only [hd, if_true]
      exact le_trans (by linarith) (le_max_right _ _)
    · simp only [hd, Bool.false_eq_true, if_false, Len_MergeMulti]
      exact le_trans (by linarith) (le_max_right _ _)

theorem writeLoop_bound (mb : MultiBuffer) (wakes : List Wake) :
    ∀ p : pipe, 0 ≤ p.option.limit →
      (p.writeLoop mb wakes).1.option = p.option
      ∧ (p.writeLoop mb wakes).1.data.Len ≤ max p.data.Len (p.option.limit + mb.Len) := by
  induction wakes with
  | nil =>
    intro p hl
    unfold pipe.writeLoop
    have ho := wmi_option p mb
    have hb := wmi_len p mb hl
    simp only
    split_ifs <;> exact ⟨ho, hb⟩
  | cons w ws ih =>
    intro p hl
    unfold pipe.writeLoop
    have ho := wmi_option p mb
    have hb := wmi_len p mb hl
    simp only
    split_ifs with h1 h2 h3 h4
    · exact ⟨ho, hb⟩
    · exact ⟨ho, hb⟩
    · exact ⟨ho, hb⟩
    · exact ⟨ho, hb⟩
    · cases w with
      | signal =>
        have hr := wmi_rejected p mb h1 h2
        simp only [hr]
        have := ih { p with writeSignal := false } hl
        exact ⟨this.1, this.2⟩
      | done => exact ⟨ho, hb⟩

theorem WriteMultiBuffer_bound (p : pipe) (mb : MultiBuffer) (wakes : List Wake)
    (hl : 0 ≤ p.option.limit) :
    (p.WriteMultiBuffer mb wakes).1.option = p.option
    ∧ (p.WriteMultiBuffer mb wakes).1.data.Len ≤ max p.data.Len (p.option.limit + mb.Len) := by
  unfold pipe.WriteMultiBuffer
  by_cases he : mb.IsEmpty = true
  · rw [if_pos he]
    exact ⟨rfl, le_max_left _ _⟩
  · rw [if_neg he]
    exact writeLoop_bound mb wakes p hl

theorem rmi_frame (p : pipe) :
    p.readMultiBufferInternal.1.option = p.option
    ∧ p.readMultiBufferInternal.1.state = p.state
    ∧ p.readMultiBufferInternal.1.packets = p.packets
    ∧ p.readMultiBufferInternal.1.data.Len ≤ p.data.Len := by
  unfold pipe.readMultiBufferInternal
  cases p.getState true false with
  | some e => exact ⟨rfl, rfl, rfl, le_refl _⟩
  | none => exact ⟨rfl, rfl, rfl, Len_nonneg p.data⟩

theorem ReadMultiBuffer_frame (wakes : List Wake) :
    ∀ p : pipe, (p.ReadMultiBuffer wakes).1.option = p.option
      ∧ (p.ReadMultiBuffer wakes).1.state = p.state
      ∧ (p.ReadMultiBuffer wakes).1.packets = p.packets
      ∧ (p.ReadMultiBuffer wakes).1.data.Len ≤ p.data.Len := by
  induction wakes with
  | nil =>
    intro p
    unfold pipe.ReadMultiBuffer
    simp only
    split_ifs <;> exact rmi_frame p
  | cons w ws ih =>
    intro p
    unfold pipe.ReadMultiBuffer
    simp only
    split_ifs
    · exact rmi_frame p
    · obtain ⟨h1, h2, h3, h4⟩ := rmi_frame p
      cases w with
      | signal =>
        obtain ⟨k1, k2, k3, k4⟩ := ih { p.readMultiBufferInternal.1 with readSignal := false }
        exact ⟨k1.trans h1, k2.trans h2, k3.trans h3, le_trans k4 h4⟩
      | done =>
        obtain ⟨k1, k2, k3, k4⟩ := ih p.readMultiBufferInternal.1
        exact ⟨k1.trans h1, k2.trans h2, k3.trans h3, le_trans k4 h4⟩

theorem ReadMultiBufferTimeout_frame (wakes : List TimedWake) :
    ∀ p : pipe, (p.ReadMultiBufferTimeout wakes).1.option = p.option
      ∧ (p.ReadMultiBufferTimeout wakes).1.state = p.state
      ∧ (p.ReadMultiBufferTimeout wakes).1.packets = p.packets
      ∧ (p.ReadMultiBufferTimeout wakes).1.data.Len ≤ p.data.Len := by
  induction wakes with
  | nil =>
    intro p
    unfold pipe.ReadMultiBufferTimeout
    simp only
    split_ifs <;> exact rmi_frame p
  | cons w ws ih =>
    intro p
    unfold pipe.ReadMultiBufferTimeout
    simp only
    split_ifs
    · exact rmi_frame p
    · obtain ⟨h1, h2, h3, h4⟩ := rmi_frame p
      cases w with
      | signal =>
        obtain ⟨k1, k2, k3, k4⟩ := ih { p.readMultiBufferInternal.1 with readSignal := false }
        exact ⟨k1.trans h1, k2.trans h2, k3.trans h3, le_trans k4 h4⟩
      | done =>
        obtain ⟨k1, k2, k3, k4⟩ := ih p.readMultiBufferInternal.1
        exact ⟨k1.trans h1, k2.trans h2, k3.trans h3, le_trans k4 h4⟩
      | timer => exact ⟨h1, h2, h3, h4⟩

theorem ReadPacket_frame (wakes : List Wake) :
    ∀ p : pipe, (p.ReadPacket wakes).1.option = p.option
      ∧ (p.ReadPacket wakes).1.state = p.state
      ∧ (p.ReadPacket wakes).1.data = p.data := by
  induction wakes with
  | nil =>
    intro p
    unfold pipe.ReadPacket
    split_ifs <;> exact ⟨rfl, rfl, rfl⟩
  | cons w ws ih =>
    intro p
    unfold pipe.ReadPacket
    split_ifs
    · exact ⟨rfl, rfl, rfl⟩
    · exact ⟨rfl, rfl, rfl⟩
    · cases w with
      | signal => exact ih { p with readSignal := false }
      | done => exact ⟨rfl, rfl, rfl⟩

theorem writePacketLoop_frame (payload : Buffer) (dest : UDPAddr) (wakes : List Wake) :
    ∀ p : pipe, (p.writePacketLoop payload dest wakes).1.option = p.option
      ∧ (p.writePacketLoop payload dest wakes).1.state = p.state
      ∧ (p.writePacketLoop payload dest wakes).1.data = p.data := by
  induction wakes with
  | nil =>
    intro p
    unfold pipe.writePacketLoop
    split_ifs <;> exact ⟨rfl, rfl, rfl⟩
  | cons w ws ih =>
    intro p
    unfold pipe.writePacketLoop
    split_ifs
    · exact ⟨rfl, rfl, rfl⟩
    · exact ⟨rfl, rfl, rfl⟩
    · exact ⟨rfl, rfl, rfl⟩
    · cases w with
      | signal => exact ih { p with writeSignal := false }
      | done => exact ⟨rfl, rfl, rfl⟩

theorem WritePacket_frame (p : pipe) (payload : Buffer) (dest : UDPAddr) (wakes : List Wake) :
    (p.WritePacket payload dest wakes).1.option = p.option
    ∧ (p.WritePacket payload dest wakes).1.state = p.state
    ∧ (p.WritePacket payload dest wakes).1.data = p.data := by
  unfold pipe.WritePacket
  split_ifs
  · exact ⟨rfl, rfl, rfl⟩
  · exact writePacketLoop_frame payload dest wakes p

theorem Close_frame (p : pipe) :
    p.Close.1.option = p.option ∧ p.Close.1.data = p.data ∧ p.Close.1.packets = p.packets := by
  unfold pipe.Close
  split_ifs <;> exact ⟨rfl, rfl, rfl⟩

theorem Interrupt_frame (p : pipe) :
    p.Interrupt.option = p.option ∧ p.Interrupt.data.Len ≤ p.data.Len
    ∧ p.Interrupt.packets = p.packets := by
  unfold pipe.Interrupt
  by_cases he : p.data.IsEmpty = true
  · simp only [he, Bool.not_true, Bool.false_eq_true, if_false]
    split_ifs <;> exact ⟨rfl, le_refl _, rfl⟩
  · simp only [he, Bool.not_false, if_true]
    split_ifs <;> exact ⟨rfl, Len_nonneg _, rfl⟩

theorem exec_bound (p : pipe) (c : Call) (hl : 0 ≤ p.option.limit) :
    (exec p c).option = p.option
    ∧ (exec p c).data.Len ≤ max p.data.Len (p.option.limit + writeSize c) := by
  cases c with
  | WriteMultiBuffer mb wakes => exact WriteMultiBuffer_bound p mb wakes hl
  | ReadMultiBuffer wakes =>
    obtain ⟨h1, _, _, h4⟩ := ReadMultiBuffer_frame wakes p
    exact ⟨h1, le_trans h4 (le_max_left _ _)⟩
  | ReadMultiBufferTimeout wakes =>
    obtain ⟨h1, _, _, h4⟩ := ReadMultiBufferTimeout_frame wakes p
    exact ⟨h1, le_trans h4 (le_max_left _ _)⟩
  | ReadPacket wakes =>
    obtain ⟨h1, _, h3⟩ := ReadPacket_frame wakes p
    exact ⟨h1, by simp only [exec, h3]; exact le_max_left _ _⟩
  | WritePacket payload dest wakes =>
    obtain ⟨h1, _, h3⟩ := WritePacket_frame p payload dest wakes
    exact ⟨h1, by simp only [exec, h3]; exact le_max_left _ _⟩
  | Close =>
    obtain ⟨h1, h2, _⟩ := Close_frame p
    exact ⟨h1, by simp only [exec, h2]; exact le_max_left _ _⟩
  | Interrupt =>
    obtain ⟨h1, h2, _⟩ := Interrupt_frame p
    exact ⟨h1, le_trans h2 (le_max_left _ _)⟩

theorem run_bound (cs : List Call) :
    ∀ (p : pipe) (B : Int), 0 ≤ p.option.limit → p.data.Len ≤ p.option.limit + B →
      (run p cs).data.Len ≤ p.option.limit + max B (maxWrite cs) := by
  induction cs with
  | nil =>
    intro p B _ hB
    simp only [run, maxWrite]
    exact le_trans hB (by have := le_max_left B 0; linarith)
  | cons c cs ih =>
    intro p B hl hB
    obtain ⟨ho, hb⟩ := exec_bound p c hl
    have hstep : (exec p c).data.Len ≤ (exec p c).option.limit + max B (writeSize c) := by
      rw [ho]
      rcases le_max_iff.mp hb with h | h
      · have := le_max_left B (writeSize c); linarith
      · have := le_max_right B (writeSize c); linarith
    have := ih (exec p c) (max B (writeSize c)) (by rw [ho]; exact hl) hstep
    simp only [run, maxWrite]
    rw [ho, max_assoc] at this
    exact this

theorem maxWrite_nonneg (cs : List Call) : 0 ≤ maxWrite cs := by
  cases cs with
  | nil => exact le_refl _
  | cons c cs =>
    cases c <;> simp [maxWrite, writeSize, Len_nonneg]

/-- C2. Pipe bound: on a pipe created empty with a limit L ≥ 0, after every sequence
of calls (WriteMultiBuffer, ReadMultiBuffer, Close, Interrupt, and the other methods
as well, each resumed in any way when it parks) the number of buffered bytes is at
most L plus the size of the largest single write issued so far.  The bound holds
whether discardOverflow is set or not. -/
theorem C2_pipe_bound (p : pipe) (cs : List Call)
    (hempty : p.data = none) (hl : 0 ≤ p.option.limit) :
    (run p cs).data.Len ≤ p.option.limit + maxWrite cs := by
  have h := run_bound cs p 0 hl (by rw [hempty]; simpa [MultiBuffer.Len] using hl)
  rwa [max_eq_right (maxWrite_nonneg cs)] at h

/-- C2 on a pipe of limit 2: the writes of 2 bytes are accepted up to 4 buffered
bytes, the next write parks until the read. -/
theorem C2_pipe_bound_witness :
    (pipe.New { limit := 2, discardOverflow := false } 16).data = none
    ∧ (0 : Int) ≤ (pipe.New { limit := 2, discardOverflow := false } 16).option.limit
    ∧ (run (pipe.New { limit := 2, discardOverflow := false } 16)
        [Call.WriteMultiBuffer (some [[1, 2]]) [], Call.WriteMultiBuffer (some [[3], [4]]) [],
         Call.WriteMultiBuffer (some [[5]]) [Wake.signal]]).data.Len = 4
    ∧ (run (pipe.New { limit := 2, discardOverflow := false } 16)
        [Call.WriteMultiBuffer (some [[1, 2]]) [], Call.WriteMultiBuffer (some [[3], [4]]) [],
         Call.WriteMultiBuffer (some [[5]]) [Wake.signal]]).data.Len
      ≤ (pipe.New { limit := 2, discardOverflow := false } 16).option.limit
        + maxWrite [Call.WriteMultiBuffer (some [[1, 2]]) [],
            Call.WriteMultiBuffer (some [[3], [4]]) [],
            Call.WriteMultiBuffer (some [[5]]) [Wake.signal]] :=
  ⟨rfl, by decide, by decide,
    C2_pipe_bound (pipe.New { limit := 2, discardOverflow := false } 16)
      [Call.WriteMultiBuffer (some [[1, 2]]) [], Call.WriteMultiBuffer (some [[3], [4]]) [],
       Call.WriteMultiBuffer (some [[5]]) [Wake.signal]] rfl (by decide)⟩

/-! ## C3: calls after Interrupt -/

theorem getState_errord (p : pipe) (h : p.state = state.errord) (forRead forPacket : Bool) :
    p.getState forRead forPacket = some error.ErrClosedPipe := by
  simp [pipe.getState, h]

theorem wmi_state (p : pipe) (mb : MultiBuffer) :
    (p.writeMultiBufferInternal mb).1.state = p.state
    ∧ (p.writeMultiBufferInternal mb).1.packets = p.packets := by
  unfold pipe.writeMultiBufferInternal
  cases p.getState false false with
  | some e => exact ⟨rfl, rfl⟩
  | none => by_cases hd : p.data.isNone = true <;> simp [hd]

theorem writeLoop_state (mb : MultiBuffer) (wakes : List Wake) :
    ∀ p : pipe, (p.writeLoop mb wakes).1.state = p.state
      ∧ (p.writeLoop mb wakes).1.packets = p.packets := by
  induction wakes with
  | nil =>
    intro p
    unfold pipe.writeLoop
    have hs := wmi_state p mb
    simp only
    split_ifs <;> exact hs
  | cons w ws ih =>
    intro p
    unfold pipe.writeLoop
    have hs := wmi_state p mb
    simp only
    split_ifs with h1 h2 h3 h4
    · exact hs
    · exact hs
    · exact hs
    · exact hs
    · cases w with
      | signal =>
        have hr := wmi_rejected p mb h1 h2
        simp only [hr]
        exact ih { p with writeSignal := false }
      | done => exact hs

theorem WriteMultiBuffer_state (p : pipe) (mb : MultiBuffer) (wakes : List Wake) :
    (p.WriteMultiBuffer mb wakes).1.state = p.state
    ∧ (p.WriteMultiBuffer mb wakes).1.packets = p.packets := by
  unfold pipe.WriteMultiBuffer
  split_ifs
  · exact ⟨rfl, rfl⟩
  · exact writeLoop_state mb wakes p

theorem Interrupt_state (p : pipe) : p.Interrupt.state = state.errord := by
  unfold pipe.Interrupt
  simp only
  split_ifs <;> rfl

theorem Close_errord (p : pipe) (h : p.state = state.errord) : p.Close = (p, none) := by
  simp [pipe.Close, h]

theorem exec_errord (p : pipe) (c : Call) (h : p.state = state.errord) :
    (exec p c).state = state.errord := by
  cases c with
  | WriteMultiBuffer mb wakes => exact (WriteMultiBuffer_state p mb wakes).1.trans h
  | ReadMultiBuffer wakes => exact (ReadMultiBuffer_frame wakes p).2.1.trans h
  | ReadMultiBufferTimeout wakes => exact (ReadMultiBufferTimeout_frame wakes p).2.1.trans h
  | ReadPacket wakes => exact (ReadPacket_frame wakes p).2.1.trans h
  | WritePacket payload dest wakes => exact (WritePacket_frame p payload dest wakes).2.1.trans h
  | Close => simp [exec, Close_errord p h, h]
  | Interrupt => exact Interrupt_state p

theorem run_errord (cs : List Call) :
    ∀ p : pipe, p.state = state.errord → (run p cs).state = state.errord := by
  induction cs with
  | nil => intro p h; exact h
  | cons c cs ih => intro p h; exact ih (exec p c) (exec_errord p c h)

theorem ReadMultiBuffer_errord (p : pipe) (h : p.state = state.errord) (wakes : List Wake) :
    (p.ReadMultiBuffer wakes).2 = some (none, some error.ErrClosedPipe) := by
  unfold pipe.ReadMultiBuffer
  simp [pipe.readMultiBufferInternal, getState_errord p h]

theorem ReadMultiBufferTimeout_errord (p : pipe) (h : p.state = state.errord)
    (wakes : List TimedWake) :
    (p.ReadMultiBufferTimeout wakes).2 = some (none, some error.ErrClosedPipe) := by
  unfold pipe.ReadMultiBufferTimeout
  simp [pipe.readMultiBufferInternal, getState_errord p h]

theorem ReadPacket_errord (p : pipe) (h : p.state = state.errord) (wakes : List Wake) :
    (p.ReadPacket wakes).2 = some (none, none, some error.ErrClosedPipe) := by
  unfold pipe.ReadPacket
  simp [getState_errord p h]

theorem WriteMultiBuffer_errord (p : pipe) (h : p.state = state.errord) (mb : MultiBuffer)
    (wakes : List Wake) :
    (p.WriteMultiBuffer mb wakes).2
      = some (if mb.IsEmpty then none else some error.ErrClosedPipe) := by
  unfold pipe.WriteMultiBuffer
  by_cases he : mb.IsEmpty = true
  · simp [he]
  · unfold pipe.writeLoop
    simp [he, pipe.writeMultiBufferInternal, getState_errord p h]

theorem WritePacket_errord (p : pipe) (h : p.state = state.errord) (payload : Buffer)
    (dest : UDPAddr) (wakes : List Wake) :
    (p.WritePacket payload dest wakes).2
      = some (if payload.isEmpty then none else some error.ErrClosedPipe) := by
  unfold pipe.WritePacket
  by_cases he : payload.isEmpty = true
  · simp [he]
  · unfold pipe.writePacketLoop
    simp [he, getState_errord p h]

/-- C3, as stated, fails for the empty arguments: after Interrupt, WriteMultiBuffer
of the nil MultiBuffer and WritePacket of the empty payload return nil, not the
closed-pipe error. -/
theorem C3_after_Interrupt_empty_write_counterexample :
    ((pipe.New { limit := 2, discardOverflow := false } 16).Interrupt.WriteMultiBuffer
        none []).2 = some none
    ∧ ((pipe.New { limit := 2, discardOverflow := false } 16).Interrupt.WriteMultiBuffer
        none []).2 ≠ some (some error.ErrClosedPipe)
    ∧ ((pipe.New { limit := 2, discardOverflow := false } 16).Interrupt.WritePacket
        [] 53 []).2 = some none
    ∧ ((pipe.New { limit := 2, discardOverflow := false } 16).Interrupt.WritePacket
        [] 53 []).2 ≠ some (some error.ErrClosedPipe) := by
  decide

/-- C3, amended. After Interrupt on a pipe in any state and any further calls, every
ReadMultiBuffer, ReadMultiBufferTimeout and ReadPacket call returns the closed-pipe
error, and so does every WriteMultiBuffer call with a non-empty MultiBuffer and every
WritePacket call with a non-empty payload; a write of an empty MultiBuffer or payload
returns nil.  None of these calls parks, however it would be resumed. -/
theorem C3_after_Interrupt (p : pipe) (cs : List Call) :
    (∀ wakes, ((run p.Interrupt cs).ReadMultiBuffer wakes).2
        = some (none, some error.ErrClosedPipe))
    ∧ (∀ wakes, ((run p.Interrupt cs).ReadMultiBufferTimeout wakes).2
        = some (none, some error.ErrClosedPipe))
    ∧ (∀ wakes, ((run p.Interrupt cs).ReadPacket wakes).2
        = some (none, none, some error.ErrClosedPipe))
    ∧ (∀ mb wakes, ((run p.Interrupt cs).WriteMultiBuffer mb wakes).2
        = some (if mb.IsEmpty then none else some error.ErrClosedPipe))
    ∧ (∀ payload dest wakes, ((run p.Interrupt cs).WritePacket payload dest wakes).2
        = some (if payload.isEmpty then none else some error.ErrClosedPipe)) := by
  have h := run_errord cs p.Interrupt (Interrupt_state p)
  exact ⟨ReadMultiBuffer_errord _ h, ReadMultiBufferTimeout_errord _ h, ReadPacket_errord _ h,
    WriteMultiBuffer_errord _ h, WritePacket_errord _ h⟩

/-! ## C4: Close, then the stream is drained -/

theorem IsEmpty_iff_Len (mb : MultiBuffer) : mb.IsEmpty = true ↔ mb.Len = 0 := by
  rw [Len_eq_length_bytes]
  constructor
  · intro h; simp [bytes_of_IsEmpty mb h]
  · intro h
    apply IsEmpty_of_bytes
    exact List.length_eq_zero.mp (by exact_mod_cast h)

theorem isSome_of_not_IsEmpty (mb : MultiBuffer) (h : mb.IsEmpty = false) : mb.isSome = true := by
  cases mb with
  | none => simp [MultiBuffer.IsEmpty] at h
  | some bs => rfl

theorem Close_open (p : pipe) (h : p.state = state.open_) :
    p.Close = ({ p with state := state.closed, done := true }, none) := by
  simp [pipe.Close, h]

theorem Close_closed (p : pipe) (h : p.state = state.closed) : p.Close = (p, none) := by
  simp [pipe.Close, h]

theorem ReadMultiBuffer_closed (p : pipe) (h : p.state = state.closed) (wakes : List Wake) :
    p.ReadMultiBuffer wakes =
      if p.data.IsEmpty then ({ p with writeSignal := true }, some (none, some error.EOF))
      else ({ p with data := none, writeSignal := true }, some (p.data, none)) := by
  unfold pipe.ReadMultiBuffer
  by_cases he : p.data.IsEmpty = true
  · simp [pipe.readMultiBufferInternal, pipe.getState, h, he]
  · have he2 : p.data.IsEmpty = false := by simpa using he
    simp [pipe.readMultiBufferInternal, pipe.getState, h, he2, isSome_of_not_IsEmpty p.data he2]

theorem ReadMultiBufferTimeout_closed (p : pipe) (h : p.state = state.closed)
    (wakes : List TimedWake) :
    p.ReadMultiBufferTimeout wakes =
      if p.data.IsEmpty then ({ p with writeSignal := true }, some (none, some error.EOF))
      else ({ p with data := none, writeSignal := true }, some (p.data, none)) := by
  unfold pipe.ReadMultiBufferTimeout
  by_cases he : p.data.IsEmpty = true
  · simp [pipe.readMultiBufferInternal, pipe.getState, h, he]
  · have he2 : p.data.IsEmpty = false := by simpa using he
    simp [pipe.readMultiBufferInternal, pipe.getState, h, he2, isSome_of_not_IsEmpty p.data he2]

theorem WriteMultiBuffer_closed (p : pipe) (h : p.state = state.closed) (mb : MultiBuffer)
    (wakes : List Wake) :
    p.WriteMultiBuffer mb wakes =
      if mb.IsEmpty then (p, some none)
      else ({ p with readSignal := true }, some (some error.ErrClosedPipe)) := by
  unfold pipe.WriteMultiBuffer
  by_cases he : mb.IsEmpty = true
  · simp [he]
  · unfold pipe.writeLoop
    simp [he, pipe.writeMultiBufferInternal, pipe.getState, h]

theorem WritePacket_closed (p : pipe) (h : p.state = state.closed) (payload : Buffer)
    (dest : UDPAddr) (wakes : List Wake) :
    p.WritePacket payload dest wakes =
      if payload.isEmpty then (p, some none) else (p, some (some error.ErrClosedPipe)) := by
  unfold pipe.WritePacket
  by_cases he : payload.isEmpty = true
  · simp [he]
  · unfold pipe.writePacketLoop
    simp [he, pipe.getState, h]

theorem exec_drained (p : pipe) (c : Call) (hc : c ≠ Call.Interrupt)
    (hs : p.state = state.closed) (hd : p.data.IsEmpty = true) :
    (exec p c).state = state.closed ∧ (exec p c).data.IsEmpty = true := by
  cases c with
  | WriteMultiBuffer mb wakes =>
    simp only [exec, WriteMultiBuffer_closed p hs]
    split_ifs <;> exact ⟨hs, hd⟩
  | ReadMultiBuffer wakes =>
    simp only [exec]
    rw [ReadMultiBuffer_closed p hs, if_pos hd]
    exact ⟨hs, hd⟩
  | ReadMultiBufferTimeout wakes =>
    simp only [exec]
    rw [ReadMultiBufferTimeout_closed p hs, if_pos hd]
    exact ⟨hs, hd⟩
  | ReadPacket wakes =>
    obtain ⟨_, h2, h3⟩ := ReadPacket_frame wakes p
    exact ⟨h2.trans hs, by simp only [exec, h3]; exact hd⟩
  | WritePacket payload dest wakes =>
    obtain ⟨_, h2, h3⟩ := WritePacket_frame p payload dest wakes
    exact ⟨h2.trans hs, by simp only [exec, h3]; exact hd⟩
  | Close =>
    simp only [exec, Close_closed p hs]
    exact ⟨hs, hd⟩
  | Interrupt => exact absurd rfl hc

theorem run_drained (cs : List Call) :
    ∀ p : pipe, (∀ c ∈ cs, c ≠ Call.Interrupt) → p.state = state.closed →
      p.data.IsEmpty = true →
      (run p cs).state = state.closed ∧ (run p cs).data.IsEmpty = true := by
  induction cs with
  | nil => intro p _ hs hd; exact ⟨hs, hd⟩
  | cons c cs ih =>
    intro p hcs hs hd
    obtain ⟨h1, h2⟩ := exec_drained p c (hcs c (List.mem_cons_self c cs)) hs hd
    exact ih (exec p c) (fun c' hc' => hcs c' (List.mem_cons_of_mem c hc')) h1 h2

theorem ReadMultiBuffer_closed_drained (p : pipe) (h : p.state = state.closed)
    (wakes : List Wake) :
    (p.ReadMultiBuffer wakes).1.state = state.closed
    ∧ (p.ReadMultiBuffer wakes).1.data.IsEmpty = true := by
  rw [ReadMultiBuffer_closed p h]
  split_ifs with he
  · exact ⟨h, he⟩
  · exact ⟨h, rfl⟩

theorem ReadMultiBufferTimeout_closed_drained (p : pipe) (h : p.state = state.closed)
    (wakes : List TimedWake) :
    (p.ReadMultiBufferTimeout wakes).1.state = state.closed
    ∧ (p.ReadMultiBufferTimeout wakes).1.data.IsEmpty = true := by
  rw [ReadMultiBufferTimeout_closed p h]
  split_ifs with he
  · exact ⟨h, he⟩
  · exact ⟨h, rfl⟩

theorem ReadMultiBuffer_drained (p : pipe) (hs : p.state = state.closed)
    (hd : p.data.IsEmpty = true) (wakes : List Wake) :
    (p.ReadMultiBuffer wakes).2 = some (none, some error.EOF) := by
  rw [ReadMultiBuffer_closed p hs, if_pos hd]

theorem ReadMultiBufferTimeout_drained (p : pipe) (hs : p.state = state.closed)
    (hd : p.data.IsEmpty = true) (wakes : List TimedWake) :
    (p.ReadMultiBufferTimeout wakes).2 = some (none, some error.EOF) := by
  rw [ReadMultiBufferTimeout_closed p hs, if_pos hd]

/-- C4. Close then drain (stream): after Close on an Open pipe holding the buffered
data d, the next ReadMultiBuffer or ReadMultiBufferTimeout returns exactly d with no
error when d holds bytes, and end-of-stream when it holds none; and after that first
read every ReadMultiBuffer and ReadMultiBufferTimeout returns end-of-stream, whatever
calls other than Interrupt are issued in between.  None of these reads parks. -/
theorem C4_close_then_drain_stream (p : pipe) (cs : List Call)
    (hopen : p.state = state.open_) (hcs : ∀ c ∈ cs, c ≠ Call.Interrupt) :
    (∀ wakes, (p.Close.1.ReadMultiBuffer wakes).2
        = some (if p.data.IsEmpty then (none, some error.EOF) else (p.data, none)))
    ∧ (∀ wakes, (p.Close.1.ReadMultiBufferTimeout wakes).2
        = some (if p.data.IsEmpty then (none, some error.EOF) else (p.data, none)))
    ∧ (∀ wakes wakes2, ((run (p.Close.1.ReadMultiBuffer wakes).1 cs).ReadMultiBuffer wakes2).2
        = some (none, some error.EOF))
    ∧ (∀ wakes wakes2,
        ((run (p.Close.1.ReadMultiBuffer wakes).1 cs).ReadMultiBufferTimeout wakes2).2
        = some (none, some error.EOF))
    ∧ (∀ wakes wakes2,
        ((run (p.Close.1.ReadMultiBufferTimeout wakes).1 cs).ReadMultiBuffer wakes2).2
        = some (none, some error.EOF))
    ∧ (∀ wakes wakes2,
        ((run (p.Close.1.ReadMultiBufferTimeout wakes).1 cs).ReadMultiBufferTimeout wakes2).2
        = some (none, some error.EOF)) := by
  have hc : p.Close.1.state = state.closed := by rw [Close_open p hopen]
  have hdata : p.Close.1.data = p.data := by rw [Close_open p hopen]
  refine ⟨?_, ?_, ?_, ?_, ?_, ?_⟩
  · intro wakes
    rw [ReadMultiBuffer_closed _ hc, hdata]
    split_ifs <;> rfl
  · intro wakes
    rw [ReadMultiBufferTimeout_closed _ hc, hdata]
    split_ifs <;> rfl
  · intro wakes wakes2
    obtain ⟨h1, h2⟩ := ReadMultiBuffer_closed_drained _ hc wakes
    obtain ⟨k1, k2⟩ := run_drained cs _ hcs h1 h2
    exact ReadMultiBuffer_drained _ k1 k2 wakes2
  · intro wakes wakes2
    obtain ⟨h1, h2⟩ := ReadMultiBuffer_closed_drained _ hc wakes
    obtain ⟨k1, k2⟩ := run_drained cs _ hcs h1 h2
    exact ReadMultiBufferTimeout_drained _ k1 k2 wakes2
  · intro wakes wakes2
    obtain ⟨h1, h2⟩ := ReadMultiBufferTimeout_closed_drained _ hc wakes
    obtain ⟨k1, k2⟩ := run_drained cs _ hcs h1 h2
    exact ReadMultiBuffer_drained _ k1 k2 wakes2
  · intro wakes wakes2
    obtain ⟨h1, h2⟩ := ReadMultiBufferTimeout_closed_drained _ hc wakes
    obtain ⟨k1, k2⟩ := run_drained cs _ hcs h1 h2
    exact ReadMultiBufferTimeout_drained _ k1 k2 wakes2

/-- C4 on a pipe that holds three bytes in two buffers when it is closed. -/
theorem C4_close_then_drain_stream_witness :
    ((pipe.New { limit := 2, discardOverflow := false } 16).WriteMultiBuffer
        (some [[1, 2], [3]]) []).1.state = state.open_
    ∧ (∀ c ∈ [Call.ReadMultiBufferTimeout [], Call.WriteMultiBuffer (some [[9]]) [], Call.Close],
        c ≠ Call.Interrupt)
    ∧ (((pipe.New { limit := 2, discardOverflow := false } 16).WriteMultiBuffer
        (some [[1, 2], [3]]) []).1.Close.1.ReadMultiBuffer []).2
        = some (some [[1, 2], [3]], none)
    ∧ ((run (((pipe.New { limit := 2, discardOverflow := false } 16).WriteMultiBuffer
          (some [[1, 2], [3]]) []).1.Close.1.ReadMultiBuffer []).1
        [Call.ReadMultiBufferTimeout [], Call.WriteMultiBuffer (some [[9]]) [],
          Call.Close]).ReadMultiBuffer []).2
        = some (none, some error.EOF) :=
  ⟨by decide, by decide,
    (C4_close_then_drain_stream
      ((pipe.New { limit := 2, discardOverflow := false } 16).WriteMultiBuffer
        (some [[1, 2], [3]]) []).1
      [Call.ReadMultiBufferTimeout [], Call.WriteMultiBuffer (some [[9]]) [], Call.Close]
      (by decide) (by decide)).1 [],
    (C4_close_then_drain_stream
      ((pipe.New { limit := 2, discardOverflow := false } 16).WriteMultiBuffer
        (some [[1, 2], [3]]) []).1
      [Call.ReadMultiBufferTimeout [], Call.WriteMultiBuffer (some [[9]]) [], Call.Close]
      (by decide) (by decide)).2.2.1 [] []⟩

/-! ## C5: ReadPacket on a closed pipe -/

/-- C5. What the code does where the claim fails.  A pipe is closed with one packet
still queued: ReadPacket returns end-of-stream and leaves the packet in the queue,
however the call would be resumed.  A pipe is closed with an empty queue: ReadPacket
does not return end-of-stream; it parks, and returns the closed-pipe error when the
done case resumes it. -/
theorem C5_ReadPacket_closed_failing :
    (((pipe.New { limit := 2, discardOverflow := false } 16).WritePacket
        [1, 2] 53 []).1.Close.1.state = state.closed)
    ∧ (((pipe.New { limit := 2, discardOverflow := false } 16).WritePacket
        [1, 2] 53 []).1.Close.1.packets = [{ data := [1, 2], addr := 53 }])
    ∧ ((((pipe.New { limit := 2, discardOverflow := false } 16).WritePacket
        [1, 2] 53 []).1.Close.1.ReadPacket []).2 = some (none, none, some error.EOF))
    ∧ ((((pipe.New { limit := 2, discardOverflow := false } 16).WritePacket
        [1, 2] 53 []).1.Close.1.ReadPacket []).1.packets = [{ data := [1, 2], addr := 53 }])
    ∧ (((pipe.New { limit := 2, discardOverflow := false } 16).Close.1.ReadPacket []).2 = none)
    ∧ (((pipe.New { limit := 2, discardOverflow := false } 16).Close.1.ReadPacket
        [Wake.done]).2 = some (none, none, some error.ErrClosedPipe)) :=
  ⟨by decide, by decide, by decide, by decide, by decide, by decide⟩

/-- ReadPacket on any closed pipe: with a packet queued it returns end-of-stream and
changes nothing; with the queue empty it never returns end-of-stream. -/
theorem ReadPacket_closed (p : pipe) (h : p.state = state.closed) (wakes : List Wake) :
    (p.packets ≠ [] → p.ReadPacket wakes = (p, some (none, none, some error.EOF)))
    ∧ (p.packets = [] → (p.ReadPacket wakes).2 ≠ some (none, none, some error.EOF)) := by
  constructor
  · intro hne
    unfold pipe.ReadPacket
    have : p.packets.length ≠ 0 := fun h0 => hne (List.length_eq_zero.mp h0)
    simp [pipe.getState, h, this]
  · intro he
    induction wakes generalizing p with
    | nil =>
      unfold pipe.ReadPacket
      simp [pipe.getState, h, he]
    | cons w ws ih =>
      have hg : ¬ (p.getState true true).isSome = true := by simp [pipe.getState, h, he]
      have hp : ¬ (!p.packets.isEmpty) = true := by simp [he]
      unfold pipe.ReadPacket
      rw [if_neg hg, if_neg hp]
      cases w with
      | signal => exact ih { p with readSignal := false } h he
      | done => simp

/-! ## C6 and C7: the transitions Interrupt and Close -/

/-- C6. Interrupt transition: from every pipe state Interrupt leaves the pipe in state
Errored with no buffered stream byte, and Interrupt applied twice yields the same
pipe as Interrupt applied once. -/
theorem C6_Interrupt_transition (p : pipe) :
    p.Interrupt.state = state.errord
    ∧ p.Interrupt.data.IsEmpty = true
    ∧ p.Interrupt.data.bytes = []
    ∧ p.Interrupt.Interrupt = p.Interrupt := by
  have hE : p.Interrupt.data.IsEmpty = true := by
    unfold pipe.Interrupt
    by_cases he : p.data.IsEmpty = true
    · simp only [he, Bool.not_true, Bool.false_eq_true, if_false]
      split_ifs <;> exact he
    · simp only [he, Bool.not_false, if_true]
      split_ifs <;> rfl
  refine ⟨Interrupt_state p, hE, bytes_of_IsEmpty _ hE, ?_⟩
  have hS := Interrupt_state p
  generalize p.Interrupt = q at hE hS
  unfold pipe.Interrupt
  cases q
  simp_all

/-- C7. Close transition: Close on an Open pipe yields state Closed and changes
neither the buffered data nor the packet queue nor the options; Close on a Closed or
Errored pipe changes nothing; Close always returns no error; and Close applied twice
equals Close applied once. -/
theorem C7_Close_transition (p : pipe) :
    (p.state = state.open_ →
      p.Close.1 = { p with state := state.closed, done := true })
    ∧ (p.state = state.closed ∨ p.state = state.errord → p.Close.1 = p)
    ∧ p.Close.2 = none
    ∧ p.Close.1.Close = p.Close := by
  cases hs : p.state <;> simp [pipe.Close, hs]

/-- C7 on a fresh pipe that holds two bytes, and on the same pipe interrupted. -/
theorem C7_Close_transition_witness :
    ((pipe.New { limit := 2, discardOverflow := false } 16).WriteMultiBuffer
        (some [[1, 2]]) []).1.state = state.open_
    ∧ ((pipe.New { limit := 2, discardOverflow := false } 16).WriteMultiBuffer
        (some [[1, 2]]) []).1.Close.1.state = state.closed
    ∧ ((pipe.New { limit := 2, discardOverflow := false } 16).WriteMultiBuffer
        (some [[1, 2]]) []).1.Close.1.data = some [[1, 2]]
    ∧ (pipe.New { limit := 2, discardOverflow := false } 16).Interrupt.Close.1.state
        = state.errord :=
  ⟨by decide,
    by rw [(C7_Close_transition ((pipe.New { limit := 2, discardOverflow := false } 16).WriteMultiBuffer
        (some [[1, 2]]) []).1).1 (by decide)],
    by rw [(C7_Close_transition ((pipe.New { limit := 2, discardOverflow := false } 16).WriteMultiBuffer
        (some [[1, 2]]) []).1).1 (by decide)]; decide,
    by rw [(C7_Close_transition
        (pipe.New { limit := 2, discardOverflow := false } 16).Interrupt).2.1
        (Or.inr (by decide))]; decide⟩

/-! ## C8: no write after close -/

theorem WriteMultiBuffer_not_open (p : pipe) (h : p.state ≠ state.open_) (mb : MultiBuffer)
    (he : mb.IsEmpty = false) (wakes : List Wake) :
    p.WriteMultiBuffer mb wakes
      = ({ p with readSignal := true }, some (some error.ErrClosedPipe)) := by
  unfold pipe.WriteMultiBuffer pipe.writeLoop
  cases hs : p.state with
  | open_ => exact absurd hs h
  | closed => simp [he, pipe.writeMultiBufferInternal, pipe.getState, hs]
  | errord => simp [he, pipe.writeMultiBufferInternal, pipe.getState, hs]

theorem WritePacket_not_open (p : pipe) (h : p.state ≠ state.open_) (payload : Buffer)
    (he : payload.isEmpty = false) (dest : UDPAddr) (wakes : List Wake) :
    p.WritePacket payload dest wakes = (p, some (some error.ErrClosedPipe)) := by
  unfold pipe.WritePacket pipe.writePacketLoop
  cases hs : p.state with
  | open_ => exact absurd hs h
  | closed => simp [he, pipe.getState, hs]
  | errord => simp [he, pipe.getState, hs]

theorem exec_not_open (p : pipe) (c : Call) (h : p.state ≠ state.open_) :
    (exec p c).state ≠ state.open_ := by
  cases c with
  | WriteMultiBuffer mb wakes =>
    intro hc; exact h ((WriteMultiBuffer_state p mb wakes).1.symm.trans hc)
  | ReadMultiBuffer wakes =>
    intro hc; exact h ((ReadMultiBuffer_frame wakes p).2.1.symm.trans hc)
  | ReadMultiBufferTimeout wakes =>
    intro hc; exact h ((ReadMultiBufferTimeout_frame wakes p).2.1.symm.trans hc)
  | ReadPacket wakes =>
    intro hc; exact h ((ReadPacket_frame wakes p).2.1.symm.trans hc)
  | WritePacket payload dest wakes =>
    intro hc; exact h ((WritePacket_frame p payload dest wakes).2.1.symm.trans hc)
  | Close =>
    cases hs : p.state with
    | open_ => exact absurd hs h
    | closed => simp [exec, pipe.Close, hs]
    | errord => simp [exec, pipe.Close, hs]
  | Interrupt => simp [exec, Interrupt_state p]

theorem run_not_open (cs : List Call) :
    ∀ p : pipe, p.state ≠ state.open_ → (run p cs).state ≠ state.open_ := by
  induction cs with
  | nil => intro p h; exact h
  | cons c cs ih => intro p h; exact ih (exec p c) (exec_not_open p c h)

/-- C8. No write after close: once a pipe is Closed, whatever its limit and
discardOverflow and whatever calls follow, every WriteMultiBuffer call with a
non-empty MultiBuffer and every WritePacket call with a non-empty payload returns the
closed-pipe error without parking and leaves the buffered stream data and the packet
queue unchanged. -/
theorem C8_no_write_after_close (p : pipe) (cs : List Call) (h : p.state = state.closed) :
    (∀ mb wakes, mb.IsEmpty = false →
      ((run p cs).WriteMultiBuffer mb wakes).2 = some (some error.ErrClosedPipe)
      ∧ ((run p cs).WriteMultiBuffer mb wakes).1.data = (run p cs).data
      ∧ ((run p cs).WriteMultiBuffer mb wakes).1.packets = (run p cs).packets)
    ∧ (∀ payload dest wakes, payload.isEmpty = false →
      ((run p cs).WritePacket payload dest wakes).2 = some (some error.ErrClosedPipe)
      ∧ ((run p cs).WritePacket payload dest wakes).1.data = (run p cs).data
      ∧ ((run p cs).WritePacket payload dest wakes).1.packets = (run p cs).packets) := by
  have hq : (run p cs).state ≠ state.open_ := run_not_open cs p (by rw [h]; decide)
  constructor
  · intro mb wakes he
    rw [WriteMultiBuffer_not_open _ hq mb he wakes]
    exact ⟨rfl, rfl, rfl⟩
  · intro payload dest wakes he
    rw [WritePacket_not_open _ hq payload he dest wakes]
    exact ⟨rfl, rfl, rfl⟩

/-- C8 on a pipe closed while it holds two bytes and one packet. -/
theorem C8_no_write_after_close_witness :
    (((pipe.New { limit := -1, discardOverflow := true } 16).WriteMultiBuffer
        (some [[1, 2]]) []).1.WritePacket [7] 53 []).1.Close.1.state = state.closed
    ∧ ((run (((pipe.New { limit := -1, discardOverflow := true } 16).WriteMultiBuffer
        (some [[1, 2]]) []).1.WritePacket [7] 53 []).1.Close.1 []).WriteMultiBuffer
          (some [[3]]) []).2 = some (some error.ErrClosedPipe)
    ∧ ((run (((pipe.New { limit := -1, discardOverflow := true } 16).WriteMultiBuffer
        (some [[1, 2]]) []).1.WritePacket [7] 53 []).1.Close.1 []).WritePacket
          [8] 53 []).2 = some (some error.ErrClosedPipe) :=
  ⟨by decide,
    ((C8_no_write_after_close
      (((pipe.New { limit := -1, discardOverflow := true } 16).WriteMultiBuffer
        (some [[1, 2]]) []).1.WritePacket [7] 53 []).1.Close.1 [] (by decide)).1
      (some [[3]]) [] (by decide)).1,
    ((C8_no_write_after_close
      (((pipe.New { limit := -1, discardOverflow := true } 16).WriteMultiBuffer
        (some [[1, 2]]) []).1.WritePacket [7] 53 []).1.Close.1 [] (by decide)).2
      [8] 53 [] (by decide)).1⟩

/-! ## C9: discard on overflow -/

/-- C9. Discard on overflow: on an Open pipe with discardOverflow set, a non-empty
WriteMultiBuffer issued while the pipe is bounded and its buffered size exceeds the
limit, and a WritePacket issued while the packet queue is full, both return nil
without parking, however they would be resumed, and leave the whole pipe, so the
buffered data and the packet queue, unchanged. -/
theorem C9_discard_on_overflow (p : pipe) (hopen : p.state = state.open_)
    (hdiscard : p.option.discardOverflow = true) :
    (∀ mb wakes, mb.IsEmpty = false → 0 ≤ p.option.limit → p.option.limit < p.data.Len →
      p.WriteMultiBuffer mb wakes = (p, some none))
    ∧ (∀ payload dest wakes, p.packetsCap ≤ p.packets.length →
      p.WritePacket payload dest wakes = (p, some none)) := by
  constructor
  · intro mb wakes he h0 hlt
    unfold pipe.WriteMultiBuffer pipe.writeLoop
    have hfull : p.option.isFull p.data.Len = true := by
      simp [pipeOption.isFull, h0, hlt]
    simp [he, pipe.writeMultiBufferInternal, pipe.getState, hopen, hfull, hdiscard]
  · intro payload dest wakes hcap
    unfold pipe.WritePacket pipe.writePacketLoop
    have hnot : ¬ p.packets.length < p.packetsCap := not_lt.mpr hcap
    by_cases he : payload.isEmpty = true
    · simp [he]
    · simp [he, pipe.getState, hopen, hnot, hdiscard]

/-- C9 on a pipe of limit 1 that holds two bytes and has a packet queue of capacity 1
holding one packet. -/
theorem C9_discard_on_overflow_witness :
    (((pipe.New { limit := 1, discardOverflow := true } 1).WriteMultiBuffer
        (some [[1, 2]]) []).1.WritePacket [7] 53 []).1.state = state.open_
    ∧ (((pipe.New { limit := 1, discardOverflow := true } 1).WriteMultiBuffer
        (some [[1, 2]]) []).1.WritePacket [7] 53 []).1.option.discardOverflow = true
    ∧ ((((pipe.New { limit := 1, discardOverflow := true } 1).WriteMultiBuffer
        (some [[1, 2]]) []).1.WritePacket [7] 53 []).1.WriteMultiBuffer (some [[3]]) []).2
        = some none
    ∧ ((((pipe.New { limit := 1, discardOverflow := true } 1).WriteMultiBuffer
        (some [[1, 2]]) []).1.WritePacket [7] 53 []).1.WriteMultiBuffer (some [[3]]) []).1.data
        = some [[1, 2]]
    ∧ ((((pipe.New { limit := 1, discardOverflow := true } 1).WriteMultiBuffer
        (some [[1, 2]]) []).1.WritePacket [7] 53 []).1.WritePacket [8] 53 []).1.packets
        = [{ data := [7], addr := 53 }] :=
  ⟨by decide, by decide,
    by rw [(C9_discard_on_overflow
      (((pipe.New { limit := 1, discardOverflow := true } 1).WriteMultiBuffer
        (some [[1, 2]]) []).1.WritePacket [7] 53 []).1 (by decide) (by decide)).1
      (some [[3]]) [] (by decide) (by decide) (by decide)],
    by rw [(C9_discard_on_overflow
      (((pipe.New { limit := 1, discardOverflow := true } 1).WriteMultiBuffer
        (some [[1, 2]]) []).1.WritePacket [7] 53 []).1 (by decide) (by decide)).1
      (some [[3]]) [] (by decide) (by decide) (by decide)]; decide,
    by rw [(C9_discard_on_overflow
      (((pipe.New { limit := 1, discardOverflow := true } 1).WriteMultiBuffer
        (some [[1, 2]]) []).1.WritePacket [7] 53 []).1 (by decide) (by decide)).2
      [8] 53 [] (by decide)]; decide⟩

/-! ## C10: the cached reader -/

theorem readInternal_of_bytes (r : cachedReader) (h : r.cache.bytes ≠ []) :
    r.readInternal = ({ r with cache := none }, r.cache) ∧ r.cache.isSome = true := by
  have he : r.cache.IsEmpty = false := by
    cases hc : r.cache.IsEmpty with
    | false => rfl
    | true => exact absurd (bytes_of_IsEmpty _ hc) h
  have hs := isSome_of_not_IsEmpty _ he
  exact ⟨by simp [cachedReader.readInternal, he, hs], hs⟩

theorem Cache_result (r : cachedReader) (Size : Nat) (wakes : List TimedWake)
    (r2 : cachedReader) (b : Buffer) (hc : r.Cache Size wakes = some (r2, b)) :
    b = r2.cache.bytes.take Size
    ∧ r2.cache.bytes = r.cache.bytes ++ readBytes (r.reader.ReadMultiBufferTimeout wakes).2
    ∧ r2.reader = (r.reader.ReadMultiBufferTimeout wakes).1 := by
  unfold cachedReader.Cache at hc
  rcases hres : r.reader.ReadMultiBufferTimeout wakes with ⟨p1, res⟩
  rw [hres] at hc
  cases res with
  | none => simp at hc
  | some v =>
    obtain ⟨mb, e⟩ := v
    simp only [Option.some.injEq, Prod.mk.injEq] at hc
    obtain ⟨h1, h2⟩ := hc
    subst h1
    subst h2
    refine ⟨rfl, ?_, rfl⟩
    by_cases he : mb.IsEmpty = true
    · simp [he, readBytes, bytes_of_IsEmpty mb he]
    · simp [he, readBytes, bytes_MergeMulti]

/-- C10. Cached-reader peek: when Cache(b, t) has returned and left k > 0 bytes in b,
the next ReadMultiBuffer or ReadMultiBufferTimeout on the cachedReader returns the
cache with no error, without parking and without touching the inner reader, and the
first k bytes of what it returns are the bytes of b.  Cache does not consume: after
it the cache holds the bytes it held before followed by the bytes the inner read
delivered, and b is a copy of the first bytes of that cache, at most Size of them. -/
theorem C10_cached_reader_peek (r : cachedReader) (Size : Nat) (wakes : List TimedWake)
    (r2 : cachedReader) (b : Buffer)
    (hc : r.Cache Size wakes = some (r2, b)) (hk : 0 < b.length) :
    (∀ w, r2.ReadMultiBuffer w = ({ r2 with cache := none }, some (r2.cache, none)))
    ∧ (∀ w, r2.ReadMultiBufferTimeout w = ({ r2 with cache := none }, some (r2.cache, none)))
    ∧ r2.cache.bytes.take b.length = b
    ∧ b = r2.cache.bytes.take Size
    ∧ r2.cache.bytes = r.cache.bytes ++ readBytes (r.reader.ReadMultiBufferTimeout wakes).2 := by
  obtain ⟨hb, hcache, _⟩ := Cache_result r Size wakes r2 b hc
  have hne : r2.cache.bytes ≠ [] := by
    intro h0
    rw [hb, h0] at hk
    simp at hk
  obtain ⟨hri, hsome⟩ := readInternal_of_bytes r2 hne
  refine ⟨?_, ?_, ?_, hb, hcache⟩
  · intro w
    simp [cachedReader.ReadMultiBuffer, hri, hsome]
  · intro w
    simp [cachedReader.ReadMultiBufferTimeout, hri, hsome]
  · conv_rhs => rw [hb]
    rw [hb, List.length_take]
    rcases Nat.le_total Size r2.cache.bytes.length with h | h
    · rw [Nat.min_eq_left h]
    · rw [Nat.min_eq_right h, List.take_of_length_le h, List.take_of_length_le (le_refl _)]

/-- C10 on a cached reader whose inner pipe holds the three bytes "GET", with buffers
of capacity 2: the scratch buffer gets "GE" and the next read returns "GET". -/
theorem C10_cached_reader_peek_witness :
    ({ reader := ((pipe.New { limit := -1, discardOverflow := false } 16).WriteMultiBuffer
          (some [[71, 69, 84]]) []).1,
       cache := none } : cachedReader).Cache 2 []
      = some ({ reader := (((pipe.New { limit := -1, discardOverflow := false } 16).WriteMultiBuffer
                  (some [[71, 69, 84]]) []).1.ReadMultiBufferTimeout []).1,
                cache := some [[71, 69, 84]] }, [71, 69])
    ∧ 0 < ([71, 69] : Buffer).length
    ∧ (({ reader := (((pipe.New { limit := -1, discardOverflow := false } 16).WriteMultiBuffer
                  (some [[71, 69, 84]]) []).1.ReadMultiBufferTimeout []).1,
          cache := some [[71, 69, 84]] } : cachedReader).ReadMultiBuffer []).2
        = some (some [[71, 69, 84]], none) :=
  ⟨by decide, by decide,
    by rw [(C10_cached_reader_peek
      { reader := ((pipe.New { limit := -1, discardOverflow := false } 16).WriteMultiBuffer
          (some [[71, 69, 84]]) []).1, cache := none } 2 []
      { reader := (((pipe.New { limit := -1, discardOverflow := false } 16).WriteMultiBuffer
                  (some [[71, 69, 84]]) []).1.ReadMultiBufferTimeout []).1,
        cache := some [[71, 69, 84]] } [71, 69] (by decide) (by decide)).1 []]⟩

/-! ## C11: the stream through the cached reader -/

theorem Cache_none (r : cachedReader) (Size : Nat) (wakes : List TimedWake)
    (h : r.Cache Size wakes = none) : (r.reader.ReadMultiBufferTimeout wakes).2 = none := by
  unfold cachedReader.Cache at h
  rcases hres : r.reader.ReadMultiBufferTimeout wakes with ⟨p1, res⟩
  rw [hres] at h
  cases res with
  | none => rfl
  | some v => simp at h

theorem readInternal_of_no_bytes (r : cachedReader) (h : r.cache.bytes = []) :
    r.readInternal = (r, none) := by
  have he := IsEmpty_of_bytes _ h
  simp [cachedReader.readInternal, he]

theorem cached_read_bytes (r : cachedReader) (wakes : List Wake) :
    readBytes (r.ReadMultiBuffer wakes).2 ++ (r.ReadMultiBuffer wakes).1.cache.bytes
      = r.cache.bytes ++ (if r.readInternal.2.isSome then []
          else readBytes (r.reader.ReadMultiBuffer wakes).2)
    ∧ (r.ReadMultiBuffer wakes).1.cache.bytes = [] := by
  unfold cachedReader.ReadMultiBuffer
  by_cases hb : r.cache.bytes = []
  · rw [readInternal_of_no_bytes r hb]
    simp [hb]
  · obtain ⟨hri, hs⟩ := readInternal_of_bytes r hb
    rw [hri]
    simp [hs, readBytes, MultiBuffer.bytes]

theorem cached_read_timeout_bytes (r : cachedReader) (wakes : List TimedWake) :
    readBytes (r.ReadMultiBufferTimeout wakes).2
        ++ (r.ReadMultiBufferTimeout wakes).1.cache.bytes
      = r.cache.bytes ++ (if r.readInternal.2.isSome then []
          else readBytes (r.reader.ReadMultiBufferTimeout wakes).2)
    ∧ (r.ReadMultiBufferTimeout wakes).1.cache.bytes = [] := by
  unfold cachedReader.ReadMultiBufferTimeout
  by_cases hb : r.cache.bytes = []
  · rw [readInternal_of_no_bytes r hb]
    simp [hb]
  · obtain ⟨hri, hs⟩ := readInternal_of_bytes r hb
    rw [hri]
    simp [hs, readBytes, MultiBuffer.bytes]

/-- Over any run, the bytes returned by the reads followed by the bytes left in the
cache are the bytes first in the cache followed by the bytes delivered. -/
theorem runReader_bytes (Size : Nat) (cs : List ReaderCall) :
    ∀ r : cachedReader,
      (runReader Size r cs).returned ++ (runReader Size r cs).final.cache.bytes
        = r.cache.bytes ++ (runReader Size r cs).delivered := by
  induction cs with
  | nil => intro r; simp [runReader]
  | cons c cs ih =>
    intro r
    cases c with
    | Cache wakes =>
      cases hc : r.Cache Size wakes with
      | none =>
        simp only [runReader, hc]
        rw [ih]
      | some v =>
        obtain ⟨r2, b⟩ := v
        simp only [runReader, hc]
        rw [ih, (Cache_result r Size wakes r2 b hc).2.1, List.append_assoc]
    | ReadMultiBuffer wakes =>
      simp only [runReader]
      rw [List.append_assoc, ih, ← List.append_assoc, (cached_read_bytes r wakes).1,
        List.append_assoc]
    | ReadMultiBufferTimeout wakes =>
      simp only [runReader]
      rw [List.append_assoc, ih, ← List.append_assoc, (cached_read_timeout_bytes r wakes).1,
        List.append_assoc]
    | inner c =>
      simp only [runReader]
      rw [ih]

/-- A run splits at any point: the second part runs on the reader the first left. -/
theorem runReader_append (Size : Nat) (cs1 cs2 : List ReaderCall) :
    ∀ r : cachedReader,
      (runReader Size r (cs1 ++ cs2)).final
          = (runReader Size (runReader Size r cs1).final cs2).final
      ∧ (runReader Size r (cs1 ++ cs2)).delivered
          = (runReader Size r cs1).delivered
            ++ (runReader Size (runReader Size r cs1).final cs2).delivered
      ∧ (runReader Size r (cs1 ++ cs2)).returned
          = (runReader Size r cs1).returned
            ++ (runReader Size (runReader Size r cs1).final cs2).returned := by
  induction cs1 with
  | nil => intro r; simp [runReader]
  | cons c cs ih =>
    intro r
    cases c with
    | Cache wakes =>
      cases hc : r.Cache Size wakes with
      | none =>
        simp only [List.cons_append, runReader, hc]
        exact ih _
      | some v =>
        obtain ⟨r2, b⟩ := v
        simp only [List.cons_append, runReader, hc]
        obtain ⟨h1, h2, h3⟩ := ih r2
        exact ⟨h1, by rw [List.append_assoc]; exact congrArg _ h2, h3⟩
    | ReadMultiBuffer wakes =>
      simp only [List.cons_append, runReader]
      obtain ⟨h1, h2, h3⟩ := ih (r.ReadMultiBuffer wakes).1
      exact ⟨h1, by rw [List.append_assoc]; exact congrArg _ h2,
        by rw [List.append_assoc]; exact congrArg _ h3⟩
    | ReadMultiBufferTimeout wakes =>
      simp only [List.cons_append, runReader]
      obtain ⟨h1, h2, h3⟩ := ih (r.ReadMultiBufferTimeout wakes).1
      exact ⟨h1, by rw [List.append_assoc]; exact congrArg _ h2,
        by rw [List.append_assoc]; exact congrArg _ h3⟩
    | inner c =>
      simp only [List.cons_append, runReader]
      exact ih _

/-- While no read is made, the cache collects everything delivered, and every `Cache`
call leaves in the scratch buffer a prefix of it. -/
theorem runReader_sniffing (Size : Nat) (cs : List ReaderCall) :
    ∀ r : cachedReader, (∀ c ∈ cs, c.isRead = false) →
      (runReader Size r cs).returned = []
      ∧ (runReader Size r cs).final.cache.bytes = r.cache.bytes ++ (runReader Size r cs).delivered
      ∧ ∀ b ∈ (runReader Size r cs).exposed,
          b <+: r.cache.bytes ++ (runReader Size r cs).delivered ∧ b.length ≤ Size := by
  induction cs with
  | nil => intro r _; simp [runReader]
  | cons c cs ih =>
    intro r hcs
    have hrest : ∀ c' ∈ cs, c'.isRead = false := fun c' hc' => hcs c' (List.mem_cons_of_mem c hc')
    cases c with
    | Cache wakes =>
      cases hc : r.Cache Size wakes with
      | none =>
        simp only [runReader, hc]
        exact ih _ hrest
      | some v =>
        obtain ⟨r2, b⟩ := v
        simp only [runReader, hc]
        obtain ⟨hb, hcache, _⟩ := Cache_result r Size wakes r2 b hc
        obtain ⟨h1, h2, h3⟩ := ih r2 hrest
        rw [hcache, List.append_assoc] at h2 h3
        refine ⟨h1, h2, ?_⟩
        intro b2 hb2
        rcases List.mem_cons.mp hb2 with h | h
        · rw [h, hb, hcache]
          exact ⟨(List.take_prefix _ _).trans
            ⟨(runReader Size r2 cs).delivered, List.append_assoc _ _ _⟩,
            List.length_take_le _ _⟩
        · exact h3 b2 h
    | ReadMultiBuffer wakes =>
      exact absurd (hcs _ (List.mem_cons_self _ _)) (by simp [ReaderCall.isRead])
    | ReadMultiBufferTimeout wakes =>
      exact absurd (hcs _ (List.mem_cons_self _ _)) (by simp [ReaderCall.isRead])
    | inner c =>
      simp only [runReader]
      exact ih _ hrest

/-- While no `Cache` call is made, a cache without bytes stays so, and any read leaves
the cache without bytes. -/
theorem runReader_reading (Size : Nat) (cs : List ReaderCall) :
    ∀ r : cachedReader, (∀ c ∈ cs, c.isCache = false) →
      (r.cache.bytes = [] ∨ ∃ c ∈ cs, c.isRead = true) →
      (runReader Size r cs).final.cache.bytes = [] := by
  induction cs with
  | nil =>
    intro r _ h
    rcases h with h | ⟨c, hc, _⟩
    · simpa [runReader] using h
    · simp at hc
  | cons c cs ih =>
    intro r hcs h
    have hrest : ∀ c' ∈ cs, c'.isCache = false := fun c' hc' => hcs c' (List.mem_cons_of_mem c hc')
    cases c with
    | Cache wakes =>
      exact absurd (hcs _ (List.mem_cons_self _ _)) (by simp [ReaderCall.isCache])
    | ReadMultiBuffer wakes =>
      simp only [runReader]
      exact ih _ hrest (Or.inl (cached_read_bytes r wakes).2)
    | ReadMultiBufferTimeout wakes =>
      simp only [runReader]
      exact ih _ hrest (Or.inl (cached_read_timeout_bytes r wakes).2)
    | inner c =>
      simp only [runReader]
      refine ih _ hrest ?_
      rcases h with h | ⟨c', hc', hr⟩
      · exact Or.inl h
      · rcases List.mem_cons.mp hc' with h2 | h2
        · rw [h2] at hr; simp [ReaderCall.isRead] at hr
        · exact Or.inr ⟨c', h2, hr⟩

/-- C11, as stated, fails in its last part: with buffers of capacity 2 and the three
bytes "GET" waiting in the inner pipe, Cache exposes "GE" to the sniffer and the
first read after it returns "GET", not exactly the bytes peeked. -/
theorem C11_first_read_exceeds_peek_counterexample :
    (runReader 2
        { reader := ((pipe.New { limit := -1, discardOverflow := false } 16).WriteMultiBuffer
            (some [[71, 69, 84]]) []).1, cache := none }
        [ReaderCall.Cache []]).exposed = [[71, 69]]
    ∧ readBytes ((runReader 2
        { reader := ((pipe.New { limit := -1, discardOverflow := false } 16).WriteMultiBuffer
            (some [[71, 69, 84]]) []).1, cache := none }
        [ReaderCall.Cache []]).final.ReadMultiBuffer []).2 = [71, 69, 84]
    ∧ readBytes ((runReader 2
        { reader := ((pipe.New { limit := -1, discardOverflow := false } 16).WriteMultiBuffer
            (some [[71, 69, 84]]) []).1, cache := none }
        [ReaderCall.Cache []]).final.ReadMultiBuffer []).2 ≠ [71, 69] :=
  ⟨by decide, by decide, by decide⟩

/-- C11, amended. Cached-reader stream integrity: on a cached reader whose cache
starts without bytes, for every behaviour of the inner pipe, every run of Cache calls
followed by a run of reads through the cached reader (calls of the writing side on
the inner pipe in between): the bytes returned by the reads followed by the bytes
still cached are the bytes the inner reader delivered, in order, and the two are
equal as soon as one read has been made; the bytes each Cache call exposed to the
sniffer are a prefix of that stream, of at most Size bytes; and the first read after
sniffing returns, without parking and without calling the inner reader, exactly the
cache, which holds every byte the Cache calls took from the inner reader, the
exposed bytes being its first bytes. -/
theorem C11_cached_reader_stream (Size : Nat) (r : cachedReader)
    (sniff reads : List ReaderCall) (hr : r.cache.bytes = [])
    (hs : ∀ c ∈ sniff, c.isRead = false) (hreads : ∀ c ∈ reads, c.isCache = false) :
    (runReader Size r (sniff ++ reads)).returned
        ++ (runReader Size r (sniff ++ reads)).final.cache.bytes
      = (runReader Size r (sniff ++ reads)).delivered
    ∧ ((∃ c ∈ reads, c.isRead = true) →
        (runReader Size r (sniff ++ reads)).returned
          = (runReader Size r (sniff ++ reads)).delivered)
    ∧ (∀ b ∈ (runReader Size r sniff).exposed,
        b <+: (runReader Size r (sniff ++ reads)).delivered
        ∧ b <+: (runReader Size r sniff).final.cache.bytes
        ∧ b.length ≤ Size)
    ∧ (runReader Size r sniff).final.cache.bytes = (runReader Size r sniff).delivered
    ∧ ((runReader Size r sniff).delivered ≠ [] →
        (∀ w, (runReader Size r sniff).final.ReadMultiBuffer w
          = ({ (runReader Size r sniff).final with cache := none },
              some ((runReader Size r sniff).final.cache, none)))
        ∧ (∀ w, (runReader Size r sniff).final.ReadMultiBufferTimeout w
          = ({ (runReader Size r sniff).final with cache := none },
              some ((runReader Size r sniff).final.cache, none)))) := by
  have hall := runReader_bytes Size (sniff ++ reads) r
  rw [hr, List.nil_append] at hall
  obtain ⟨_, hcache, hexp⟩ := runReader_sniffing Size sniff r hs
  rw [hr, List.nil_append] at hcache hexp
  obtain ⟨hfin, hdel, _⟩ := runReader_append Size sniff reads r
  refine ⟨hall, ?_, ?_, hcache, ?_⟩
  · intro hex
    have h0 : (runReader Size r (sniff ++ reads)).final.cache.bytes = [] := by
      rw [hfin]
      exact runReader_reading Size reads _ hreads (Or.inr hex)
    rw [h0, List.append_nil] at hall
    exact hall
  · intro b hb
    obtain ⟨h1, h2⟩ := hexp b hb
    refine ⟨?_, ?_, h2⟩
    · rw [hdel]
      exact h1.trans (List.prefix_append _ _)
    · rw [hcache]
      exact h1
  · intro hne
    have hne2 : (runReader Size r sniff).final.cache.bytes ≠ [] := by rw [hcache]; exact hne
    obtain ⟨hri, hsome⟩ := readInternal_of_bytes _ hne2
    constructor
    · intro w
      simp [cachedReader.ReadMultiBuffer, hri, hsome]
    · intro w
      simp [cachedReader.ReadMultiBufferTimeout, hri, hsome]

/-- C11 on a cached reader over a pipe that holds "GET", with buffers of capacity 8:
two Cache calls with a write of " /" in between, then two reads with a write of "!"
in between. -/
theorem C11_cached_reader_stream_witness :
    ({ reader := ((pipe.New { limit := -1, discardOverflow := false } 16).WriteMultiBuffer
          (some [[71, 69, 84]]) []).1, cache := none } : cachedReader).cache.bytes = []
    ∧ (∀ c ∈ [ReaderCall.Cache [], ReaderCall.inner (Call.WriteMultiBuffer (some [[32, 47]]) []),
          ReaderCall.Cache [TimedWake.timer]], c.isRead = false)
    ∧ (∀ c ∈ [ReaderCall.ReadMultiBuffer [],
          ReaderCall.inner (Call.WriteMultiBuffer (some [[33]]) []),
          ReaderCall.ReadMultiBuffer []], c.isCache = false)
    ∧ (runReader 8
        { reader := ((pipe.New { limit := -1, discardOverflow := false } 16).WriteMultiBuffer
            (some [[71, 69, 84]]) []).1, cache := none }
        [ReaderCall.Cache [], ReaderCall.inner (Call.WriteMultiBuffer (some [[32, 47]]) []),
          ReaderCall.Cache [TimedWake.timer]]).exposed = [[71, 69, 84], [71, 69, 84, 32, 47]]
    ∧ (runReader 8
        { reader := ((pipe.New { limit := -1, discardOverflow := false } 16).WriteMultiBuffer
            (some [[71, 69, 84]]) []).1, cache := none }
        ([ReaderCall.Cache [], ReaderCall.inner (Call.WriteMultiBuffer (some [[32, 47]]) []),
          ReaderCall.Cache [TimedWake.timer]]
         ++ [ReaderCall.ReadMultiBuffer [],
          ReaderCall.inner (Call.WriteMultiBuffer (some [[33]]) []),
          ReaderCall.ReadMultiBuffer []])).returned = [71, 69, 84, 32, 47, 33]
    ∧ (runReader 8
        { reader := ((pipe.New { limit := -1, discardOverflow := false } 16).WriteMultiBuffer
            (some [[71, 69, 84]]) []).1, cache := none }
        ([ReaderCall.Cache [], ReaderCall.inner (Call.WriteMultiBuffer (some [[32, 47]]) []),
          ReaderCall.Cache [TimedWake.timer]]
         ++ [ReaderCall.ReadMultiBuffer [],
          ReaderCall.inner (Call.WriteMultiBuffer (some [[33]]) []),
          ReaderCall.ReadMultiBuffer []])).returned
      = (runReader 8
        { reader := ((pipe.New { limit := -1, discardOverflow := false } 16).WriteMultiBuffer
            (some [[71, 69, 84]]) []).1, cache := none }
        ([ReaderCall.Cache [], ReaderCall.inner (Call.WriteMultiBuffer (some [[32, 47]]) []),
          ReaderCall.Cache [TimedWake.timer]]
         ++ [ReaderCall.ReadMultiBuffer [],
          ReaderCall.inner (Call.WriteMultiBuffer (some [[33]]) []),
          ReaderCall.ReadMultiBuffer []])).delivered :=
  ⟨rfl, by decide, by decide, by decide, by decide,
    (C11_cached_reader_stream 8
      { reader := ((pipe.New { limit := -1, discardOverflow := false } 16).WriteMultiBuffer
          (some [[71, 69, 84]]) []).1, cache := none }
      [ReaderCall.Cache [], ReaderCall.inner (Call.WriteMultiBuffer (some [[32, 47]]) []),
        ReaderCall.Cache [TimedWake.timer]]
      [ReaderCall.ReadMultiBuffer [],
        ReaderCall.inner (Call.WriteMultiBuffer (some [[33]]) []),
        ReaderCall.ReadMultiBuffer []]
      rfl (by decide) (by decide)).2.1 (by decide)⟩

/-! ## C12: the sniffer outcome in Dispatch -/

/-- C12. Sniff outcome in Dispatch, for a valid destination.  For a TCP destination
with sniffing enabled and for every outcome of the sniffer, the sniffer is run once
and routed dispatch is called exactly once; Content.Protocol is the detected protocol
when the sniffer returned no error and is left as it was otherwise; the destination
handed to routed dispatch, which is also Outbound.Target, is the original one with
its address replaced by the parsed detected domain, network and port unchanged, when
the sniffer returned no error and shouldOverride holds, and the original destination
otherwise.  For a non-TCP destination or with sniffing disabled the sniffer is not
run, routed dispatch is called exactly once, and destination, Outbound.Target and
Content.Protocol are unchanged.  The sniffer is any function: `outcome` is what it
returns and `after` what it does to the cached reader. -/
theorem C12_sniff_outcome_in_Dispatch {ε : Type} (d : DefaultDispatcher) (net : netFns)
    (opt : pipeOption) (packetsCap : Nat) (after : cachedReader → cachedReader)
    (outcome : Except ε SniffResult) (ctx : Ctx) (destination : Destination)
    (hvalid : destination.IsValid = true) :
    (∀ content, ctx.content = some content → destination.Network = Network.TCP →
      content.SniffingRequest.Enabled = true →
      ∃ call, d.Dispatch net opt packetsCap (fun _ r => (after r, outcome)) ctx destination
          = some { link := getLink opt packetsCap destination, snifferRuns := 1,
                   routedCalls := [call] }
        ∧ call.destination
          = (match outcome with
             | Except.ok result =>
               if shouldOverride result content.SniffingRequest.OverrideDestinationForProtocol
               then { destination with Address := net.ParseAddress result.Domain }
               else destination
             | Except.error _ => destination)
        ∧ call.ctx.outbound = some { Target := call.destination }
        ∧ call.ctx.content.map Content.Protocol
          = some (match outcome with
                  | Except.ok result => result.Protocol
                  | Except.error _ => content.Protocol))
    ∧ ((destination.Network ≠ Network.TCP
        ∨ ctx.content = none
        ∨ ∃ content, ctx.content = some content ∧ content.SniffingRequest.Enabled = false) →
      ∃ call, d.Dispatch net opt packetsCap (fun _ r => (after r, outcome)) ctx destination
          = some { link := getLink opt packetsCap destination, snifferRuns := 0,
                   routedCalls := [call] }
        ∧ call.destination = destination
        ∧ call.ctx.outbound = some { Target := destination }
        ∧ call.ctx.content.map Content.Protocol
          = some ((ctx.content.map Content.Protocol).getD "")) := by
  constructor
  · intro content hcontent htcp hen
    unfold DefaultDispatcher.Dispatch
    cases outcome with
    | error e => simp [hvalid, hcontent, htcp, hen]
    | ok result =>
      by_cases hso : shouldOverride result content.SniffingRequest.OverrideDestinationForProtocol = true
      · simp [hvalid, hcontent, htcp, hen, hso]
      · simp [hvalid, hcontent, htcp, hen, hso]
  · intro h
    unfold DefaultDispatcher.Dispatch
    rcases h with h | h | ⟨content, hcontent, hdis⟩
    · cases hc : ctx.content <;> simp [hvalid, h, hc]
    · simp [hvalid, h]
    · simp [hvalid, hcontent, hdis]

/-- C12 on the HTTP scenario: a TCP destination 1.2.3.4:80, sniffing enabled with
override for "http", the sniffer detecting "http" for example.com: the one routed
call gets the destination example.com:80. -/
theorem C12_sniff_outcome_in_Dispatch_witness :
    ({ Address := "1.2.3.4", Port := 80, Network := Network.TCP } : Destination).IsValid = true
    ∧ ∃ call,
      DefaultDispatcher.Dispatch
          { ohm := { GetHandler := (fun _ => none), GetDefaultHandler := none }, router := none }
          { ParseAddress := (fun x => x), DestinationString := (fun x => x.Address),
            NetAddr := (fun x => x.Address) }
          { limit := -1, discardOverflow := false } 16
          (fun _ r => (r, (Except.ok { Protocol := "http", Domain := "example.com" } :
            Except String SniffResult)))
          { inbound := none, outbound := none,
            content := some
              { Protocol := "", RemoteAddr := "", Extra := "",
                SniffingRequest :=
                  { OverrideDestinationForProtocol := ["http"], Enabled := true } },
            proxyRecord := none, proxySession := none, accessMessage := none }
          { Address := "1.2.3.4", Port := 80, Network := Network.TCP }
        = some { link := getLink { limit := -1, discardOverflow := false } 16
                   { Address := "1.2.3.4", Port := 80, Network := Network.TCP },
                 snifferRuns := 1, routedCalls := [call] }
      ∧ call.destination = { Address := "example.com", Port := 80, Network := Network.TCP } := by
  refine ⟨by decide, ?_⟩
  obtain ⟨call, h1, h2, _⟩ :=
    (C12_sniff_outcome_in_Dispatch
      { ohm := { GetHandler := (fun _ => none), GetDefaultHandler := none }, router := none }
      { ParseAddress := (fun x => x), DestinationString := (fun x => x.Address),
        NetAddr := (fun x => x.Address) }
      { limit := -1, discardOverflow := false } 16 (fun r => r)
      (Except.ok { Protocol := "http", Domain := "example.com" } : Except String SniffResult)
      { inbound := none, outbound := none,
        content := some
          { Protocol := "", RemoteAddr := "", Extra := "",
            SniffingRequest :=
              { OverrideDestinationForProtocol := ["http"], Enabled := true } },
        proxyRecord := none, proxySession := none, accessMessage := none }
      { Address := "1.2.3.4", Port := 80, Network := Network.TCP } (by decide)).1
      { Protocol := "", RemoteAddr := "", Extra := "",
        SniffingRequest := { OverrideDestinationForProtocol := ["http"], Enabled := true } }
      rfl rfl rfl
  exact ⟨call, h1, by rw [h2]; decide⟩

/-! ## C13 and C14: routed dispatch -/

theorem selectHandler_routed (d : DefaultDispatcher) (ctx : Ctx) (router : Router)
    (tag : String) (h : Handler) (hr : d.router = some router)
    (hp : router.PickRoute ctx = some tag) (hh : d.ohm.GetHandler tag = some h) :
    selectHandler d ctx = some h := by
  simp [selectHandler, hr, hp, hh]

theorem selectHandler_default (d : DefaultDispatcher) (ctx : Ctx)
    (hsel : d.router = none
      ∨ ∃ router, d.router = some router
          ∧ (router.PickRoute ctx = none
            ∨ ∃ tag, router.PickRoute ctx = some tag ∧ d.ohm.GetHandler tag = none)) :
    selectHandler d ctx = d.ohm.GetDefaultHandler := by
  rcases hsel with h | ⟨router, hr, h | ⟨tag, hp, hh⟩⟩
  · simp [selectHandler, h]
  · simp [selectHandler, hr, h]
  · simp [selectHandler, hr, hp, hh]

/-- C13. Handler selection: routedDispatch calls the handler registered under the
tag of the router when a router is configured, PickRoute returns no error and the
outbound manager knows the tag; in every other case (no router, routing error,
unknown tag) it calls the default handler of the outbound manager when there is one,
and no handler when there is none.  The tag stamped into the proxy record, the
session and the access message, where the context has them, is the tag of the
handler called, and that handler gets the link as it is. -/
theorem C13_handler_selection (d : DefaultDispatcher) (ctx : Ctx) (link : Flow)
    (destination : Destination) :
    (∀ router tag h, d.router = some router → router.PickRoute ctx = some tag →
      d.ohm.GetHandler tag = some h →
      ∃ ctx1, d.routedDispatch ctx link destination
          = Routed.handed h ctx1 link (ctx.accessMessage.map fun _ => { OutboundTag := h.Tag })
        ∧ ctx1.proxyRecord.map ProxyRecord.Tag = ctx.proxyRecord.map (fun _ => h.Tag)
        ∧ ctx1.proxySession.map Session.OutboundTag = ctx.proxySession.map (fun _ => h.Tag))
    ∧ ((d.router = none
        ∨ ∃ router, d.router = some router
            ∧ (router.PickRoute ctx = none
              ∨ ∃ tag, router.PickRoute ctx = some tag ∧ d.ohm.GetHandler tag = none)) →
      (∀ h, d.ohm.GetDefaultHandler = some h →
        ∃ ctx1, d.routedDispatch ctx link destination
            = Routed.handed h ctx1 link (ctx.accessMessage.map fun _ => { OutboundTag := h.Tag })
          ∧ ctx1.proxyRecord.map ProxyRecord.Tag = ctx.proxyRecord.map (fun _ => h.Tag)
          ∧ ctx1.proxySession.map Session.OutboundTag = ctx.proxySession.map (fun _ => h.Tag))
      ∧ (d.ohm.GetDefaultHandler = none →
        d.routedDispatch ctx link destination
          = Routed.tornDown link.CloseWriter.InterruptReader)) := by
  constructor
  · intro router tag h hr hp hh
    have hs := selectHandler_routed d ctx router tag h hr hp hh
    refine ⟨_, by simp only [DefaultDispatcher.routedDispatch, hs]; rfl, ?_, ?_⟩
    · cases ctx.proxyRecord <;> rfl
    · cases ctx.proxySession <;> rfl
  · intro hsel
    have hs := selectHandler_default d ctx hsel
    constructor
    · intro h hd
      rw [hd] at hs
      refine ⟨_, by simp only [DefaultDispatcher.routedDispatch, hs]; rfl, ?_, ?_⟩
      · cases ctx.proxyRecord <;> rfl
      · cases ctx.proxySession <;> rfl
    · intro hd
      rw [hd] at hs
      simp only [DefaultDispatcher.routedDispatch, hs]

/-- C13 with a router that picks the tag "proxy", known to the outbound manager, and a
context that has a proxy record. -/
theorem C13_handler_selection_witness :
    ∃ ctx1,
      DefaultDispatcher.routedDispatch
          { ohm := { GetHandler := (fun t => if t = "proxy" then some { id := 1, Tag := "proxy" }
                                      else none),
                     GetDefaultHandler := some { id := 0, Tag := "direct" } },
            router := some { PickRoute := (fun _ => some "proxy") } }
          { inbound := none, outbound := none, content := none,
            proxyRecord := some { Target := "example.com:80", Tag := "" },
            proxySession := none, accessMessage := none }
          (getLink { limit := -1, discardOverflow := false } 16
            { Address := "example.com", Port := 80, Network := Network.TCP })
          { Address := "example.com", Port := 80, Network := Network.TCP }
        = Routed.handed { id := 1, Tag := "proxy" } ctx1
            (getLink { limit := -1, discardOverflow := false } 16
              { Address := "example.com", Port := 80, Network := Network.TCP })
            none
      ∧ ctx1.proxyRecord.map ProxyRecord.Tag = some "proxy" := by
  obtain ⟨ctx1, h1, h2, _⟩ :=
    (C13_handler_selection
      { ohm := { GetHandler := (fun t => if t = "proxy" then some { id := 1, Tag := "proxy" }
                                  else none),
                 GetDefaultHandler := some { id := 0, Tag := "direct" } },
        router := some { PickRoute := (fun _ => some "proxy") } }
      { inbound := none, outbound := none, content := none,
        proxyRecord := some { Target := "example.com:80", Tag := "" },
        proxySession := none, accessMessage := none }
      (getLink { limit := -1, discardOverflow := false } 16
        { Address := "example.com", Port := 80, Network := Network.TCP })
      { Address := "example.com", Port := 80, Network := Network.TCP }).1
      { PickRoute := (fun _ => some "proxy") } "proxy" { id := 1, Tag := "proxy" } rfl rfl
      (by decide)
  exact ⟨ctx1, h1, h2⟩

theorem ReadPacket_not_open_done (wakes : List Wake) :
    ∀ p : pipe, p.state ≠ state.open_ →
      (p.ReadPacket (wakes ++ [Wake.done])).2 = some (none, none, some error.EOF)
      ∨ (p.ReadPacket (wakes ++ [Wake.done])).2 = some (none, none, some error.ErrClosedPipe) := by
  induction wakes with
  | nil =>
    intro p h
    unfold pipe.ReadPacket
    cases hs : p.state with
    | open_ => exact absurd hs h
    | errord => simp [pipe.getState, hs]
    | closed =>
      by_cases hp : p.packets = []
      · simp [pipe.getState, hs, hp]
      · have : p.packets.length ≠ 0 := fun h0 => hp (List.length_eq_zero.mp h0)
        simp [pipe.getState, hs, this]
  | cons w ws ih =>
    intro p h
    cases hs : p.state with
    | open_ => exact absurd hs h
    | errord =>
      unfold pipe.ReadPacket
      simp [pipe.getState, hs]
    | closed =>
      by_cases hp : p.packets = []
      · have hg : ¬ (p.getState true true).isSome = true := by simp [pipe.getState, hs, hp]
        have hq : ¬ (!p.packets.isEmpty) = true := by simp [hp]
        rw [List.cons_append]
        unfold pipe.ReadPacket
        rw [if_neg hg, if_neg hq]
        cases w with
        | signal => exact ih { p with readSignal := false } (by simp [hs])
        | done => simp
      · have : p.packets.length ≠ 0 := fun h0 => hp (List.length_eq_zero.mp h0)
        unfold pipe.ReadPacket
        simp [pipe.getState, hs, this]

theorem ReadPacket_not_open_no_packet (wakes : List Wake) :
    ∀ p : pipe, p.state ≠ state.open_ → p.packets = [] →
      (p.ReadPacket wakes).2 = none
      ∨ (p.ReadPacket wakes).2 = some (none, none, some error.ErrClosedPipe) := by
  induction wakes with
  | nil =>
    intro p h hp
    unfold pipe.ReadPacket
    cases hs : p.state with
    | open_ => exact absurd hs h
    | errord => simp [pipe.getState, hs]
    | closed => simp [pipe.getState, hs, hp]
  | cons w ws ih =>
    intro p h hp
    cases hs : p.state with
    | open_ => exact absurd hs h
    | errord =>
      unfold pipe.ReadPacket
      simp [pipe.getState, hs]
    | closed =>
      have hg : ¬ (p.getState true true).isSome = true := by simp [pipe.getState, hs, hp]
      have hq : ¬ (!p.packets.isEmpty) = true := by simp [hp]
      unfold pipe.ReadPacket
      rw [if_neg hg, if_neg hq]
      cases w with
      | signal => exact ih { p with readSignal := false } (by simp [hs]) hp
      | done => simp

theorem Close_not_open (p : pipe) : p.Close.1.state ≠ state.open_ := by
  cases hs : p.state <;> simp [pipe.Close, hs]

theorem Close_read_no_bytes (p : pipe) (hb : p.data.bytes = []) :
    (∀ wakes, (p.Close.1.ReadMultiBuffer wakes).2 = some (none, some error.EOF)
        ∨ (p.Close.1.ReadMultiBuffer wakes).2 = some (none, some error.ErrClosedPipe))
    ∧ (∀ wakes, (p.Close.1.ReadMultiBufferTimeout wakes).2 = some (none, some error.EOF)
        ∨ (p.Close.1.ReadMultiBufferTimeout wakes).2 = some (none, some error.ErrClosedPipe)) := by
  have he := IsEmpty_of_bytes _ hb
  cases hs : p.state with
  | open_ =>
    have hc : p.Close.1.state = state.closed := by rw [Close_open p hs]
    have hd : p.Close.1.data.IsEmpty = true := by rw [Close_open p hs]; exact he
    exact ⟨fun w => Or.inl (ReadMultiBuffer_drained _ hc hd w),
      fun w => Or.inl (ReadMultiBufferTimeout_drained _ hc hd w)⟩
  | closed =>
    rw [Close_closed p hs]
    exact ⟨fun w => Or.inl (ReadMultiBuffer_drained _ hs he w),
      fun w => Or.inl (ReadMultiBufferTimeout_drained _ hs he w)⟩
  | errord =>
    rw [Close_errord p hs]
    exact ⟨fun w => Or.inr (ReadMultiBuffer_errord _ hs w),
      fun w => Or.inr (ReadMultiBufferTimeout_errord _ hs w)⟩

theorem InterruptReader_uplink (link : Flow) :
    link.InterruptReader.uplink = link.uplink.Interrupt
    ∧ link.InterruptReader.downlink = link.downlink := by
  unfold Flow.InterruptReader
  cases link.cached <;> exact ⟨rfl, rfl⟩

/-- C14. Missing handler teardown: when routedDispatch selects no handler and no
default handler exists, it calls no handler and ends with the link torn down: the
downlink pipe, which the writer of the outbound link writes to, is closed, and the
uplink pipe, which its reader reads from, is interrupted.  Afterwards, when nothing
had been written to the downlink, a ReadMultiBuffer or ReadMultiBufferTimeout on
the inbound link returns end-of-stream or closed-pipe with no data, a ReadPacket on
it delivers no packet and returns closed-pipe once the done case resumes it, and a
non-empty WriteMultiBuffer or WritePacket on the inbound link returns the closed-pipe
error; none of the stream calls parks. -/
theorem C14_missing_handler_teardown (d : DefaultDispatcher) (ctx : Ctx) (link : Flow)
    (destination : Destination)
    (hsel : d.router = none
      ∨ ∃ router, d.router = some router
          ∧ (router.PickRoute ctx = none
            ∨ ∃ tag, router.PickRoute ctx = some tag ∧ d.ohm.GetHandler tag = none))
    (hdefault : d.ohm.GetDefaultHandler = none)
    (hbytes : link.downlink.data.bytes = []) (hpackets : link.downlink.packets = []) :
    ∃ torn, d.routedDispatch ctx link destination = Routed.tornDown torn
      ∧ torn.downlink = link.downlink.Close.1
      ∧ torn.uplink = link.uplink.Interrupt
      ∧ (∀ wakes, (torn.downlink.ReadMultiBuffer wakes).2 = some (none, some error.EOF)
          ∨ (torn.downlink.ReadMultiBuffer wakes).2 = some (none, some error.ErrClosedPipe))
      ∧ (∀ wakes, (torn.downlink.ReadMultiBufferTimeout wakes).2 = some (none, some error.EOF)
          ∨ (torn.downlink.ReadMultiBufferTimeout wakes).2
              = some (none, some error.ErrClosedPipe))
      ∧ (∀ wakes, (torn.downlink.ReadPacket wakes).2 = none
          ∨ (torn.downlink.ReadPacket wakes).2 = some (none, none, some error.ErrClosedPipe))
      ∧ (∀ wakes, (torn.downlink.ReadPacket (wakes ++ [Wake.done])).2
          = some (none, none, some error.ErrClosedPipe))
      ∧ (∀ mb wakes, mb.IsEmpty = false →
          (torn.uplink.WriteMultiBuffer mb wakes).2 = some (some error.ErrClosedPipe))
      ∧ (∀ payload dest wakes, payload.isEmpty = false →
          (torn.uplink.WritePacket payload dest wakes).2 = some (some error.ErrClosedPipe)) := by
  have hs : selectHandler d ctx = none := by
    rw [selectHandler_default d ctx hsel, hdefault]
  obtain ⟨hu, hd⟩ := InterruptReader_uplink link.CloseWriter
  have hdown : link.CloseWriter.InterruptReader.downlink = link.downlink.Close.1 := hd
  have hup : link.CloseWriter.InterruptReader.uplink = link.uplink.Interrupt := hu
  have hno := Close_not_open link.downlink
  have hpk : link.downlink.Close.1.packets = [] := by
    rw [(Close_frame link.downlink).2.2]; exact hpackets
  have herr := Interrupt_state link.uplink
  refine ⟨link.CloseWriter.InterruptReader,
    by simp only [DefaultDispatcher.routedDispatch, hs], hdown, hup, ?_, ?_, ?_, ?_, ?_, ?_⟩
  · rw [hdown]; exact (Close_read_no_bytes link.downlink hbytes).1
  · rw [hdown]; exact (Close_read_no_bytes link.downlink hbytes).2
  · rw [hdown]; intro wakes
    exact ReadPacket_not_open_no_packet wakes _ hno hpk
  · rw [hdown]; intro wakes
    rcases ReadPacket_not_open_done wakes _ hno with h | h
    · rcases ReadPacket_not_open_no_packet (wakes ++ [Wake.done]) _ hno hpk with h2 | h2
      · rw [h2] at h; simp at h
      · exact h2
    · exact h
  · rw [hup]; intro mb wakes he
    rw [WriteMultiBuffer_errord _ herr, he]; rfl
  · rw [hup]; intro payload dest wakes he
    rw [WritePacket_errord _ herr, he]; rfl

/-- C14 on the pipes `getLink` creates for a TCP destination, with no router and no
default handler. -/
theorem C14_missing_handler_teardown_witness :
    ∃ torn,
      DefaultDispatcher.routedDispatch
          { ohm := { GetHandler := (fun _ => none), GetDefaultHandler := none }, router := none }
          { inbound := none, outbound := none, content := none, proxyRecord := none,
            proxySession := none, accessMessage := none }
          (getLink { limit := -1, discardOverflow := false } 16
            { Address := "example.com", Port := 80, Network := Network.TCP })
          { Address := "example.com", Port := 80, Network := Network.TCP }
        = Routed.tornDown torn
      ∧ (torn.downlink.ReadMultiBuffer []).2 = some (none, some error.EOF)
      ∧ (torn.uplink.WriteMultiBuffer (some [[1]]) []).2 = some (some error.ErrClosedPipe) := by
  obtain ⟨torn, h1, h2, _, _, _, _, _, h9, _⟩ :=
    C14_missing_handler_teardown
      { ohm := { GetHandler := (fun _ => none), GetDefaultHandler := none }, router := none }
      { inbound := none, outbound := none, content := none, proxyRecord := none,
        proxySession := none, accessMessage := none }
      (getLink { limit := -1, discardOverflow := false } 16
        { Address := "example.com", Port := 80, Network := Network.TCP })
      { Address := "example.com", Port := 80, Network := Network.TCP }
      (Or.inl rfl) rfl (by decide) (by decide)
  exact ⟨torn, h1, by rw [h2]; decide, h9 (some [[1]]) [] (by decide)⟩

/-! ## C15, C16 and C17: the selection of the latency balancer -/

theorem wrap64_of_range (x : Int) (h1 : -9223372036854775808 ≤ x)
    (h2 : x < 9223372036854775808) : wrap64 x = x := by
  unfold wrap64
  omega

theorem selectServerLoop_find (tolerance : Int) (selected newBest m : Server)
    (newMeasures : List Server)
    (hm : newMeasures.find? (fun x => decide (x.tag = selected.tag)) = some m) :
    LatencyStrategy.selectServerLoop tolerance selected newBest newMeasures
      = if newBest.latency < wrap64 (m.latency - tolerance) then some newBest else some m := by
  induction newMeasures with
  | nil => simp at hm
  | cons x xs ih =>
    unfold LatencyStrategy.selectServerLoop
    by_cases hx : x.tag = selected.tag
    · simp only [List.find?, hx, decide_True, Option.some.injEq] at hm
      subst hm
      simp [hx]
    · simp only [List.find?, hx, decide_False] at hm
      simp only [hx, if_false]
      exact ih hm

theorem selectServerLoop_absent (tolerance : Int) (selected newBest : Server)
    (newMeasures : List Server) (h : ∀ x ∈ newMeasures, x.tag ≠ selected.tag) :
    LatencyStrategy.selectServerLoop tolerance selected newBest newMeasures = none := by
  induction newMeasures with
  | nil => rfl
  | cons x xs ih =>
    unfold LatencyStrategy.selectServerLoop
    rw [if_neg (h x (List.mem_cons_self x xs))]
    exact ih (fun y hy => h y (List.mem_cons_of_mem x hy))

/-- The result of selectServer when both lists are non-empty and the new list holds
the selected tag, first in the entry `m`. -/
theorem selectServer_found (s : LatencyStrategy) (oldMeasures newMeasures : List Server)
    (selected newBest m : Server) (hsel : s.selectedServer = some selected)
    (hold : oldMeasures ≠ []) (hbest : newMeasures.head? = some newBest)
    (hm : newMeasures.find? (fun x => decide (x.tag = selected.tag)) = some m) :
    s.selectServer oldMeasures newMeasures
      = some (if newBest.latency < wrap64 (m.latency - s.tolerance) then some newBest
              else some m) := by
  have h1 : oldMeasures.length ≠ 0 := fun h => hold (List.length_eq_zero.mp h)
  have h2 : newMeasures.length ≠ 0 := by
    intro h
    rw [List.length_eq_zero.mp h] at hbest
    simp at hbest
  unfold LatencyStrategy.selectServer
  rw [if_neg h1, if_neg h2, hbest, hsel]
  simp only
  rw [selectServerLoop_find s.tolerance selected newBest m newMeasures hm]

/-- C15, as stated, fails when the int64 subtraction wraps: with A selected, a tolerance
of 20 ms and the new measures B and A, both with the smallest int64 as latency, the
latency of new[0] is at least current - tolerance, yet selectServer returns the entry
of B, because current - tolerance, computed in int64, has become a large positive
duration. -/
theorem C15_wrapped_subtraction_counterexample :
    ({ interval := 120000000000, tolerance := 20000000, lastMeasure := 0,
       servers := [{ latency := 100000000, tag := "A" }],
       selectedServer := some { latency := 100000000, tag := "A" } } :
        LatencyStrategy).selectServer
        [{ latency := 100000000, tag := "A" }]
        [{ latency := -9223372036854775808, tag := "B" },
         { latency := -9223372036854775808, tag := "A" }]
      = some (some { latency := -9223372036854775808, tag := "B" })
    ∧ (-9223372036854775808 : Int) ≥ -9223372036854775808 - 20000000
    ∧ wrap64 (-9223372036854775808 - 20000000) = 9223372036834775808 :=
  ⟨by decide, by decide, by decide⟩

/-- C15, amended. Hysteresis keeps the selection: for every non-empty old list, every
current selection and every new measurement list (sorted or not) in which the first
entry carrying the selected tag is m, with the latency `current` of m and the
tolerance being durations, non-negative and within int64: if the latency of new[0] is
at least current - tolerance, selectServer returns m, the entry that carries the
selected tag and its newly measured latency. -/
theorem C15_hysteresis_keeps (s : LatencyStrategy) (oldMeasures newMeasures : List Server)
    (selected newBest m : Server) (hsel : s.selectedServer = some selected)
    (hold : oldMeasures ≠ []) (hbest : newMeasures.head? = some newBest)
    (hm : newMeasures.find? (fun x => decide (x.tag = selected.tag)) = some m)
    (hcur : 0 ≤ m.latency ∧ m.latency < 9223372036854775808)
    (htol : 0 ≤ s.tolerance ∧ s.tolerance < 9223372036854775808)
    (hkeep : newBest.latency ≥ m.latency - s.tolerance) :
    s.selectServer oldMeasures newMeasures = some (some m) ∧ m.tag = selected.tag := by
  have hw : wrap64 (m.latency - s.tolerance) = m.latency - s.tolerance :=
    wrap64_of_range _ (by omega) (by omega)
  have htag : m.tag = selected.tag := by
    have := List.find?_some hm
    simpa using this
  rw [selectServer_found s oldMeasures newMeasures selected newBest m hsel hold hbest hm, hw,
    if_neg (not_lt.mpr hkeep)]
  exact ⟨rfl, htag⟩

/-- C15 on round 2 of the scenario: A selected, tolerance 20 ms, new measures B 108 ms
and A 115 ms: A is kept, with 115 ms. -/
theorem C15_hysteresis_keeps_witness :
    ({ interval := 120000000000, tolerance := 20000000, lastMeasure := 0,
       servers := [{ latency := 100000000, tag := "A" }, { latency := 110000000, tag := "B" }],
       selectedServer := some { latency := 100000000, tag := "A" } } :
        LatencyStrategy).selectServer
        [{ latency := 100000000, tag := "A" }, { latency := 110000000, tag := "B" }]
        [{ latency := 108000000, tag := "B" }, { latency := 115000000, tag := "A" }]
      = some (some { latency := 115000000, tag := "A" }) :=
  (C15_hysteresis_keeps
    { interval := 120000000000, tolerance := 20000000, lastMeasure := 0,
      servers := [{ latency := 100000000, tag := "A" }, { latency := 110000000, tag := "B" }],
      selectedServer := some { latency := 100000000, tag := "A" } }
    [{ latency := 100000000, tag := "A" }, { latency := 110000000, tag := "B" }]
    [{ latency := 108000000, tag := "B" }, { latency := 115000000, tag := "A" }]
    { latency := 100000000, tag := "A" } { latency := 108000000, tag := "B" }
    { latency := 115000000, tag := "A" } rfl (by decide) rfl (by decide) (by decide) (by decide)
    (by decide)).1

/-- C16, as stated, fails when the selected server is itself the best: with A
selected, tolerance 20 ms and new measures A 100 ms and B 110 ms, selectServer returns
new[0], the entry of A, although new[0].latency < current - tolerance does not hold. -/
theorem C16_returns_best_without_switch_counterexample :
    ({ interval := 120000000000, tolerance := 20000000, lastMeasure := 0,
       servers := [{ latency := 100000000, tag := "A" }, { latency := 110000000, tag := "B" }],
       selectedServer := some { latency := 100000000, tag := "A" } } :
        LatencyStrategy).selectServer
        [{ latency := 100000000, tag := "A" }, { latency := 110000000, tag := "B" }]
        [{ latency := 100000000, tag := "A" }, { latency := 110000000, tag := "B" }]
      = some ([{ latency := 100000000, tag := "A" },
               ({ latency := 110000000, tag := "B" } : Server)].head?)
    ∧ ¬ ((100000000 : Int) < 100000000 - 20000000) :=
  ⟨by decide, by decide⟩

/-- C16, amended. Hysteresis switches only past the tolerance: for every non-empty
old list and every new list (sorted or not) in which the first entry carrying the
selected tag is m, with the latency `current` of m and the tolerance being durations,
non-negative and within int64: selectServer returns new[0] if and only if
new[0].latency < current - tolerance (strict) or new[0] itself carries the selected
tag; in the second case it stays on the selected server, which is the best, and in
every other case it returns m. -/
theorem C16_hysteresis_switches (s : LatencyStrategy) (oldMeasures newMeasures : List Server)
    (selected newBest m : Server) (hsel : s.selectedServer = some selected)
    (hold : oldMeasures ≠ []) (hbest : newMeasures.head? = some newBest)
    (hm : newMeasures.find? (fun x => decide (x.tag = selected.tag)) = some m)
    (hcur : 0 ≤ m.latency ∧ m.latency < 9223372036854775808)
    (htol : 0 ≤ s.tolerance ∧ s.tolerance < 9223372036854775808) :
    (s.selectServer oldMeasures newMeasures = some (some newBest)
      ↔ newBest.latency < m.latency - s.tolerance ∨ newBest.tag = selected.tag)
    ∧ (newBest.latency < m.latency - s.tolerance →
        s.selectServer oldMeasures newMeasures = some (some newBest))
    ∧ (¬ newBest.latency < m.latency - s.tolerance →
        s.selectServer oldMeasures newMeasures = some (some m)) := by
  have hw : wrap64 (m.latency - s.tolerance) = m.latency - s.tolerance :=
    wrap64_of_range _ (by omega) (by omega)
  have hres := selectServer_found s oldMeasures newMeasures selected newBest m hsel hold hbest hm
  rw [hw] at hres
  have htag : m.tag = selected.tag := by
    have := List.find?_some hm
    simpa using this
  have hhead : newBest.tag = selected.tag → m = newBest := by
    intro ht
    cases newMeasures with
    | nil => simp at hbest
    | cons x xs =>
      simp only [List.head?_cons, Option.some.injEq] at hbest
      subst hbest
      simp only [List.find?, ht, decide_True, Option.some.injEq] at hm
      exact hm.symm
  refine ⟨?_, ?_, ?_⟩
  · rw [hres]
    by_cases hlt : newBest.latency < m.latency - s.tolerance
    · simp [hlt]
    · simp only [hlt, if_false, false_or, Option.some.injEq]
      constructor
      · intro h; rw [← h]; exact htag
      · exact hhead
  · intro hlt
    rw [hres, if_pos hlt]
  · intro hlt
    rw [hres, if_neg hlt]

/-- C16 on round 3 of the scenario: A selected, tolerance 20 ms, new measures B 110 ms
and A 140 ms: the selection switches to B. -/
theorem C16_hysteresis_switches_witness :
    ({ interval := 120000000000, tolerance := 20000000, lastMeasure := 0,
       servers := [{ latency := 108000000, tag := "B" }, { latency := 115000000, tag := "A" }],
       selectedServer := some { latency := 115000000, tag := "A" } } :
        LatencyStrategy).selectServer
        [{ latency := 108000000, tag := "B" }, { latency := 115000000, tag := "A" }]
        [{ latency := 110000000, tag := "B" }, { latency := 140000000, tag := "A" }]
      = some (some { latency := 110000000, tag := "B" }) :=
  (C16_hysteresis_switches
    { interval := 120000000000, tolerance := 20000000, lastMeasure := 0,
      servers := [{ latency := 108000000, tag := "B" }, { latency := 115000000, tag := "A" }],
      selectedServer := some { latency := 115000000, tag := "A" } }
    [{ latency := 108000000, tag := "B" }, { latency := 115000000, tag := "A" }]
    [{ latency := 110000000, tag := "B" }, { latency := 140000000, tag := "A" }]
    { latency := 115000000, tag := "A" } { latency := 110000000, tag := "B" }
    { latency := 140000000, tag := "A" } rfl (by decide) rfl (by decide) (by decide)
    (by decide)).2.1 (by decide)

/-- C17. What the code does where the claim fails.  The old list is [A], A is
selected, and the new list is [B]: selectServer returns nil, and the end of
measureOnce then panics on `s.selectedServer.tag` in its log line, before it stores
the new list. -/
theorem C17_vanished_selection_failing :
    ({ interval := 120000000000, tolerance := 20000000, lastMeasure := 0,
       servers := [{ latency := 100000000, tag := "A" }],
       selectedServer := some { latency := 100000000, tag := "A" } } :
        LatencyStrategy).selectServer
        [{ latency := 100000000, tag := "A" }] [{ latency := 90000000, tag := "B" }]
      = some none
    ∧ ({ interval := 120000000000, tolerance := 20000000, lastMeasure := 0,
         servers := [{ latency := 100000000, tag := "A" }],
         selectedServer := some { latency := 100000000, tag := "A" } } :
          LatencyStrategy).publish [{ latency := 90000000, tag := "B" }] = none :=
  ⟨by decide, by decide⟩

/-- Whenever the selected tag is absent from a non-empty new list and the old list is
non-empty, selectServer returns nil and the end of measureOnce panics. -/
theorem publish_vanished (s : LatencyStrategy) (servers : List Server) (selected : Server)
    (hsel : s.selectedServer = some selected) (hold : s.servers ≠ []) (hnew : servers ≠ [])
    (habsent : ∀ x ∈ servers, x.tag ≠ selected.tag) :
    s.selectServer s.servers servers = some none ∧ s.publish servers = none := by
  have h1 : s.servers.length ≠ 0 := fun h => hold (List.length_eq_zero.mp h)
  have h2 : servers.length ≠ 0 := fun h => hnew (List.length_eq_zero.mp h)
  have hs : s.selectServer s.servers servers = some none := by
    unfold LatencyStrategy.selectServer
    rw [if_neg h1, if_neg h2, hsel]
    cases servers with
    | nil => exact absurd rfl hnew
    | cons x xs =>
      simp only [List.head?_cons]
      rw [selectServerLoop_absent s.tolerance selected x (x :: xs) habsent]
  exact ⟨hs, by simp [LatencyStrategy.publish, hs]⟩

/-! ## C18: the range of MeasureLatency -/

/-- C18, as stated, fails when the response is read: with a timeout of 5 ns and the
done case fired, the function returns the elapsed time read after the select, here
7 ns, which is above the timeout. -/
theorem C18_elapsed_above_timeout_counterexample :
    MeasureLatency ["tcp", "www.google.com", "80"] true 5 ProbeEnd.done 7 = some 7
    ∧ ¬ ((7 : Int) ≤ 5) :=
  ⟨by decide, by decide⟩

/-- C18, amended. MeasureLatency range: for a well-formed probe target, a timeout
≥ 0 and a clock that does not run backwards, MeasureLatency returns a duration ≥ 0;
it returns the timeout when a probe error or the deadline ends the probe, and the
elapsed time read after the select when the response was read, so that the result
is ≤ timeout exactly when the probe did not end with the response or that elapsed
time is ≤ timeout. -/
theorem C18_MeasureLatency_range (tgtParts : List String) (timeout : Int)
    (probeEnd : ProbeEnd) (elapsed : Int) (htarget : tgtParts.length = 3)
    (htimeout : 0 ≤ timeout) (hclock : 0 ≤ elapsed) :
    ∃ latency, MeasureLatency tgtParts true timeout probeEnd elapsed = some latency
      ∧ 0 ≤ latency
      ∧ (probeEnd ≠ ProbeEnd.done → latency = timeout)
      ∧ (probeEnd = ProbeEnd.done → latency = elapsed)
      ∧ (latency ≤ timeout ↔ probeEnd ≠ ProbeEnd.done ∨ elapsed ≤ timeout) := by
  cases probeEnd <;> simp [MeasureLatency, htarget, htimeout, hclock]

/-- C18 on a probe of tls:www.google.com:443 with a timeout of 6 s: a response read
after 80 ms, and a probe error. -/
theorem C18_MeasureLatency_range_witness :
    (["tls", "www.google.com", "443"] : List String).length = 3
    ∧ MeasureLatency ["tls", "www.google.com", "443"] true 6000000000 ProbeEnd.done 80000000
        = some 80000000
    ∧ ∃ latency,
        MeasureLatency ["tls", "www.google.com", "443"] true 6000000000 ProbeEnd.errCh 80000000
          = some latency
        ∧ 0 ≤ latency ∧ latency = 6000000000 := by
  refine ⟨rfl, by decide, ?_⟩
  obtain ⟨latency, h1, h2, h3, _⟩ :=
    C18_MeasureLatency_range ["tls", "www.google.com", "443"] 6000000000 ProbeEnd.errCh 80000000
      rfl (by decide) (by decide)
  exact ⟨latency, h1, h2, h3 (by decide)⟩

/-! ## C19 and C20: the entries of the UDP dispatcher -/

namespace udp

theorem get_none_iff (m : connMap) (k : Destination) :
    m.get k = none ↔ k ∉ m.map Prod.fst := by
  induction m with
  | nil => simp [connMap.get]
  | cons x xs ih =>
    obtain ⟨k2, e⟩ := x
    unfold connMap.get
    by_cases h : k2 = k
    · simp [h]
    · simp only [h, if_false, List.map_cons, List.mem_cons, not_or]
      rw [ih]
      exact ⟨fun hx => ⟨fun hk => h hk.symm, hx⟩, fun hx => hx.2⟩

theorem get_append_left (a b : connMap) (k : Destination) (h : k ∈ a.map Prod.fst) :
    (a ++ b).get k = a.get k := by
  induction a with
  | nil => simp at h
  | cons x xs ih =>
    obtain ⟨k2, e⟩ := x
    simp only [List.cons_append, connMap.get]
    by_cases hk : k2 = k
    · simp [hk]
    · simp only [hk, if_false]
      apply ih
      simp only [List.map_cons, List.mem_cons] at h
      rcases h with h | h
      · exact absurd h.symm hk
      · exact h

theorem get_append_singleton (a : connMap) (k : Destination) (e : connEntry)
    (h : k ∉ a.map Prod.fst) : (a ++ [(k, e)]).get k = some e := by
  induction a with
  | nil => simp [connMap.get]
  | cons x xs ih =>
    obtain ⟨k2, e2⟩ := x
    simp only [List.map_cons, List.mem_cons, not_or] at h
    simp only [List.cons_append, connMap.get]
    rw [if_neg (fun hk => h.1 hk.symm)]
    exact ih h.2

theorem set_of_not_mem (m : connMap) (k : Destination) (e : connEntry)
    (h : k ∉ m.map Prod.fst) : m.set k e = m ++ [(k, e)] := by
  induction m with
  | nil => rfl
  | cons x xs ih =>
    obtain ⟨k2, e2⟩ := x
    simp only [List.map_cons, List.mem_cons, not_or] at h
    simp only [connMap.set, List.cons_append]
    rw [if_neg (fun hk => h.1 hk.symm), ih h.2]

theorem get_set_self (m : connMap) (k : Destination) (e : connEntry) :
    (m.set k e).get k = some e := by
  induction m with
  | nil => simp [connMap.set, connMap.get]
  | cons x xs ih =>
    obtain ⟨k2, e2⟩ := x
    unfold connMap.set
    by_cases hk : k2 = k
    · simp [hk, connMap.get]
    · simp only [hk, if_false, connMap.get]
      exact ih

theorem entriesFrom_keys (n : Nat) (ps : List Packet) :
    (entriesFrom n ps).map Prod.fst = ps.map Packet.source := by
  induction ps generalizing n with
  | nil => rfl
  | cons p ps ih => simp [entriesFrom, ih]

theorem entriesFrom_length (n : Nat) (ps : List Packet) :
    (entriesFrom n ps).length = ps.length := by
  induction ps generalizing n with
  | nil => rfl
  | cons p ps ih => simp [entriesFrom, ih]

theorem firstPackets_sources (ps : List Packet) :
    ∀ seen : List Destination,
      ((firstPackets seen ps).map Packet.source).Nodup
      ∧ ∀ src, src ∈ (firstPackets seen ps).map Packet.source
          ↔ src ∈ ps.map Packet.source ∧ src ∉ seen := by
  induction ps with
  | nil => intro seen; simp [firstPackets]
  | cons p ps ih =>
    intro seen
    unfold firstPackets
    by_cases hp : p.source ∈ seen
    · rw [if_pos hp]
      obtain ⟨h1, h2⟩ := ih seen
      refine ⟨h1, fun src => ?_⟩
      rw [h2 src]
      simp only [List.map_cons, List.mem_cons]
      constructor
      · intro h; exact ⟨Or.inr h.1, h.2⟩
      · rintro ⟨h | h, hn⟩
        · rw [h] at hn; exact absurd hp hn
        · exact ⟨h, hn⟩
    · rw [if_neg hp]
      obtain ⟨h1, h2⟩ := ih (seen ++ [p.source])
      constructor
      · simp only [List.map_cons, List.nodup_cons]
        refine ⟨?_, h1⟩
        intro hmem
        have := (h2 p.source).mp hmem
        exact this.2 (by simp)
      · intro src
        simp only [List.map_cons, List.mem_cons]
        rw [h2 src]
        simp only [List.mem_append, List.mem_singleton, not_or]
        constructor
        · rintro (h | ⟨h, hn1, _⟩)
          · rw [h]; exact ⟨Or.inl rfl, hp⟩
          · exact ⟨Or.inr h, hn1⟩
        · rintro ⟨h | h, hn⟩
          · exact Or.inl h
          · by_cases hs : src = p.source
            · exact Or.inl hs
            · exact Or.inr ⟨h, hn, hs⟩

/-- The run of packets that come with their source and whose writes succeed, from any
dispatcher: the map only grows, by one entry per packet that is the first of its
source, each with the link of a new call of the routing dispatcher, and every packet
is written to the link of the entry of its source. -/
theorem runDispatch_fromSource (ps : List Packet) :
    ∀ v : Dispatcher, (∀ p ∈ ps, ∃ src, p.fromSource src) →
      (runDispatch v ps).conns
          = v.conns ++ entriesFrom v.calls.length (firstPackets (v.conns.map Prod.fst) ps)
      ∧ (runDispatch v ps).calls
          = v.calls ++ (firstPackets (v.conns.map Prod.fst) ps).map Packet.destination
      ∧ (runDispatch v ps).writes
          = v.writes ++ ps.map (writeTo (runDispatch v ps).conns)
      ∧ (runDispatch v ps).closed = v.closed := by
  induction ps with
  | nil => intro v _; simp [runDispatch, firstPackets, entriesFrom]
  | cons p ps ih =>
    intro v hps
    obtain ⟨src, hin, hw⟩ := hps p (List.mem_cons_self p ps)
    have hrest : ∀ q ∈ ps, ∃ src, q.fromSource src :=
      fun q hq => hps q (List.mem_cons_of_mem p hq)
    have hsrc : p.source = src := by simp [Packet.source, hin]
    by_cases hmem : src ∈ v.conns.map Prod.fst
    · -- the entry exists
      have hsome : ∃ e, v.conns.get src = some e := by
        cases hg : v.conns.get src with
        | none => exact absurd hmem ((get_none_iff _ _).mp hg)
        | some e => exact ⟨e, rfl⟩
      obtain ⟨e, he⟩ := hsome
      have hstep : v.Dispatch p.inbound p.destination p.payload p.writeErr
          = { v with writes := v.writes ++ [(e.link, p.payload, p.destination)] } := by
        simp [Dispatcher.Dispatch, Dispatcher.getInboundRay, hin, hw, he]
      obtain ⟨h1, h2, h3, h4⟩ :=
        ih (v.Dispatch p.inbound p.destination p.payload p.writeErr) hrest
      simp only [runDispatch]
      rw [hstep] at h1 h2 h3 h4 ⊢
      simp only at h1 h2 h3 h4
      have hfp : firstPackets (v.conns.map Prod.fst) (p :: ps)
          = firstPackets (v.conns.map Prod.fst) ps := by
        simp [firstPackets, hsrc, hmem]
      rw [hfp]
      refine ⟨h1, h2, ?_, h4⟩
      rw [h3, List.map_cons, List.append_assoc]
      congr 1
      simp only [List.singleton_append, List.cons.injEq, and_true]
      simp only [writeTo, hsrc]
      rw [h1, get_append_left _ _ _ hmem, he]
      rfl
    · -- a new entry is created
      have hnone : v.conns.get src = none := (get_none_iff _ _).mpr hmem
      have hstep : v.Dispatch p.inbound p.destination p.payload p.writeErr
          = { conns := v.conns ++ [(src, { link := v.calls.length })],
              calls := v.calls ++ [p.destination],
              writes := v.writes ++ [(v.calls.length, p.payload, p.destination)],
              closed := v.closed } := by
        simp [Dispatcher.Dispatch, Dispatcher.getInboundRay, hin, hw, hnone,
          set_of_not_mem _ _ _ hmem]
      obtain ⟨h1, h2, h3, h4⟩ :=
        ih (v.Dispatch p.inbound p.destination p.payload p.writeErr) hrest
      simp only [runDispatch]
      rw [hstep] at h1 h2 h3 h4 ⊢
      simp only [List.map_append, List.map_cons, List.map_nil, List.length_append,
        List.length_singleton] at h1 h2 h3 h4
      have hfp : firstPackets (v.conns.map Prod.fst) (p :: ps)
          = p :: firstPackets (v.conns.map Prod.fst ++ [src]) ps := by
        simp [firstPackets, hsrc, hmem]
      rw [hfp]
      refine ⟨?_, ?_, ?_, h4⟩
      · rw [h1]
        simp [entriesFrom, hsrc]
      · rw [h2]
        simp
      · rw [h3, List.map_cons, List.append_assoc]
        congr 1
        simp only [List.singleton_append, List.cons.injEq, and_true]
        simp only [writeTo, hsrc]
        rw [h1, get_append_left _ _ _ (by simp), get_append_singleton _ _ _ hmem]
        rfl

theorem runDispatch_append (ps qs : List Packet) :
    ∀ v : Dispatcher, runDispatch v (ps ++ qs) = runDispatch (runDispatch v ps) qs := by
  induction ps with
  | nil => intro v; rfl
  | cons p ps ih => intro v; simp only [List.cons_append, runDispatch]; exact ih _

/-- The step of a packet that comes with `NoSource` and whose write succeeds. -/
theorem Dispatch_noSource (v : Dispatcher) (p : Packet) (src : Destination)
    (hin : p.inbound = some { Source := src, NoSource := true }) (hw : p.writeErr = none) :
    v.Dispatch p.inbound p.destination p.payload p.writeErr
      = { conns := v.conns.set src { link := v.calls.length },
          calls := v.calls ++ [p.destination],
          writes := v.writes ++ [(v.calls.length, p.payload, p.destination)],
          closed := v.closed } := by
  simp [Dispatcher.Dispatch, Dispatcher.getInboundRay, hin, hw]

theorem runDispatch_noSource (ps : List Packet) :
    ∀ v : Dispatcher,
      (∀ p ∈ ps, ∃ src, p.inbound = some { Source := src, NoSource := true }
        ∧ p.writeErr = none) →
      (runDispatch v ps).calls = v.calls ++ ps.map Packet.destination
      ∧ (runDispatch v ps).writes = v.writes ++ writesFrom v.calls.length ps
      ∧ (runDispatch v ps).closed = v.closed := by
  induction ps with
  | nil => intro v _; simp [runDispatch, writesFrom]
  | cons p ps ih =>
    intro v hps
    obtain ⟨src, hin, hw⟩ := hps p (List.mem_cons_self p ps)
    obtain ⟨h1, h2, h3⟩ :=
      ih (v.Dispatch p.inbound p.destination p.payload p.writeErr)
        (fun q hq => hps q (List.mem_cons_of_mem p hq))
    simp only [runDispatch]
    rw [Dispatch_noSource v p src hin hw] at h1 h2 h3 ⊢
    simp only [List.length_append, List.length_singleton] at h1 h2 h3
    refine ⟨?_, ?_, h3⟩
    · rw [h1]; simp
    · rw [h2]; simp [writesFrom]

end udp

/-- C19. One mux entry per source: with Inbound.NoSource false, for every sequence of
Dispatch calls on a new dispatcher whose writes succeed, so that no entry is removed
in between: the map holds at most one entry per source address, and one for every
source seen; the routing dispatcher is called exactly once per distinct source, on
its first packet and with the destination of that packet, the n-th call giving the
link of the n-th entry; every packet, the first and the later ones, is written to
the link of the entry of its source; and no link is closed. -/
theorem C19_one_entry_per_source (ps : List udp.Packet)
    (hps : ∀ p ∈ ps, ∃ src, p.fromSource src) :
    ((udp.runDispatch udp.NewDispatcher ps).conns.map Prod.fst).Nodup
    ∧ (∀ src, src ∈ (udp.runDispatch udp.NewDispatcher ps).conns.map Prod.fst
        ↔ src ∈ ps.map udp.Packet.source)
    ∧ (udp.runDispatch udp.NewDispatcher ps).conns
        = udp.entriesFrom 0 (udp.firstPackets [] ps)
    ∧ (udp.runDispatch udp.NewDispatcher ps).calls
        = (udp.firstPackets [] ps).map udp.Packet.destination
    ∧ (udp.runDispatch udp.NewDispatcher ps).calls.length
        = (udp.runDispatch udp.NewDispatcher ps).conns.length
    ∧ (udp.runDispatch udp.NewDispatcher ps).writes
        = ps.map (udp.writeTo (udp.runDispatch udp.NewDispatcher ps).conns)
    ∧ (udp.runDispatch udp.NewDispatcher ps).closed = [] := by
  obtain ⟨h1, h2, h3, h4⟩ := udp.runDispatch_fromSource ps udp.NewDispatcher hps
  simp only [udp.NewDispatcher, List.nil_append, List.map_nil, List.length_nil] at h1 h2 h3 h4
  obtain ⟨hn, hmem⟩ := udp.firstPackets_sources ps []
  have hkeys : (udp.runDispatch udp.NewDispatcher ps).conns.map Prod.fst
      = (udp.firstPackets [] ps).map udp.Packet.source := by
    rw [show (udp.runDispatch udp.NewDispatcher ps).conns = _ from h1, udp.entriesFrom_keys]
  refine ⟨?_, ?_, h1, h2, ?_, h3, h4⟩
  · rw [hkeys]; exact hn
  · intro src
    rw [hkeys, hmem src]
    simp
  · rw [show (udp.runDispatch udp.NewDispatcher ps).calls = _ from h2,
      show (udp.runDispatch udp.NewDispatcher ps).conns = _ from h1,
      udp.entriesFrom_length, List.length_map]

/-- C19 on four packets from the hosts 10.0.0.1, 10.0.0.2, 10.0.0.1 and 10.0.0.2: two
entries, two calls of the routing dispatcher, and the third and fourth packet written
to the links 0 and 1. -/
theorem C19_one_entry_per_source_witness :
    (∀ p ∈ [udp.Packet.fromHost "10.0.0.1" false [1], udp.Packet.fromHost "10.0.0.2" false [2],
            udp.Packet.fromHost "10.0.0.1" false [3], udp.Packet.fromHost "10.0.0.2" false [4]],
        p.fromSource p.source)
    ∧ (udp.runDispatch udp.NewDispatcher
          [udp.Packet.fromHost "10.0.0.1" false [1], udp.Packet.fromHost "10.0.0.2" false [2],
           udp.Packet.fromHost "10.0.0.1" false [3],
           udp.Packet.fromHost "10.0.0.2" false [4]]).writes.map Prod.fst = [0, 1, 0, 1]
    ∧ (udp.runDispatch udp.NewDispatcher
          [udp.Packet.fromHost "10.0.0.1" false [1], udp.Packet.fromHost "10.0.0.2" false [2],
           udp.Packet.fromHost "10.0.0.1" false [3],
           udp.Packet.fromHost "10.0.0.2" false [4]]).calls.length
      = (udp.runDispatch udp.NewDispatcher
          [udp.Packet.fromHost "10.0.0.1" false [1], udp.Packet.fromHost "10.0.0.2" false [2],
           udp.Packet.fromHost "10.0.0.1" false [3],
           udp.Packet.fromHost "10.0.0.2" false [4]]).conns.length := by
  have hall : ∀ p ∈ [udp.Packet.fromHost "10.0.0.1" false [1],
      udp.Packet.fromHost "10.0.0.2" false [2], udp.Packet.fromHost "10.0.0.1" false [3],
      udp.Packet.fromHost "10.0.0.2" false [4]], p.fromSource p.source := by
    intro p hp
    simp only [List.mem_cons, List.mem_singleton, List.not_mem_nil, or_false] at hp
    rcases hp with h | h | h | h <;> subst h <;> exact ⟨rfl, rfl⟩
  exact ⟨hall, by decide,
    (C19_one_entry_per_source _ (fun p hp => ⟨p.source, hall p hp⟩)).2.2.2.2.1⟩

/-- C20, as stated, fails: two packets from the same host dispatched with NoSource set
make two calls of the routing dispatcher, and the second packet is written to the
link of the second call, not to the link the first packet created. -/
theorem C20_NoSource_new_entry_per_packet_counterexample :
    (udp.runDispatch udp.NewDispatcher
        [udp.Packet.fromHost "10.0.0.1" true [1],
         udp.Packet.fromHost "10.0.0.1" true [2]]).calls.length = 2
    ∧ (udp.runDispatch udp.NewDispatcher
        [udp.Packet.fromHost "10.0.0.1" true [1],
         udp.Packet.fromHost "10.0.0.1" true [2]]).writes.map Prod.fst = [0, 1]
    ∧ (udp.runDispatch udp.NewDispatcher
        [udp.Packet.fromHost "10.0.0.1" true [1],
         udp.Packet.fromHost "10.0.0.1" true [2]]).conns
        = [({ Address := "10.0.0.1", Port := 5000, Network := Network.UDP }, { link := 1 })] :=
  ⟨by decide, by decide, by decide⟩

/-- C20, amended. With Inbound.NoSource set, the entries are not looked up: from any
dispatcher and for every sequence of packets whose writes succeed, every packet makes
one call of the routing dispatcher, with its destination, and is written to the link
that call returned; the entry of that link is stored under the source of the
packet, in place of the entry stored there before, so that after a packet the map
holds for its source the entry just created; and no link is closed. -/
theorem C20_NoSource_entries (v : udp.Dispatcher) (ps : List udp.Packet)
    (hps : ∀ p ∈ ps, ∃ src, p.inbound = some { Source := src, NoSource := true }
      ∧ p.writeErr = none) :
    (udp.runDispatch v ps).calls = v.calls ++ ps.map udp.Packet.destination
    ∧ (udp.runDispatch v ps).writes = v.writes ++ udp.writesFrom v.calls.length ps
    ∧ (udp.runDispatch v ps).closed = v.closed
    ∧ (∀ qs p, ps = qs ++ [p] →
        (udp.runDispatch v ps).conns.get p.source
          = some { link := v.calls.length + qs.length }) := by
  obtain ⟨h1, h2, h3⟩ := udp.runDispatch_noSource ps v hps
  refine ⟨h1, h2, h3, ?_⟩
  intro qs p hsplit
  subst hsplit
  obtain ⟨src, hin, hw⟩ := hps p (by simp)
  have hq := (udp.runDispatch_noSource qs v
    (fun q hq => hps q (List.mem_append_left _ hq))).1
  rw [udp.runDispatch_append]
  simp only [udp.runDispatch]
  rw [udp.Dispatch_noSource _ p src hin hw]
  have hsrc : p.source = src := by simp [udp.Packet.source, hin]
  rw [hsrc, udp.get_set_self, hq]
  simp

/-- C20 on three packets with NoSource set, from two hosts: three calls of the routing
dispatcher, and the packets written to the links 0, 1 and 2. -/
theorem C20_NoSource_entries_witness :
    (∀ p ∈ [udp.Packet.fromHost "10.0.0.1" true [1], udp.Packet.fromHost "10.0.0.2" true [2],
            udp.Packet.fromHost "10.0.0.1" true [3]],
        ∃ src, p.inbound = some { Source := src, NoSource := true } ∧ p.writeErr = none)
    ∧ (udp.runDispatch udp.NewDispatcher
        [udp.Packet.fromHost "10.0.0.1" true [1], udp.Packet.fromHost "10.0.0.2" true [2],
         udp.Packet.fromHost "10.0.0.1" true [3]]).writes.map Prod.fst = [0, 1, 2]
    ∧ (udp.runDispatch udp.NewDispatcher
        [udp.Packet.fromHost "10.0.0.1" true [1], udp.Packet.fromHost "10.0.0.2" true [2],
         udp.Packet.fromHost "10.0.0.1" true [3]]).calls
      = udp.NewDispatcher.calls
        ++ [udp.Packet.fromHost "10.0.0.1" true [1], udp.Packet.fromHost "10.0.0.2" true [2],
            udp.Packet.fromHost "10.0.0.1" true [3]].map udp.Packet.destination := by
  have hall : ∀ p ∈ [udp.Packet.fromHost "10.0.0.1" true [1],
      udp.Packet.fromHost "10.0.0.2" true [2], udp.Packet.fromHost "10.0.0.1" true [3]],
      ∃ src, p.inbound = some { Source := src, NoSource := true } ∧ p.writeErr = none := by
    intro p hp
    simp only [List.mem_cons, List.mem_singleton, List.not_mem_nil, or_false] at hp
    rcases hp with h | h | h <;> subst h <;> exact ⟨_, rfl, rfl⟩
  exact ⟨hall, by decide, (C20_NoSource_entries udp.NewDispatcher _ hall).1⟩

/-! ## C21: the context slots -/

namespace session

theorem Value_of_not_mem (ctx : Context) (key : Key) (h : key ∉ ctx.map Prod.fst) :
    ctx.Value key = none := by
  induction ctx with
  | nil => rfl
  | cons x parent ih =>
    obtain ⟨k, v⟩ := x
    simp only [List.map_cons, List.mem_cons, not_or] at h
    unfold Context.Value
    rw [if_neg (fun hk => h.1 hk.symm)]
    exact ih h.2

theorem Value_WithValue (ctx : Context) (key key2 : Key) (val : Value) :
    (WithValue ctx key val).Value key2 = if key = key2 then some val else ctx.Value key2 :=
  rfl

end session

/-- C21. Session context slots: for each of the six slots id, inbound, outbound,
proxyRecord, proxySession and content, the getter returns nil, 0 for the id, on a
context in which no value was ever set for the key of the slot; on the context a setter
returns, the getter of the slot returns the value set, so that the latest setter wins,
and the getters of the five other slots return what they returned before. -/
theorem C21_context_slots (ctx : session.Context) :
    ((session.Key.session session.sessionKey.idSessionKey ∉ ctx.map Prod.fst →
          session.IDFromContext ctx = 0)
      ∧ (session.Key.session session.sessionKey.inboundSessionKey ∉ ctx.map Prod.fst →
          session.InboundFromContext ctx = none)
      ∧ (session.Key.session session.sessionKey.outboundSessionKey ∉ ctx.map Prod.fst →
          session.OutboundFromContext ctx = none)
      ∧ (session.Key.session session.sessionKey.proxyRecordSessionKey ∉ ctx.map Prod.fst →
          session.ProxyRecordFromContext ctx = none)
      ∧ (session.Key.session session.sessionKey.proxySessionSessionKey ∉ ctx.map Prod.fst →
          session.ProxySessionFromContext ctx = none)
      ∧ (session.Key.session session.sessionKey.contentSessionKey ∉ ctx.map Prod.fst →
          session.ContentFromContext ctx = none))
    ∧ (∀ id, session.slots (session.ContextWithID ctx id)
        = { session.slots ctx with id := id })
    ∧ (∀ inbound, session.slots (session.ContextWithInbound ctx inbound)
        = { session.slots ctx with inbound := inbound })
    ∧ (∀ outbound, session.slots (session.ContextWithOutbound ctx outbound)
        = { session.slots ctx with outbound := outbound })
    ∧ (∀ record, session.slots (session.ContextWithProxyRecord ctx record)
        = { session.slots ctx with proxyRecord := record })
    ∧ (∀ sess, session.slots (session.ContextWithProxySession ctx sess)
        = { session.slots ctx with proxySession := sess })
    ∧ (∀ content, session.slots (session.ContextWithContent ctx content)
        = { session.slots ctx with content := content }) := by
  refine ⟨⟨?_, ?_, ?_, ?_, ?_, ?_⟩, fun _ => rfl, fun _ => rfl, fun _ => rfl, fun _ => rfl,
    fun _ => rfl, fun _ => rfl⟩
  · intro h
    simp only [session.IDFromContext, session.Value_of_not_mem ctx _ h]
  · intro h
    simp only [session.InboundFromContext, session.Value_of_not_mem ctx _ h]
  · intro h
    simp only [session.OutboundFromContext, session.Value_of_not_mem ctx _ h]
  · intro h
    simp only [session.ProxyRecordFromContext, session.Value_of_not_mem ctx _ h]
  · intro h
    simp only [session.ProxySessionFromContext, session.Value_of_not_mem ctx _ h]
  · intro h
    simp only [session.ContentFromContext, session.Value_of_not_mem ctx _ h]

/-- C21 on the context in which an id, then an inbound, then the nil inbound were set:
the getters return the id, the nil inbound set last, and no outbound. -/
theorem C21_context_slots_witness :
    session.slots
        (session.ContextWithInbound
          (session.ContextWithInbound (session.ContextWithID session.Background 7)
            (some { Source := { Address := "a", Port := 1, Network := Network.UDP },
                    NoSource := false }))
          none)
      = { id := 7, inbound := none, outbound := none, proxyRecord := none,
          proxySession := none, content := none }
    ∧ session.OutboundFromContext
        (session.ContextWithInbound
          (session.ContextWithInbound (session.ContextWithID session.Background 7)
            (some { Source := { Address := "a", Port := 1, Network := Network.UDP },
                    NoSource := false }))
          none) = none :=
  ⟨(C21_context_slots _).2.2.1 none, (C21_context_slots _).1.2.2.1 (by decide)⟩

/-! ## C22: which writes are accepted -/

theorem not_full_iff (o : pipeOption) (size : Int) :
    o.isFull size = false ↔ (o.limit < 0 ∨ size ≤ o.limit) := by
  simp only [pipeOption.isFull, Bool.and_eq_false_iff, decide_eq_false_iff_not, ge_iff_le,
    gt_iff_lt, not_le, not_lt]

theorem writeLoop_accepted (p : pipe) (hopen : p.state = state.open_) (mb : MultiBuffer)
    (hfree : p.option.isFull p.data.Len = false) (wakes : List Wake) :
    (p.writeLoop mb wakes).2 = some none
    ∧ (p.writeLoop mb wakes).1.data = (if p.data.isNone then mb else MergeMulti p.data mb) := by
  unfold pipe.writeLoop pipe.writeMultiBufferInternal
  by_cases hd : p.data.isNone = true <;> simp [pipe.getState, hopen, hfree, hd]

theorem writeLoop_full (mb : MultiBuffer) (wakes : List Wake) :
    ∀ p : pipe, p.state = state.open_ → p.option.isFull p.data.Len = true →
      (p.writeLoop mb wakes).1.data = p.data := by
  induction wakes with
  | nil =>
    intro p hopen hfull
    unfold pipe.writeLoop pipe.writeMultiBufferInternal
    by_cases hdis : p.option.discardOverflow = true <;>
      simp [pipe.getState, hopen, hfull, hdis]
  | cons w ws ih =>
    intro p hopen hfull
    unfold pipe.writeLoop pipe.writeMultiBufferInternal
    by_cases hdis : p.option.discardOverflow = true
    · simp [pipe.getState, hopen, hfull, hdis]
    · cases w with
      | signal =>
        simp only [pipe.getState, hopen, hfull, hdis]
        simpa using ih { p with writeSignal := false } hopen hfull
      | done => simp [pipe.getState, hopen, hfull, hdis]

/-- C22. Write acceptance: a non-empty WriteMultiBuffer on an Open pipe is accepted, so
that it returns nil with its bytes appended after the buffered ones, exactly when the
limit is negative or the size buffered before the write is at most the limit, whatever
the size of the written buffer; an unbounded pipe reports full for no size; a write at
exactly the bound is accepted and overshoots the bound, and every non-empty write after
it, with no read in between, leaves the buffered data as they are. -/
theorem C22_write_acceptance (p : pipe) (hopen : p.state = state.open_) (mb : MultiBuffer)
    (hne : mb.IsEmpty = false) (wakes : List Wake) :
    (((p.WriteMultiBuffer mb wakes).2 = some none
        ∧ (p.WriteMultiBuffer mb wakes).1.data.bytes = p.data.bytes ++ mb.bytes)
      ↔ (p.option.limit < 0 ∨ p.data.Len ≤ p.option.limit))
    ∧ (¬ (p.option.limit < 0 ∨ p.data.Len ≤ p.option.limit) →
        (p.WriteMultiBuffer mb wakes).1.data = p.data)
    ∧ (p.option.limit < 0 → ∀ size, p.option.isFull size = false)
    ∧ (p.data.Len = p.option.limit →
        (p.WriteMultiBuffer mb wakes).2 = some none
        ∧ (p.WriteMultiBuffer mb wakes).1.data.Len = p.option.limit + mb.Len
        ∧ p.option.limit < (p.WriteMultiBuffer mb wakes).1.data.Len
        ∧ ∀ mb2 wakes2, mb2.IsEmpty = false →
            ((p.WriteMultiBuffer mb wakes).1.WriteMultiBuffer mb2 wakes2).1.data
              = (p.WriteMultiBuffer mb wakes).1.data) := by
  have hW : ∀ (q : pipe) (m : MultiBuffer) (w : List Wake), m.IsEmpty = false →
      q.WriteMultiBuffer m w = q.writeLoop m w := by
    intro q m w hm
    unfold pipe.WriteMultiBuffer
    simp [hm]
  have hpos : 0 < mb.Len := by
    have h0 := Len_nonneg mb
    have hz : mb.Len ≠ 0 := fun h => by
      rw [(IsEmpty_iff_Len mb).mpr h] at hne
      exact Bool.noConfusion hne
    omega
  have hacc : p.option.isFull p.data.Len = false →
      (p.WriteMultiBuffer mb wakes).2 = some none
      ∧ (p.WriteMultiBuffer mb wakes).1.data.bytes = p.data.bytes ++ mb.bytes
      ∧ (p.WriteMultiBuffer mb wakes).1.data.Len = p.data.Len + mb.Len := by
    intro hfree
    rw [hW p mb wakes hne]
    obtain ⟨h1, h2⟩ := writeLoop_accepted p hopen mb hfree wakes
    refine ⟨h1, ?_, ?_⟩
    · rw [h2]
      cases hd : p.data with
      | none => simp [MultiBuffer.bytes]
      | some d => simp [bytes_MergeMulti]
    · rw [h2]
      cases hd : p.data with
      | none => simp [MultiBuffer.Len]
      | some d => simp [Len_MergeMulti]
  have hrej : p.option.isFull p.data.Len = true →
      (p.WriteMultiBuffer mb wakes).1.data = p.data := by
    intro hfull
    rw [hW p mb wakes hne]
    exact writeLoop_full mb wakes p hopen hfull
  refine ⟨⟨?_, ?_⟩, ?_, ?_, ?_⟩
  · rintro ⟨_, hb⟩
    by_contra hc
    have hfull : p.option.isFull p.data.Len = true := by
      rw [← Bool.not_eq_false]
      exact fun h => hc ((not_full_iff _ _).mp h)
    rw [hrej hfull] at hb
    have hlen := congrArg List.length hb
    rw [List.length_append] at hlen
    have hl := Len_eq_length_bytes mb
    omega
  · intro hc
    exact ⟨(hacc ((not_full_iff _ _).mpr hc)).1, (hacc ((not_full_iff _ _).mpr hc)).2.1⟩
  · intro hc
    apply hrej
    rw [← Bool.not_eq_false]
    exact fun h => hc ((not_full_iff _ _).mp h)
  · intro hneg size
    exact (not_full_iff _ _).mpr (Or.inl hneg)
  · intro hat
    obtain ⟨h1, _, h3⟩ := hacc ((not_full_iff _ _).mpr (Or.inr (le_of_eq hat)))
    refine ⟨h1, by rw [h3, hat], by rw [h3, hat]; omega, ?_⟩
    intro mb2 wakes2 hne2
    rw [hW _ mb2 wakes2 hne2]
    have hl0 : 0 ≤ p.option.limit := hat ▸ Len_nonneg p.data
    have hst := (WriteMultiBuffer_state p mb wakes).1
    have hopt := (WriteMultiBuffer_bound p mb wakes hl0).1
    apply writeLoop_full mb2 wakes2 _ (hst.trans hopen)
    rw [hopt, h3, hat]
    simp only [pipeOption.isFull, Bool.and_eq_true, decide_eq_true_eq]
    exact ⟨hl0, by omega⟩

/-- C22 on a pipe of limit 2 that holds two bytes, for a write of one byte. -/
theorem C22_write_acceptance_witness :
    ((pipe.New { limit := 2, discardOverflow := false } 16).WriteMultiBuffer
        (some [[1, 2]]) []).1.state = state.open_
    ∧ (((pipe.New { limit := 2, discardOverflow := false } 16).WriteMultiBuffer
        (some [[1, 2]]) []).1.WriteMultiBuffer (some [[3]]) []).1.data = some [[1, 2], [3]]
    ∧ ((((pipe.New { limit := 2, discardOverflow := false } 16).WriteMultiBuffer
        (some [[1, 2]]) []).1.WriteMultiBuffer (some [[3]]) []).1.WriteMultiBuffer
        (some [[4]]) [Wake.signal]).1.data = some [[1, 2], [3]] :=
  ⟨by decide, by decide,
    ((C22_write_acceptance
      ((pipe.New { limit := 2, discardOverflow := false } 16).WriteMultiBuffer
        (some [[1, 2]]) []).1 (by decide) (some [[3]]) (by decide) []).2.2.2
      (by decide)).2.2.2 (some [[4]]) [Wake.signal] (by decide)⟩

/-! ## C23, C24 and C25: the sniffer -/

theorem ReadMultiBufferTimeout_timer (wakes : List TimedWake) :
    ∀ p : pipe, TimedWake.timer ∈ wakes → (p.ReadMultiBufferTimeout wakes).2.isSome = true := by
  induction wakes with
  | nil => intro p h; simp at h
  | cons w ws ih =>
    intro p h
    unfold pipe.ReadMultiBufferTimeout
    simp only
    split_ifs with hr
    · rfl
    · cases w with
      | signal => exact ih _ (by simpa using h)
      | done => exact ih _ (by simpa using h)
      | timer => rfl

theorem Cache_timer (r : cachedReader) (Size : Nat) (wakes : List TimedWake)
    (h : TimedWake.timer ∈ wakes) : (r.Cache Size wakes).isSome = true := by
  have h1 := ReadMultiBufferTimeout_timer wakes r.reader h
  unfold cachedReader.Cache
  rcases hres : r.reader.ReadMultiBufferTimeout wakes with ⟨p1, _ | ⟨mb, e⟩⟩
  · rw [hres] at h1
    exact absurd h1 (by simp)
  · rfl

/-- One iteration of the loop that makes an attempt. -/
theorem snifferLoop_attempt (env : SniffEnv) (fuel totalAttempt : Nat) (cReader r1 : cachedReader)
    (attempts : List Int) (payload : Buffer) (hctx : env.ctxDone totalAttempt = false)
    (hn : totalAttempt < 2) (hc : env.Cache (totalAttempt + 1) cReader = some (r1, payload)) :
    (payload ≠ [] → (env.Sniff (totalAttempt + 1) payload).2 ≠ some sniffError.ErrNoClue →
      snifferLoop env (fuel + 1) totalAttempt cReader attempts
        = some { cReader := r1,
                 attempts := attempts
                   ++ [if totalAttempt + 1 > 1 then Millisecond * 5 else Millisecond * 300],
                 result := (env.Sniff (totalAttempt + 1) payload).1,
                 err := (env.Sniff (totalAttempt + 1) payload).2 })
    ∧ (env.noVerdict (totalAttempt + 1) payload → payload.length = env.Size →
      snifferLoop env (fuel + 1) totalAttempt cReader attempts
        = some { cReader := r1,
                 attempts := attempts
                   ++ [if totalAttempt + 1 > 1 then Millisecond * 5 else Millisecond * 300],
                 result := none, err := some sniffError.errUnknownContent })
    ∧ (env.noVerdict (totalAttempt + 1) payload → payload.length ≠ env.Size →
      snifferLoop env (fuel + 1) totalAttempt cReader attempts
        = snifferLoop env fuel (totalAttempt + 1) r1
            (attempts
              ++ [if totalAttempt + 1 > 1 then Millisecond * 5 else Millisecond * 300])) := by
  have hn2 : ¬ totalAttempt + 1 > 2 := by omega
  refine ⟨?_, ?_, ?_⟩
  · intro hne hv
    have he : payload.isEmpty = false := by
      cases payload with
      | nil => exact absurd rfl hne
      | cons _ _ => rfl
    simp only [snifferLoop, hctx, hn2, hc, he, hv]
    simp
    intro h
    exact absurd h hv
  · intro hv hfull
    simp only [snifferLoop, hctx, hn2, hc, hfull]
    rcases hv with hv | hv
    · subst hv
      simp
    · simp [hv]
  · intro hv hfull
    simp only [snifferLoop, hctx, hn2, hc, hfull]
    rcases hv with hv | hv
    · subst hv
      simp
    · simp [hv]
/-- The iteration after the two attempts. -/
theorem snifferLoop_last (env : SniffEnv) (fuel totalAttempt : Nat) (cReader : cachedReader)
    (attempts : List Int) (hn : 2 ≤ totalAttempt) :
    snifferLoop env (fuel + 1) totalAttempt cReader attempts
      = some { cReader := cReader, attempts := attempts, result := none,
               err := some (if env.ctxDone totalAttempt = true then sniffError.ctxErr
                        else sniffError.errSniffingTimeout) } := by
  have hn2 : totalAttempt + 1 > 2 := by omega
  by_cases hctx : env.ctxDone totalAttempt = true
  · simp [snifferLoop, hctx]
  · simp [snifferLoop, hctx, hn2]

/-- The timeouts of the attempts that can follow the iteration entered with
`totalAttempt`. -/
theorem snifferLoop_attempts (env : SniffEnv) (fuel : Nat) :
    ∀ (totalAttempt : Nat) (cReader : cachedReader) (attempts : List Int) (out : Sniffed),
      snifferLoop env fuel totalAttempt cReader attempts = some out →
      ∃ more, out.attempts = attempts ++ more
        ∧ more <+: (if totalAttempt = 0 then [Millisecond * 300, Millisecond * 5]
            else if totalAttempt = 1 then [Millisecond * 5] else []) := by
  induction fuel with
  | zero =>
    intro n r log out h
    simp [snifferLoop] at h
  | succ fuel ih =>
    intro n r log out h
    by_cases hctx : env.ctxDone n = true
    · simp only [snifferLoop, hctx, if_true, Option.some.injEq] at h
      exact ⟨[], by rw [← h]; simp, List.nil_prefix⟩
    · by_cases hn2 : n + 1 > 2
      · rw [snifferLoop_last env fuel n r log (by omega), Option.some.injEq] at h
        exact ⟨[], by rw [← h]; simp, List.nil_prefix⟩
      · rw [Bool.not_eq_true] at hctx
        have hn : n < 2 := by omega
        cases hc : env.Cache (n + 1) r with
        | none => simp [snifferLoop, hctx, hn2, hc] at h
        | some res =>
          obtain ⟨r1, payload⟩ := res
          obtain ⟨h1, h2, h3⟩ := snifferLoop_attempt env fuel n r r1 log payload hctx hn hc
          have hbud : (if n = 0 then [Millisecond * 300, Millisecond * 5]
              else if n = 1 then [Millisecond * 5] else [])
              = (if n + 1 > 1 then Millisecond * 5 else Millisecond * 300)
                :: (if n + 1 = 0 then [Millisecond * 300, Millisecond * 5]
                    else if n + 1 = 1 then [Millisecond * 5] else []) := by
            interval_cases n <;> simp
          rw [hbud]
          by_cases hv : env.noVerdict (n + 1) payload
          · by_cases hfull : payload.length = env.Size
            · rw [h2 hv hfull, Option.some.injEq] at h
              refine ⟨[if n + 1 > 1 then Millisecond * 5 else Millisecond * 300], by rw [← h],
                ?_⟩
              exact (List.prefix_cons_inj _).mpr List.nil_prefix
            · rw [h3 hv hfull] at h
              obtain ⟨more, hm1, hm2⟩ := ih _ _ _ _ h
              refine ⟨(if n + 1 > 1 then Millisecond * 5 else Millisecond * 300) :: more, ?_, ?_⟩
              · rw [hm1, List.append_assoc, List.singleton_append]
              · exact (List.prefix_cons_inj _).mpr hm2
          · have hne : payload ≠ [] := fun hp => hv (Or.inl hp)
            have hans : (env.Sniff (n + 1) payload).2 ≠ some sniffError.ErrNoClue :=
              fun hp => hv (Or.inr hp)
            rw [h1 hne hans, Option.some.injEq] at h
            refine ⟨[if n + 1 > 1 then Millisecond * 5 else Millisecond * 300], by rw [← h],
              ?_⟩
            exact (List.prefix_cons_inj _).mpr List.nil_prefix

/-- With timers that fire, the loop returns within the iterations that are left. -/
theorem snifferLoop_returns (env : SniffEnv) (htimer : ∀ n, TimedWake.timer ∈ env.wakes n)
    (k : Nat) :
    ∀ (totalAttempt : Nat) (cReader : cachedReader) (attempts : List Int),
      2 ≤ totalAttempt + k →
      ∃ out, ∀ fuel, k + 1 ≤ fuel →
        snifferLoop env fuel totalAttempt cReader attempts = some out := by
  induction k with
  | zero =>
    intro n r log hn
    refine ⟨(⟨r, log, none, some (if env.ctxDone n = true then sniffError.ctxErr
        else sniffError.errSniffingTimeout)⟩ : Sniffed), fun fuel hf => ?_⟩
    obtain ⟨f, rfl⟩ : ∃ f, fuel = f + 1 := ⟨fuel - 1, by omega⟩
    exact snifferLoop_last env f n r log (by omega)
  | succ k ih =>
    intro n r log hn
    by_cases hctx : env.ctxDone n = true
    · refine ⟨{ cReader := r, attempts := log, result := none,
                err := some sniffError.ctxErr }, fun fuel hf => ?_⟩
      obtain ⟨f, rfl⟩ : ∃ f, fuel = f + 1 := ⟨fuel - 1, by omega⟩
      simp [snifferLoop, hctx]
    · by_cases hn2 : n + 1 > 2
      · refine ⟨(⟨r, log, none, some (if env.ctxDone n = true then sniffError.ctxErr
        else sniffError.errSniffingTimeout)⟩ : Sniffed), fun fuel hf => ?_⟩
        obtain ⟨f, rfl⟩ : ∃ f, fuel = f + 1 := ⟨fuel - 1, by omega⟩
        exact snifferLoop_last env f n r log (by omega)
      · rw [Bool.not_eq_true] at hctx
        have hlt : n < 2 := by omega
        have hsome := Cache_timer { r with reader := env.arrive (n + 1) r.reader } env.Size
          (env.wakes (n + 1)) (htimer (n + 1))
        obtain ⟨res, hc⟩ := Option.isSome_iff_exists.mp hsome
        obtain ⟨r1, payload⟩ := res
        have hc2 : env.Cache (n + 1) r = some (r1, payload) := hc
        by_cases hv : env.noVerdict (n + 1) payload
        · by_cases hfull : payload.length = env.Size
          · refine ⟨(⟨r1, log ++ [if n + 1 > 1 then Millisecond * 5 else Millisecond * 300], none,
              some sniffError.errUnknownContent⟩ : Sniffed),
              fun fuel hf => ?_⟩
            obtain ⟨f, rfl⟩ : ∃ f, fuel = f + 1 := ⟨fuel - 1, by omega⟩
            exact (snifferLoop_attempt env f n r r1 log payload hctx hlt hc2).2.1 hv hfull
          · obtain ⟨out, hout⟩ := ih (n + 1) r1
              (log ++ [if n + 1 > 1 then Millisecond * 5 else Millisecond * 300]) (by omega)
            refine ⟨out, fun fuel hf => ?_⟩
            obtain ⟨f, rfl⟩ : ∃ f, fuel = f + 1 := ⟨fuel - 1, by omega⟩
            rw [(snifferLoop_attempt env f n r r1 log payload hctx hlt hc2).2.2 hv hfull]
            exact hout f (by omega)
        · have hne : payload ≠ [] := fun hp => hv (Or.inl hp)
          have hans : (env.Sniff (n + 1) payload).2 ≠ some sniffError.ErrNoClue :=
            fun hp => hv (Or.inr hp)
          refine ⟨(⟨r1, log ++ [if n + 1 > 1 then Millisecond * 5 else Millisecond * 300],
            (env.Sniff (n + 1) payload).1, (env.Sniff (n + 1) payload).2⟩ : Sniffed), fun fuel hf => ?_⟩
          obtain ⟨f, rfl⟩ : ∃ f, fuel = f + 1 := ⟨fuel - 1, by omega⟩
          exact (snifferLoop_attempt env f n r r1 log payload hctx hlt hc2).1 hne hans
/-- C23, as stated, fails: nothing arrives, so that neither attempt gives a verdict or
fills the buffer, and the context is done when the loop comes round the third time;
the sniffer returns the error of the context, not the sniffing timeout. -/
theorem C23_context_done_counterexample :
    (SniffEnv.sample 4 (fun n => decide (n = 2)) (fun _ => none)
        (fun _ _ => (none, some sniffError.ErrNoClue))).Cache 1 sampleReader
      = some (sampleReader, [])
    ∧ (SniffEnv.sample 4 (fun n => decide (n = 2)) (fun _ => none)
        (fun _ _ => (none, some sniffError.ErrNoClue))).Cache 2 sampleReader
      = some (sampleReader, [])
    ∧ sniffer (SniffEnv.sample 4 (fun n => decide (n = 2)) (fun _ => none)
        (fun _ _ => (none, some sniffError.ErrNoClue))) 3 sampleReader
      = some { cReader := sampleReader, attempts := [Millisecond * 300, Millisecond * 5],
               result := none, err := some sniffError.ctxErr } := by
  decide

/-- C23, amended. Sniffer attempt budget: for every behaviour of the context, of the
inner reader and of the classifier, the sniffer makes at most two Cache attempts, the
first with a timeout of 300 ms and the second with one of 5 ms; when the timer of each
attempt fires it returns within three iterations of its loop, with the same result for
every larger bound; and if neither attempt gave a verdict or filled the buffer, it
returns the sniffing timeout, unless the context is done when the loop comes round the
third time, in which case it returns the error of the context. -/
theorem C23_sniffer_budget (env : SniffEnv) (cReader : cachedReader) :
    (∀ fuel out, sniffer env fuel cReader = some out →
      out.attempts <+: [Millisecond * 300, Millisecond * 5])
    ∧ ((∀ n, TimedWake.timer ∈ env.wakes n) →
      ∃ out, ∀ fuel, 3 ≤ fuel → sniffer env fuel cReader = some out)
    ∧ (∀ r1 b1 r2 b2 fuel, 3 ≤ fuel →
      env.ctxDone 0 = false → env.Cache 1 cReader = some (r1, b1) →
      env.noVerdict 1 b1 → b1.length ≠ env.Size →
      env.ctxDone 1 = false → env.Cache 2 r1 = some (r2, b2) →
      env.noVerdict 2 b2 → b2.length ≠ env.Size →
      sniffer env fuel cReader
        = some { cReader := r2, attempts := [Millisecond * 300, Millisecond * 5],
                 result := none,
                 err := some (if env.ctxDone 2 = true then sniffError.ctxErr
                          else sniffError.errSniffingTimeout) }) := by
  refine ⟨?_, ?_, ?_⟩
  · intro fuel out h
    obtain ⟨more, h1, h2⟩ := snifferLoop_attempts env fuel 0 cReader [] out h
    rw [h1, List.nil_append]
    simpa using h2
  · intro htimer
    exact snifferLoop_returns env htimer 2 0 cReader [] (by omega)
  · intro r1 b1 r2 b2 fuel hf hd0 hc1 hv1 hf1 hd1 hc2 hv2 hf2
    obtain ⟨f, rfl⟩ : ∃ f, fuel = f + 1 + 1 + 1 := ⟨fuel - 3, by omega⟩
    unfold sniffer
    rw [(snifferLoop_attempt env (f + 1 + 1) 0 cReader r1 [] b1 hd0 (by omega) hc1).2.2 hv1 hf1,
      (snifferLoop_attempt env (f + 1) 1 r1 r2 _ b2 hd1 (by omega) hc2).2.2 hv2 hf2,
      snifferLoop_last env f 2 r2 _ (by omega)]
    simp

/-- C23 where nothing arrives and the context is never done. -/
theorem C23_sniffer_budget_witness :
    sniffer (SniffEnv.sample 4 (fun _ => false) (fun _ => none)
        (fun _ _ => (none, some sniffError.ErrNoClue))) 3 sampleReader
      = some { cReader := sampleReader, attempts := [Millisecond * 300, Millisecond * 5],
               result := none, err := some sniffError.errSniffingTimeout } :=
  (C23_sniffer_budget (SniffEnv.sample 4 (fun _ => false) (fun _ => none)
      (fun _ _ => (none, some sniffError.ErrNoClue))) sampleReader).2.2
    sampleReader [] sampleReader [] 3 (by decide) (by decide) (by decide) (Or.inl rfl)
    (by decide) (by decide) (by decide) (Or.inl rfl) (by decide)

/-- C24. Sniffer verdict pass-through: on the first or the second attempt, when the
classifier is called on the cached bytes, which are not empty, and answers anything but
ErrNoClue, the sniffer returns this answer, result and error, and has made no attempt
beyond this one; when the classifier answers ErrNoClue and the buffer is not full, the
sniffer goes on with the next iteration of its loop. -/
theorem C24_verdict_pass_through (env : SniffEnv) (cReader : cachedReader) (fuel : Nat) :
    (∀ r1 b1, env.ctxDone 0 = false → env.Cache 1 cReader = some (r1, b1) → b1 ≠ [] →
      ((env.Sniff 1 b1).2 ≠ some sniffError.ErrNoClue →
        sniffer env (fuel + 1) cReader
          = some { cReader := r1, attempts := [Millisecond * 300],
                   result := (env.Sniff 1 b1).1, err := (env.Sniff 1 b1).2 })
      ∧ ((env.Sniff 1 b1).2 = some sniffError.ErrNoClue → b1.length ≠ env.Size →
        sniffer env (fuel + 1) cReader = snifferLoop env fuel 1 r1 [Millisecond * 300]))
    ∧ (∀ r1 b1 r2 b2, env.ctxDone 0 = false → env.Cache 1 cReader = some (r1, b1) →
      env.noVerdict 1 b1 → b1.length ≠ env.Size →
      env.ctxDone 1 = false → env.Cache 2 r1 = some (r2, b2) → b2 ≠ [] →
      ((env.Sniff 2 b2).2 ≠ some sniffError.ErrNoClue →
        sniffer env (fuel + 2) cReader
          = some { cReader := r2, attempts := [Millisecond * 300, Millisecond * 5],
                   result := (env.Sniff 2 b2).1, err := (env.Sniff 2 b2).2 })
      ∧ ((env.Sniff 2 b2).2 = some sniffError.ErrNoClue → b2.length ≠ env.Size →
        sniffer env (fuel + 2) cReader
          = snifferLoop env fuel 2 r2 [Millisecond * 300, Millisecond * 5])) := by
  refine ⟨?_, ?_⟩
  · intro r1 b1 hd0 hc1 hne
    obtain ⟨h1, _, h3⟩ := snifferLoop_attempt env fuel 0 cReader r1 [] b1 hd0 (by omega) hc1
    refine ⟨fun hans => ?_, fun hans hfull => ?_⟩
    · unfold sniffer
      rw [h1 hne hans]
      simp
    · unfold sniffer
      rw [h3 (Or.inr hans) hfull]
      simp
  · intro r1 b1 r2 b2 hd0 hc1 hv1 hf1 hd1 hc2 hne
    have hfirst := (snifferLoop_attempt env (fuel + 1) 0 cReader r1 [] b1 hd0 (by omega)
      hc1).2.2 hv1 hf1
    obtain ⟨h1, _, h3⟩ := snifferLoop_attempt env fuel 1 r1 r2
      ([] ++ [if 0 + 1 > 1 then Millisecond * 5 else Millisecond * 300]) b2 hd1 (by omega) hc2
    refine ⟨fun hans => ?_, fun hans hfull => ?_⟩
    · unfold sniffer
      rw [hfirst, h1 hne hans]
      simp
    · unfold sniffer
      rw [hfirst, h3 (Or.inr hans) hfull]
      simp

/-- C24 where the bytes "GET" arrive before the first attempt and the classifier
answers with the protocol "http". -/
theorem C24_verdict_pass_through_witness :
    sniffer (SniffEnv.sample 4 (fun _ => false)
        (fun n => if n = 1 then some [[71, 69, 84]] else none)
        (fun _ _ => (some { Protocol := "http", Domain := "a.b" }, none))) 1 sampleReader
      = some { cReader := { reader := { sampleReader.reader with
                                        readSignal := true, writeSignal := true },
                            cache := some [[71, 69, 84]] },
               attempts := [Millisecond * 300],
               result := some { Protocol := "http", Domain := "a.b" }, err := none } :=
  ((C24_verdict_pass_through (SniffEnv.sample 4 (fun _ => false)
      (fun n => if n = 1 then some [[71, 69, 84]] else none)
      (fun _ _ => (some { Protocol := "http", Domain := "a.b" }, none))) sampleReader 0).1
    { reader := { sampleReader.reader with readSignal := true, writeSignal := true },
      cache := some [[71, 69, 84]] }
    [71, 69, 84] (by decide) (by decide) (by decide)).1 (by decide)

/-- C25. Sniffer unknown content: when after the first or the second attempt the
scratch buffer is full and the classifier has given no verdict, having answered
ErrNoClue, the sniffer returns the unknown-content error, with no result and no
attempt beyond this one, and not the sniffing timeout. -/
theorem C25_unknown_content (env : SniffEnv) (cReader : cachedReader) (fuel : Nat) :
    (∀ r1 b1, env.ctxDone 0 = false → env.Cache 1 cReader = some (r1, b1) →
      env.noVerdict 1 b1 → b1.length = env.Size →
      sniffer env (fuel + 1) cReader
        = some { cReader := r1, attempts := [Millisecond * 300], result := none,
                 err := some sniffError.errUnknownContent })
    ∧ (∀ r1 b1 r2 b2, env.ctxDone 0 = false → env.Cache 1 cReader = some (r1, b1) →
      env.noVerdict 1 b1 → b1.length ≠ env.Size →
      env.ctxDone 1 = false → env.Cache 2 r1 = some (r2, b2) →
      env.noVerdict 2 b2 → b2.length = env.Size →
      sniffer env (fuel + 2) cReader
        = some { cReader := r2, attempts := [Millisecond * 300, Millisecond * 5],
                 result := none, err := some sniffError.errUnknownContent }) := by
  refine ⟨?_, ?_⟩
  · intro r1 b1 hd0 hc1 hv1 hf1
    unfold sniffer
    rw [(snifferLoop_attempt env fuel 0 cReader r1 [] b1 hd0 (by omega) hc1).2.1 hv1 hf1]
    simp
  · intro r1 b1 r2 b2 hd0 hc1 hv1 hf1 hd1 hc2 hv2 hf2
    unfold sniffer
    rw [(snifferLoop_attempt env (fuel + 1) 0 cReader r1 [] b1 hd0 (by omega) hc1).2.2 hv1 hf1,
      (snifferLoop_attempt env fuel 1 r1 r2 _ b2 hd1 (by omega) hc2).2.1 hv2 hf2]
    simp

/-- C25 with buffers of four bytes, where two bytes arrive before the first attempt
and three more before the second, and the classifier has no clue. -/
theorem C25_unknown_content_witness :
    sniffer (SniffEnv.sample 4 (fun _ => false)
        (fun n => if n = 1 then some [[71, 69]] else some [[84, 32, 47]])
        (fun _ _ => (none, some sniffError.ErrNoClue))) 2 sampleReader
      = some { cReader := { reader := { sampleReader.reader with
                                        readSignal := true, writeSignal := true },
                            cache := some [[71, 69], [84, 32, 47]] },
               attempts := [Millisecond * 300, Millisecond * 5], result := none,
               err := some sniffError.errUnknownContent } :=
  (C25_unknown_content (SniffEnv.sample 4 (fun _ => false)
      (fun n => if n = 1 then some [[71, 69]] else some [[84, 32, 47]])
      (fun _ _ => (none, some sniffError.ErrNoClue))) sampleReader 0).2
    { reader := { sampleReader.reader with readSignal := true, writeSignal := true },
      cache := some [[71, 69]] }
    [71, 69]
    { reader := { sampleReader.reader with readSignal := true, writeSignal := true },
      cache := some [[71, 69], [84, 32, 47]] }
    [71, 69, 84, 32] (by decide) (by decide) (Or.inr rfl) (by decide) (by decide)
    (by decide) (Or.inr rfl) (by decide)

/-! ## C26: the override prefix rule -/

theorem HasPrefix_iff (s p : String) : HasPrefix s p = true ↔ p.toList <+: s.toList := by
  unfold HasPrefix
  exact List.isPrefixOf_iff_prefix

theorem shouldOverride_iff (result : SniffResult) (domainOverride : List String) :
    shouldOverride result domainOverride = true
      ↔ ∃ p ∈ domainOverride, p.toList <+: result.Protocol.toList := by
  induction domainOverride with
  | nil => simp [shouldOverride]
  | cons p ps ih =>
    unfold shouldOverride
    by_cases h : HasPrefix result.Protocol p = true
    · rw [if_pos h]
      simp only [List.mem_cons, exists_eq_or_imp, true_iff]
      exact Or.inl ((HasPrefix_iff _ _).mp h)
    · rw [if_neg h, ih]
      simp only [List.mem_cons, exists_eq_or_imp]
      constructor
      · exact Or.inr
      · rintro (h1 | h1)
        · exact absurd ((HasPrefix_iff _ _).mpr h1) h
        · exact h1

/-- C26. Override prefix rule: shouldOverride(result, list) is true exactly when some
element of the list is a prefix of result.Protocol(); it is false for the empty list,
true whenever the list contains the empty string, and the same for every reordering of
the list. -/
theorem C26_shouldOverride_rule (result : SniffResult) (domainOverride : List String) :
    (shouldOverride result domainOverride = true
      ↔ ∃ p ∈ domainOverride, p.toList <+: result.Protocol.toList)
    ∧ shouldOverride result [] = false
    ∧ ("" ∈ domainOverride → shouldOverride result domainOverride = true)
    ∧ (∀ reordered : List String, reordered.Perm domainOverride →
        shouldOverride result reordered = shouldOverride result domainOverride) := by
  refine ⟨shouldOverride_iff result domainOverride, rfl, ?_, ?_⟩
  · intro h
    exact (shouldOverride_iff result domainOverride).mpr ⟨"", h, List.nil_prefix⟩
  · intro reordered hperm
    rw [Bool.eq_iff_iff, shouldOverride_iff, shouldOverride_iff]
    constructor
    · rintro ⟨p, hp, h⟩
      exact ⟨p, hperm.mem_iff.mp hp, h⟩
    · rintro ⟨p, hp, h⟩
      exact ⟨p, hperm.mem_iff.mpr hp, h⟩

/-- C26 on the protocol "http" with the list "tls", "ht" and the list "tls", "". -/
theorem C26_shouldOverride_rule_witness :
    shouldOverride { Protocol := "http", Domain := "a.b" } ["tls", ""] = true
    ∧ shouldOverride { Protocol := "http", Domain := "a.b" } ["ht", "tls"]
        = shouldOverride { Protocol := "http", Domain := "a.b" } ["tls", "ht"] :=
  ⟨(C26_shouldOverride_rule { Protocol := "http", Domain := "a.b" } ["tls", ""]).2.2.1
      (by decide),
    (C26_shouldOverride_rule { Protocol := "http", Domain := "a.b" } ["tls", "ht"]).2.2.2
      ["ht", "tls"] (List.Perm.swap "tls" "ht" [])⟩

/-! ## C27: the boundary cases of selectServer -/

/-- C27. Boundary cases of selectServer: with an empty list of old measures it returns
the first entry of the new list, and null when the new list is empty too, whatever the
selection is; with a non-empty list of old measures and an empty list of new ones it
returns the current selection. -/
theorem C27_selectServer_boundary (s : LatencyStrategy) (oldMeasures newMeasures : List Server) :
    s.selectServer [] newMeasures = some newMeasures.head?
    ∧ s.selectServer [] [] = some none
    ∧ (oldMeasures ≠ [] → s.selectServer oldMeasures [] = some s.selectedServer) := by
  refine ⟨?_, rfl, ?_⟩
  · cases newMeasures <;> simp [LatencyStrategy.selectServer]
  · intro h
    cases oldMeasures with
    | nil => exact absurd rfl h
    | cons m ms => simp [LatencyStrategy.selectServer]

/-- C27 for a strategy that has selected "b", with the old measure "a" and no new one. -/
theorem C27_selectServer_boundary_witness :
    LatencyStrategy.selectServer
      { interval := 10, tolerance := 5, lastMeasure := 0, servers := [],
        selectedServer := some { latency := 9, tag := "b" } }
      [{ latency := 7, tag := "a" }] [] = some (some { latency := 9, tag := "b" }) :=
  (C27_selectServer_boundary
    { interval := 10, tolerance := 5, lastMeasure := 0, servers := [],
      selectedServer := some { latency := 9, tag := "b" } }
    [{ latency := 7, tag := "a" }] []).2.2 (by decide)

/-! ## C28: the result of PickOutbound -/

/-- C28. PickOutbound result: for every non-empty candidate list PickOutbound returns;
with no selection it returns an element of the candidate list, with a selection it
returns the selected tag, in the list or not; lastMeasure becomes now exactly when a
selection exists and now.Sub(lastMeasure) exceeds the interval, which is then also when
a measurement is started, and nothing else of the strategy, the selection least of all,
changes.  For an interval below the largest duration, now.Sub(lastMeasure) exceeds the
interval exactly when the difference of the two times does. -/
theorem C28_PickOutbound_result (s : LatencyStrategy) (tags : List String) (roll : Nat)
    (now : Int) (hne : tags ≠ []) :
    ∃ r, s.PickOutbound tags roll now = some r
      ∧ (s.selectedServer = none → r.tag ∈ tags)
      ∧ (∀ selected, s.selectedServer = some selected → r.tag = selected.tag)
      ∧ r.strategy.lastMeasure
          = (if s.selectedServer.isSome = true ∧ Time.Sub now s.lastMeasure > s.interval
              then now else s.lastMeasure)
      ∧ r.measureStarted
          = decide (s.selectedServer.isSome = true ∧ Time.Sub now s.lastMeasure > s.interval)
      ∧ r.strategy.selectedServer = s.selectedServer
      ∧ r.strategy = { s with lastMeasure := r.strategy.lastMeasure }
      ∧ (-9223372036854775808 ≤ s.interval → s.interval < 9223372036854775807 →
          (Time.Sub now s.lastMeasure > s.interval ↔ now - s.lastMeasure > s.interval)) := by
  have hn : tags.length ≠ 0 := fun h => hne (List.length_eq_zero.mp h)
  have hsub : -9223372036854775808 ≤ s.interval → s.interval < 9223372036854775807 →
      (Time.Sub now s.lastMeasure > s.interval ↔ now - s.lastMeasure > s.interval) := by
    intro h1 h2
    unfold Time.Sub
    omega
  obtain ⟨interval, tolerance, lastMeasure, servers, selectedServer⟩ := s
  unfold LatencyStrategy.PickOutbound
  simp only [hn, if_false]
  cases selectedServer with
  | none =>
    have hlt : dice.Roll roll tags.length < tags.length :=
      Nat.mod_lt _ (Nat.pos_of_ne_zero hn)
    obtain ⟨tag, htag⟩ : ∃ tag, tags.get? (dice.Roll roll tags.length) = some tag :=
      ⟨_, List.get?_eq_get hlt⟩
    exact ⟨{ strategy := ⟨interval, tolerance, lastMeasure, servers, none⟩, tag := tag,
             measureStarted := false },
      by simp only [htag], fun _ => List.get?_mem htag, fun selected h => Option.noConfusion h, by simp,
      by simp, rfl, rfl, hsub⟩
  | some selected =>
    by_cases hgt : Time.Sub now lastMeasure > interval
    · exact ⟨{ strategy := ⟨interval, tolerance, now, servers, some selected⟩,
               tag := selected.tag, measureStarted := true },
        by simp only [hgt, if_true], fun h => Option.noConfusion h, fun selected2 h => by rw [Option.some.inj h],
        by simp [hgt], by simp [hgt], rfl, rfl, hsub⟩
    · exact ⟨{ strategy := ⟨interval, tolerance, lastMeasure, servers, some selected⟩,
               tag := selected.tag, measureStarted := false },
        by simp only [hgt, if_false], fun h => Option.noConfusion h, fun selected2 h => by rw [Option.some.inj h],
        by simp [hgt], by simp [hgt], rfl, rfl, hsub⟩

/-- C28 for a strategy that has selected "c", which is not among the candidates "a" and
"b", measured last at time 100 with an interval of 50, called at time 200. -/
theorem C28_PickOutbound_result_witness :
    ["a", "b"] ≠ []
    ∧ ∃ r, LatencyStrategy.PickOutbound
        { interval := 50, tolerance := 5, lastMeasure := 100, servers := [],
          selectedServer := some { latency := 9, tag := "c" } } ["a", "b"] 7 200 = some r
      ∧ r.tag = "c" ∧ r.strategy.lastMeasure = 200 := by
  refine ⟨by decide, ?_⟩
  obtain ⟨r, h1, _, h3, h4, _⟩ := C28_PickOutbound_result
    { interval := 50, tolerance := 5, lastMeasure := 100, servers := [],
      selectedServer := some { latency := 9, tag := "c" } } ["a", "b"] 7 200 (by decide)
  exact ⟨r, h1, h3 _ rfl, by rw [h4]; decide⟩

/-! ## C29: removal of an entry of the UDP dispatcher -/

namespace udp

theorem get_delete_other (m : connMap) (k other : Destination) (h : other ≠ k) :
    (m.delete k).get other = m.get other := by
  induction m with
  | nil => rfl
  | cons x xs ih =>
    obtain ⟨k2, e⟩ := x
    unfold connMap.delete
    by_cases hk : k2 = k
    · rw [if_pos hk]
      have : k2 ≠ other := fun h2 => h (h2.symm.trans hk)
      simp [connMap.get, this]
    · rw [if_neg hk]
      simp only [connMap.get, ih]

theorem get_delete_self (m : connMap) (k : Destination) (h : (m.map Prod.fst).Nodup) :
    (m.delete k).get k = none := by
  induction m with
  | nil => rfl
  | cons x xs ih =>
    obtain ⟨k2, e⟩ := x
    simp only [List.map_cons, List.nodup_cons] at h
    unfold connMap.delete
    by_cases hk : k2 = k
    · rw [if_pos hk]
      exact (get_none_iff xs k).mpr (hk ▸ h.1)
    · rw [if_neg hk]
      simp only [connMap.get, if_neg hk]
      exact ih h.2

theorem get_set_other (m : connMap) (k other : Destination) (e : connEntry) (h : other ≠ k) :
    (m.set k e).get other = m.get other := by
  induction m with
  | nil =>
    have : k ≠ other := fun h2 => h h2.symm
    simp [connMap.set, connMap.get, this]
  | cons x xs ih =>
    obtain ⟨k2, e2⟩ := x
    unfold connMap.set
    by_cases hk : k2 = k
    · rw [if_pos hk]
      have : k2 ≠ other := fun h2 => h (h2.symm.trans hk)
      simp [connMap.get, this]
    · rw [if_neg hk]
      simp only [connMap.get, ih]

theorem keys_set (m : connMap) (k : Destination) (e : connEntry) :
    (m.set k e).map Prod.fst = if k ∈ m.map Prod.fst then m.map Prod.fst
      else m.map Prod.fst ++ [k] := by
  induction m with
  | nil => simp [connMap.set]
  | cons x xs ih =>
    obtain ⟨k2, e2⟩ := x
    unfold connMap.set
    by_cases hk : k2 = k
    · rw [if_pos hk]
      simp [hk]
    · rw [if_neg hk]
      have hk2 : ¬ k = k2 := fun h => hk h.symm
      simp only [List.map_cons, ih, List.mem_cons, hk2, false_or]
      split_ifs <;> simp

theorem nodup_set (m : connMap) (k : Destination) (e : connEntry)
    (h : (m.map Prod.fst).Nodup) : ((m.set k e).map Prod.fst).Nodup := by
  rw [keys_set]
  split_ifs with hk
  · exact h
  · exact List.Nodup.append h (List.nodup_singleton k) (by simpa using hk)

theorem getInboundRay_entry (v : Dispatcher) (nosrc : Bool) (src dest : Destination) :
    (v.getInboundRay nosrc src dest).1.conns.get src = some (v.getInboundRay nosrc src dest).2
    ∧ (∀ other, other ≠ src →
        (v.getInboundRay nosrc src dest).1.conns.get other = v.conns.get other)
    ∧ (v.getInboundRay nosrc src dest).1.closed = v.closed
    ∧ ((v.conns.map Prod.fst).Nodup →
        ((v.getInboundRay nosrc src dest).1.conns.map Prod.fst).Nodup) := by
  unfold Dispatcher.getInboundRay
  cases hg : (if !nosrc then v.conns.get src else none) with
  | some entry =>
    have h1 : v.conns.get src = some entry := by
      cases nosrc <;> simp at hg
      exact hg
    exact ⟨h1, fun _ _ => rfl, rfl, fun h => h⟩
  | none =>
    exact ⟨get_set_self _ _ _, fun other ho => get_set_other _ _ _ _ ho, rfl,
      fun h => nodup_set _ _ _ h⟩

theorem RemoveRay_present (v : Dispatcher) (src : Destination) (conn : connEntry)
    (hmap : (v.conns.map Prod.fst).Nodup) (h : v.conns.get src = some conn) :
    (v.RemoveRay src).conns.get src = none
    ∧ (v.RemoveRay src).closed = v.closed ++ [conn.link]
    ∧ (∀ other, other ≠ src → (v.RemoveRay src).conns.get other = v.conns.get other)
    ∧ (v.RemoveRay src).calls = v.calls
    ∧ (v.RemoveRay src).writes = v.writes := by
  unfold Dispatcher.RemoveRay
  rw [h]
  exact ⟨get_delete_self _ _ hmap, rfl, fun other ho => get_delete_other _ _ _ ho, rfl, rfl⟩

end udp

/-- C29. What the code does where the claim fails.  Two packets from the host "a" with
NoSource set: the entry of the first packet, with the link 0, is replaced in the map by
the entry of the second, with the link 1.  The cancel of the first entry, run when its
timer expires or its reader loop exits, is RemoveRay for the source: it closes the link
1 and removes the second entry, and the link 0 is not closed.  Without NoSource the
same two packets share the entry of the link 0, and its cancel closes the link 0. -/
theorem C29_replaced_entry_failing :
    (udp.NewDispatcher.getInboundRay true
        { Address := "a", Port := 5000, Network := Network.UDP }
        { Address := "8.8.8.8", Port := 53, Network := Network.UDP }).2 = { link := 0 }
    ∧ (udp.runDispatch udp.NewDispatcher
        [udp.Packet.fromHost "a" true [1], udp.Packet.fromHost "a" true [2]]).conns
        = [({ Address := "a", Port := 5000, Network := Network.UDP }, { link := 1 })]
    ∧ (udp.runDispatch udp.NewDispatcher
        [udp.Packet.fromHost "a" true [1], udp.Packet.fromHost "a" true [2]]).closed = []
    ∧ ((udp.runDispatch udp.NewDispatcher
        [udp.Packet.fromHost "a" true [1], udp.Packet.fromHost "a" true [2]]).RemoveRay
        { Address := "a", Port := 5000, Network := Network.UDP }).closed = [1]
    ∧ ((udp.runDispatch udp.NewDispatcher
        [udp.Packet.fromHost "a" true [1], udp.Packet.fromHost "a" true [2]]).RemoveRay
        { Address := "a", Port := 5000, Network := Network.UDP }).conns = []
    ∧ ((udp.runDispatch udp.NewDispatcher
        [udp.Packet.fromHost "a" false [1], udp.Packet.fromHost "a" false [2]]).RemoveRay
        { Address := "a", Port := 5000, Network := Network.UDP }).closed = [0] := by
  decide

/-- Removal of the entry the map holds.  In a dispatcher whose map holds an entry for a
source, once RemoveRay for the source has run, the map holds no entry for the source,
the reader and the writer of the link of the entry the map held are closed, the
entries of the other sources are as before, and the next Dispatch from the source
makes a new call to the routing dispatcher and enters the link it returns; a Dispatch
whose payload write fails removes the entry it used; RemoveRay for a source without an
entry changes nothing. -/
theorem RemoveRay_held_entry (v : udp.Dispatcher) (src : Destination)
    (hmap : (v.conns.map Prod.fst).Nodup) :
    (∀ conn, v.conns.get src = some conn →
      (v.RemoveRay src).conns.get src = none
      ∧ (v.RemoveRay src).closed = v.closed ++ [conn.link]
      ∧ (∀ other, other ≠ src → (v.RemoveRay src).conns.get other = v.conns.get other)
      ∧ (∀ (inbound : Inbound) destination payload, inbound.Source = src →
          ((v.RemoveRay src).Dispatch (some inbound) destination payload none).conns.get src
              = some { link := v.calls.length }
          ∧ ((v.RemoveRay src).Dispatch (some inbound) destination payload none).calls
              = v.calls ++ [destination]))
    ∧ (∀ (inbound : Inbound) destination payload err, inbound.Source = src →
        (v.Dispatch (some inbound) destination payload (some err)).conns.get src = none
        ∧ (v.Dispatch (some inbound) destination payload (some err)).closed
            = v.closed ++ [(v.getInboundRay inbound.NoSource src destination).2.link]
        ∧ (∀ other, other ≠ src →
            (v.Dispatch (some inbound) destination payload (some err)).conns.get other
              = v.conns.get other))
    ∧ (v.conns.get src = none → v.RemoveRay src = v) := by
  refine ⟨?_, ?_, ?_⟩
  · intro conn h
    obtain ⟨h1, h2, h3, h4, _⟩ := udp.RemoveRay_present v src conn hmap h
    refine ⟨h1, h2, h3, ?_⟩
    intro inbound destination payload hs
    subst hs
    have hlook : (if !inbound.NoSource then (v.RemoveRay inbound.Source).conns.get inbound.Source
        else none) = none := by
      cases inbound.NoSource <;> simp [h1]
    simp only [udp.Dispatcher.Dispatch, udp.Dispatcher.getInboundRay, hlook, h4, and_true]
    exact udp.get_set_self _ _ _
  · intro inbound destination payload err hs
    subst hs
    obtain ⟨g1, g2, g3, g4⟩ :=
      udp.getInboundRay_entry v inbound.NoSource inbound.Source destination
    obtain ⟨h1, h2, h3, _⟩ := udp.RemoveRay_present
      { (v.getInboundRay inbound.NoSource inbound.Source destination).1 with
        writes := (v.getInboundRay inbound.NoSource inbound.Source destination).1.writes
          ++ [((v.getInboundRay inbound.NoSource inbound.Source destination).2.link, payload,
                destination)] }
      inbound.Source _ (g4 hmap) g1
    refine ⟨h1, ?_, ?_⟩
    · exact h2.trans (by rw [← g3])
    · intro other ho
      exact (h3 other ho).trans (g2 other ho)
  · intro h
    unfold udp.Dispatcher.RemoveRay
    rw [h]

/-- The removal on the dispatcher that has taken one packet from host "a" and one from
host "b", for the source "a". -/
theorem RemoveRay_held_entry_example :
    (((udp.runDispatch udp.NewDispatcher
        [udp.Packet.fromHost "a" false [1], udp.Packet.fromHost "b" false [2]]).conns.map
        Prod.fst).Nodup)
    ∧ ((udp.runDispatch udp.NewDispatcher
        [udp.Packet.fromHost "a" false [1], udp.Packet.fromHost "b" false [2]]).RemoveRay
        { Address := "a", Port := 5000, Network := Network.UDP }).closed = [0] := by
  have hmap : (((udp.runDispatch udp.NewDispatcher
      [udp.Packet.fromHost "a" false [1], udp.Packet.fromHost "b" false [2]]).conns.map
      Prod.fst).Nodup) := by decide
  exact ⟨hmap, ((RemoveRay_held_entry _ { Address := "a", Port := 5000, Network := Network.UDP }
    hmap).1 { link := 0 } (by decide)).2.1⟩

/-! ## C30: the stat writers -/

/-- C30. What the code does where the claim fails.  WritePacket with the nil address:
InboundSizeWriter.WritePacket panics on `addr.Port`, whatever the DNS parser and the
inner writer would do, so that the inner writer receives no call and no error is
returned; OutboundSizeWriter.WritePacket and SizeStatWriter.WritePacket pass the same
packet with the nil address to the inner writer, once, and return its error. -/
theorem C30_inbound_nil_addr_failing :
    (InboundSizeWriter.WritePacket (fun _ => none)
        ⟨{ UploadBytes := 0, DownloadBytes := 5, RemoteAddr := "", Extra := "",
           OutboundTag := "" },
          { received := [], answer := fun _ _ => some error.ErrClosedPipe }⟩
        [1, 2, 3] none).isNone = true
    ∧ (InboundSizeWriter.WritePacket (fun _ => some ("A", "a.b"))
        ⟨{ UploadBytes := 0, DownloadBytes := 5, RemoteAddr := "", Extra := "",
           OutboundTag := "" },
          { received := [], answer := fun _ _ => (none : Option error) }⟩
        [1, 2, 3] none).isNone = true
    ∧ (OutboundSizeWriter.WritePacket
        ⟨{ UploadBytes := 0, DownloadBytes := 5, RemoteAddr := "", Extra := "",
           OutboundTag := "" },
          { received := [], answer := fun _ _ => some error.ErrClosedPipe }⟩
        [1, 2, 3] none).1.Writer.received = [WriterCall.WritePacket [1, 2, 3] none]
    ∧ (OutboundSizeWriter.WritePacket
        ⟨{ UploadBytes := 0, DownloadBytes := 5, RemoteAddr := "", Extra := "",
           OutboundTag := "" },
          { received := [], answer := fun _ _ => some error.ErrClosedPipe }⟩
        [1, 2, 3] none).2 = some error.ErrClosedPipe
    ∧ (SizeStatWriter.WritePacket
        ⟨{ value := 5 }, { received := [], answer := fun _ _ => some error.ErrClosedPipe }⟩
        [1, 2, 3] none).1.Writer.received = [WriterCall.WritePacket [1, 2, 3] none]
    ∧ (SizeStatWriter.WritePacket
        ⟨{ value := 5 }, { received := [], answer := fun _ _ => some error.ErrClosedPipe }⟩
        [1, 2, 3] none).2 = some error.ErrClosedPipe :=
  ⟨by decide, by decide, by decide, by decide, by decide, by decide⟩

/-- The panic of InboundSizeWriter.WritePacket on the nil address, for every session,
inner writer, packet and DNS parser. -/
theorem InboundSizeWriter_WritePacket_nil {ε : Type}
    (ParseDNSQuery : List Byte → Option (String × String)) (w : InboundSizeWriter ε)
    (b : Buffer) : InboundSizeWriter.WritePacket ParseDNSQuery w b none = none :=
  rfl

/-- The stat writers where they are transparent.  For InboundSizeWriter,
OutboundSizeWriter and SizeStatWriter, each of WriteMultiBuffer, WritePacket and Close
passes its arguments to the inner writer in one call of the same method, the only call
the inner writer receives, and returns the error of the inner writer, whatever this
writer answers; WritePacket of InboundSizeWriter does so for an address that is not
nil.  Each write adds the byte length of what is written, as an int64, to one count,
the upload bytes of the session for the inbound writer, the download bytes for the
outbound writer, the counter for the generic writer, and leaves the other count of the
session as it is; Close changes no count. -/
theorem stat_writers_transparent {ε : Type}
    (ParseDNSQuery : List Byte → Option (String × String)) (session : Session)
    (counter : Counter) (inner : LinkWriter ε) (mb : MultiBuffer) (b : Buffer) :
    (forwardedOnce inner (InboundSizeWriter.WriteMultiBuffer ⟨session, inner⟩ mb).1.Writer
        (WriterCall.WriteMultiBuffer mb)
        (InboundSizeWriter.WriteMultiBuffer ⟨session, inner⟩ mb).2
      ∧ (InboundSizeWriter.WriteMultiBuffer ⟨session, inner⟩ mb).1.Session.UploadBytes
          = wrap64 (session.UploadBytes + mb.Len)
      ∧ (InboundSizeWriter.WriteMultiBuffer ⟨session, inner⟩ mb).1.Session.DownloadBytes
          = session.DownloadBytes)
    ∧ (∀ a : PacketAddr, ∃ r,
        InboundSizeWriter.WritePacket ParseDNSQuery ⟨session, inner⟩ b (some a) = some r
        ∧ forwardedOnce inner r.1.Writer (WriterCall.WritePacket b (some a)) r.2
        ∧ r.1.Session.UploadBytes = wrap64 (session.UploadBytes + b.length)
        ∧ r.1.Session.DownloadBytes = session.DownloadBytes)
    ∧ (forwardedOnce inner (InboundSizeWriter.Close ⟨session, inner⟩).1.Writer
        WriterCall.Close (InboundSizeWriter.Close ⟨session, inner⟩).2
      ∧ (InboundSizeWriter.Close ⟨session, inner⟩).1.Session = session)
    ∧ (forwardedOnce inner (OutboundSizeWriter.WriteMultiBuffer ⟨session, inner⟩ mb).1.Writer
        (WriterCall.WriteMultiBuffer mb)
        (OutboundSizeWriter.WriteMultiBuffer ⟨session, inner⟩ mb).2
      ∧ (OutboundSizeWriter.WriteMultiBuffer ⟨session, inner⟩ mb).1.Session
          = { session with DownloadBytes := wrap64 (session.DownloadBytes + mb.Len) })
    ∧ (∀ addr : Option PacketAddr,
        forwardedOnce inner (OutboundSizeWriter.WritePacket ⟨session, inner⟩ b addr).1.Writer
          (WriterCall.WritePacket b addr)
          (OutboundSizeWriter.WritePacket ⟨session, inner⟩ b addr).2
        ∧ (OutboundSizeWriter.WritePacket ⟨session, inner⟩ b addr).1.Session
            = { session with DownloadBytes := wrap64 (session.DownloadBytes + b.length) })
    ∧ (forwardedOnce inner (OutboundSizeWriter.Close ⟨session, inner⟩).1.Writer
        WriterCall.Close (OutboundSizeWriter.Close ⟨session, inner⟩).2
      ∧ (OutboundSizeWriter.Close ⟨session, inner⟩).1.Session = session)
    ∧ (forwardedOnce inner (SizeStatWriter.WriteMultiBuffer ⟨counter, inner⟩ mb).1.Writer
        (WriterCall.WriteMultiBuffer mb) (SizeStatWriter.WriteMultiBuffer ⟨counter, inner⟩ mb).2
      ∧ (SizeStatWriter.WriteMultiBuffer ⟨counter, inner⟩ mb).1.Counter.value
          = wrap64 (counter.value + mb.Len))
    ∧ (∀ addr : Option PacketAddr,
        forwardedOnce inner (SizeStatWriter.WritePacket ⟨counter, inner⟩ b addr).1.Writer
          (WriterCall.WritePacket b addr) (SizeStatWriter.WritePacket ⟨counter, inner⟩ b addr).2
        ∧ (SizeStatWriter.WritePacket ⟨counter, inner⟩ b addr).1.Counter.value
            = wrap64 (counter.value + b.length))
    ∧ (forwardedOnce inner (SizeStatWriter.Close ⟨counter, inner⟩).1.Writer
        WriterCall.Close (SizeStatWriter.Close ⟨counter, inner⟩).2
      ∧ (SizeStatWriter.Close ⟨counter, inner⟩).1.Counter = counter)
    ∧ (∀ count n : Int, 0 ≤ count → 0 ≤ n → count + n < 9223372036854775808 →
        wrap64 (count + n) = count + n) := by
  refine ⟨⟨⟨rfl, rfl, rfl⟩, rfl, rfl⟩, ?_, ⟨⟨rfl, rfl, rfl⟩, rfl⟩, ⟨⟨rfl, rfl, rfl⟩, rfl⟩,
    fun addr => ⟨⟨rfl, rfl, rfl⟩, rfl⟩, ⟨⟨rfl, rfl, rfl⟩, rfl⟩, ⟨⟨rfl, rfl, rfl⟩, rfl⟩,
    fun addr => ⟨⟨rfl, rfl, rfl⟩, rfl⟩, ⟨⟨rfl, rfl, rfl⟩, rfl⟩, ?_⟩
  · intro a
    refine ⟨_, rfl, ⟨rfl, rfl, rfl⟩, ?_, ?_⟩
    · by_cases hp : a.Port = 53
      · cases hq : ParseDNSQuery b <;> simp [hp, hq, Session.AddUploadBytes]
      · simp [hp, Session.AddUploadBytes]
    · by_cases hp : a.Port = 53
      · cases hq : ParseDNSQuery b <;> simp [hp, hq, Session.AddUploadBytes]
      · simp [hp, Session.AddUploadBytes]
  · intro count n h0 hn hlt
    exact wrap64_of_range _ (by omega) hlt

/-- An outbound stat writer whose session has counted 5 download bytes, around a writer
that answers every call with an error, on a write of three bytes. -/
theorem stat_writers_transparent_example :
    (OutboundSizeWriter.WriteMultiBuffer
        ⟨{ UploadBytes := 0, DownloadBytes := 5, RemoteAddr := "", Extra := "",
           OutboundTag := "" },
          { received := [], answer := fun _ _ => some error.ErrClosedPipe }⟩
        (some [[1, 2], [3]])).1.Session.DownloadBytes = 8
    ∧ (OutboundSizeWriter.WriteMultiBuffer
        ⟨{ UploadBytes := 0, DownloadBytes := 5, RemoteAddr := "", Extra := "",
           OutboundTag := "" },
          { received := [], answer := fun _ _ => some error.ErrClosedPipe }⟩
        (some [[1, 2], [3]])).2 = some error.ErrClosedPipe :=
  ⟨(congrArg Session.DownloadBytes
      (stat_writers_transparent (fun _ => none)
        { UploadBytes := 0, DownloadBytes := 5, RemoteAddr := "", Extra := "",
          OutboundTag := "" }
        { value := 0 } { received := [], answer := fun _ _ => some error.ErrClosedPipe }
        (some [[1, 2], [3]]) []).2.2.2.1.2).trans (by decide),
    (stat_writers_transparent (fun _ => none)
        { UploadBytes := 0, DownloadBytes := 5, RemoteAddr := "", Extra := "",
          OutboundTag := "" }
        { value := 0 } { received := [], answer := fun _ _ => some error.ErrClosedPipe }
        (some [[1, 2], [3]]) []).2.2.2.1.1.2.2⟩

end V2Ray
